import Mathlib

/-!
Shallow embedding of the WebAssembly TurboFan graph builder of this
repository (src/src/wasm/tf-builder.cc together with the appended
wasm-opcodes.cc translation unit, and the WasmRunner test helper in
src/unnamed/part_000), used to check the frozen claims about the
specification.  IR nodes live in an arena (an array indexed by node id);
the builder state carries the control and effect cursors and the
per-trap-reason cache of the trap helper, exactly mirroring the mutable
state of TFBuilder and TFTrapHelper.
-/

set_option maxHeartbeats 1000000

namespace WasmTF

/-- Trap reasons, mirroring enum TrapReason in tf-builder.cc. -/
inductive TrapReason
  | Unreachable
  | MemOutOfBounds
  | DivByZero
  | DivUnrepresentable
  | RemByZero
  | FloatUnrepresentable
  | FuncInvalid
  | FuncSigMismatch
deriving DecidableEq, Repr

/-- The list of all trap reasons (kTrapCount entries). -/
def TrapReason.all : List TrapReason :=
  [.Unreachable, .MemOutOfBounds, .DivByZero, .DivUnrepresentable,
   .RemByZero, .FloatUnrepresentable, .FuncInvalid, .FuncSigMismatch]

/-- Diagnostic strings, mirroring kTrapMessages in tf-builder.cc. -/
def trapMessage : TrapReason → String
  | .Unreachable => "unreachable"
  | .MemOutOfBounds => "memory access out of bounds"
  | .DivByZero => "divide by zero"
  | .DivUnrepresentable => "divide result unrepresentable"
  | .RemByZero => "remainder by zero"
  | .FloatUnrepresentable => "integer result unrepresentable"
  | .FuncInvalid => "invalid function"
  | .FuncSigMismatch => "function signature mismatch"

/-- Branch hints (compiler::BranchHint). -/
inductive BranchHint
  | hNone
  | hTrue
  | hFalse
deriving DecidableEq, Repr

/-- The machine representation carried by a Phi operator; only the cases
used by the embedded builder code are included. -/
inductive MachType
  | machInt32
  | machInt64
deriving DecidableEq, Repr

/-- Primitive value types (LocalType in the source: kAstI32 and so on;
kAstStmt and kAstEnd are not needed by the embedded operations). -/
inductive LocalTy
  | i32
  | i64
  | f32
  | f64
deriving DecidableEq, Repr

/-- Memory access types (MemType in the source: kMemI8 .. kMemF64). -/
inductive MemTy
  | mI8
  | mU8
  | mI16
  | mU16
  | mI32
  | mU32
  | mI64
  | mU64
  | mF32
  | mF64
deriving DecidableEq, Repr

/-- Modelled from the spec: WasmOpcodes::MemSize is declared in
wasm-opcodes.h, which is not among the given sources; the spec (section 3,
memory access types) fixes the widths as i8/u8 one byte, i16/u16 two,
i32/u32/f32 four, i64/u64/f64 eight. -/
def memSize : MemTy → Nat
  | .mI8 => 1
  | .mU8 => 1
  | .mI16 => 2
  | .mU16 => 2
  | .mI32 => 4
  | .mU32 => 4
  | .mI64 => 8
  | .mU64 => 8
  | .mF32 => 4
  | .mF64 => 8

/-- IR operators.  Each constructor corresponds to one operator that the
embedded builder code can place on a node: common operators (Start, Branch,
projections, joins, Return, End, Call of the runtime-throw descriptor),
constants, and the machine operators used by the translated functions.
Constant operators carry their value; join operators carry their input
count, as in the compiler's common operator builder. -/
inductive Op
  | Start
  | Parameter (i : Nat)
  | Int32Const (v : Int)
  | Int64Const (v : Int)
  | IntPtrConst (v : Nat)
  | StrConst (s : String)
  | CEntryStub
  | ExternalRef
  | HeapConst
  | EmptyFrameState
  | RuntimeCallThrow
  | Branch (h : BranchHint)
  | IfTrue
  | IfFalse
  | Merge (n : Nat)
  | EffectPhi (n : Nat)
  | Phi (t : MachType) (n : Nat)
  | Return
  | End (n : Nat)
  | Word32Equal
  | Word64Equal
  | Int32Div
  | Int64Div
  | Int32Mod
  | Int64Mod
  | Uint32Mod
  | Uint64Mod
  | Uint32LessThanOrEqual
  | Load (t : MemTy)
  | Store (t : MemTy)
  | CheckedLoad (t : MemTy)
  | CheckedStore (t : MemTy)
  | ChangeInt32ToInt64
  | ChangeUint32ToUint64
  | Dead
deriving DecidableEq, Repr

/-- An IR node: an operator plus the ordered list of input node ids. -/
structure Node where
  op : Op
  inputs : List Nat
deriving DecidableEq, Repr

/-- Arena read with a Dead default outside the arena. -/
def aget (a : Array Node) (i : Nat) : Node :=
  if h : i < a.size then a[i] else ⟨.Dead, []⟩

/-- Arena in-place update (no effect outside the arena), mirroring
in-place node mutation through NodeProperties::ChangeOp and input edits. -/
def aset (a : Array Node) (i : Nat) (n : Node) : Array Node :=
  a.setD i n

/-- Two's-complement wrap of an integer into the int32 range, used when a
value is stored by Int32Constant. -/
def toInt32 (v : Int) : Int :=
  (v + 2 ^ 31) % 2 ^ 32 - 2 ^ 31

/-- Two's-complement wrap of an integer into the int64 range. -/
def toInt64 (v : Int) : Int :=
  (v + 2 ^ 63) % 2 ^ 64 - 2 ^ 63

/-- kMinInt of the 32-bit division lowering. -/
def kMinInt32 : Int := -(2 ^ 31)

/-- std::numeric_limits of int64_t, min(), of the 64-bit division lowering. -/
def kMinInt64 : Int := -(2 ^ 63)

/-- kMaxUInt32, the bound checked by BoundsCheckMem. -/
def kMaxUInt32 : Nat := 2 ^ 32 - 1

/-- The module environment fields read by the embedded builder operations
(ModuleEnv in wasm-module.h): the linear memory bounds and the asm.js
semantics flag. -/
structure ModuleEnvM where
  memStart : Nat
  memEnd : Nat
  asmJs : Bool
deriving DecidableEq, Repr

/-- The mutable state of TFBuilder together with its TFTrapHelper:
the node arena (node ids are arena indices), the ids of the graph's Start
node and (optional) End node, the control and effect cursors, the
per-reason trap block cache (traps and effects arrays of TFTrapHelper),
whether a module with a non-null context is attached (which decides
whether trap code calls the runtime), the module environment, and the
memoized mem_buffer and mem_size constants of TFBuilder. -/
structure Builder where
  nodes : Array Node
  startN : Nat
  endN : Option Nat
  control : Nat
  effect : Nat
  traps : TrapReason → Option Nat
  trapEffects : TrapReason → Option Nat
  hasCtx : Bool
  module : Option ModuleEnvM
  memBuf : Option Nat
  memSz : Option Nat

/-- Read a node of the builder's graph. -/
def Builder.nodeAt (b : Builder) (i : Nat) : Node :=
  aget b.nodes i

/-- Allocate a fresh node (graph()->NewNode); returns its id.  Constant
memoization performed by JSGraph for shared constants is not modelled:
every constant request yields a fresh node, which leaves every claim
checked here unchanged since no claim depends on constant-node sharing. -/
def Builder.newNode (b : Builder) (op : Op) (ins : List Nat) : Nat × Builder :=
  (b.nodes.size, { b with nodes := b.nodes.push ⟨op, ins⟩ })

/-- Overwrite a node in place (input edits plus ChangeOp). -/
def Builder.setNode (b : Builder) (i : Nat) (n : Node) : Builder :=
  { b with nodes := aset b.nodes i n }

/-- Update of the traps (or effects) array at one reason. -/
def setT (f : TrapReason → Option Nat) (R : TrapReason) (v : Nat) :
    TrapReason → Option Nat :=
  fun R2 => if R2 = R then some v else f R2

/-- TFBuilder::Int32Constant (via the graph's constant cache in the
source; modelled as a fresh node). -/
def Builder.int32ConstNode (b : Builder) (v : Int) : Nat × Builder :=
  b.newNode (.Int32Const (toInt32 v)) []

/-- TFBuilder::Int64Constant. -/
def Builder.int64ConstNode (b : Builder) (v : Int) : Nat × Builder :=
  b.newNode (.Int64Const (toInt64 v)) []

/-- TFBuilder::String: a constant node holding a diagnostic string. -/
def Builder.strConstNode (b : Builder) (s : String) : Nat × Builder :=
  b.newNode (.StrConst s) []

/-- ResizeMergeOrPhi of the common operator builder: same operator kind
with a new input count. -/
def resizeMergeOrPhi (o : Op) (n : Nat) : Op :=
  match o with
  | .Merge _ => .Merge n
  | .EffectPhi _ => .EffectPhi n
  | .Phi t _ => .Phi t n
  | other => other

/-- TFBuilder::AppendToMerge: append one control input to a merge and
resize its operator to the new input count. -/
def Builder.appendToMerge (b : Builder) (merge from_ : Nat) : Builder :=
  let n := b.nodeAt merge
  let ins := n.inputs ++ [from_]
  b.setNode merge ⟨resizeMergeOrPhi n.op ins.length, ins⟩

/-- TFBuilder::AppendToPhi: insert one value input in front of the
trailing control input of a phi (position InputCount() - 1) and resize the
operator to the input count read before the insertion. -/
def Builder.appendToPhi (b : Builder) (_merge phi from_ : Nat) : Builder :=
  let n := b.nodeAt phi
  let newSize := n.inputs.length
  let ins := n.inputs.insertIdx (n.inputs.length - 1) from_
  b.setNode phi ⟨resizeMergeOrPhi n.op newSize, ins⟩

/-- MergeControlToEnd (anonymous namespace of tf-builder.cc): merge a
terminator into the graph's End node, creating End on first use. -/
def Builder.mergeControlToEnd (b : Builder) (nd : Nat) : Builder :=
  match b.endN with
  | some e =>
    let en := b.nodeAt e
    let ins := en.inputs ++ [nd]
    b.setNode e ⟨.End ins.length, ins⟩
  | none =>
    let (e, b) := b.newNode (.End 1) [nd]
    { b with endN := some e }

/-- The node-building part of TFTrapHelper::BuildTrapCode, up to and
including the final Return of the constant 0xdeadbeef (returned as first
component): traps[reason] is set to a fresh one-input Merge taking the
live control, effects[reason] to a fresh one-input EffectPhi taking the
live effect, and when a module context is available a runtime-throw call
is placed between them and the Return.  The Runtime::kThrow argument
count is one. -/
def Builder.buildTrapCodeCore (b : Builder) (R : TrapReason) : Nat × Builder :=
  let (exc, b) := b.strConstNode (trapMessage R)
  let (m, b) := b.newNode (.Merge 1) [b.control]
  let b := { b with control := m, traps := setT b.traps R m }
  let (p, b) := b.newNode (.EffectPhi 1) [b.effect, b.control]
  let b := { b with effect := p, trapEffects := setT b.trapEffects R p }
  let b :=
    if b.hasCtx then
      let (ce, b) := b.newNode .CEntryStub []
      let (xr, b) := b.newNode .ExternalRef []
      let (na, b) := b.int32ConstNode 1
      let (cx, b) := b.newNode .HeapConst []
      let (fs, b) := b.newNode .EmptyFrameState []
      let (call, b) :=
        b.newNode .RuntimeCallThrow [ce, exc, xr, na, cx, fs, b.effect, b.control]
      { b with control := call, effect := call }
    else b
  let (dead, b) := b.int32ConstNode 0xdeadbeef
  b.newNode .Return [dead, b.effect, b.control]

/-- TFTrapHelper::BuildTrapCode: the trap-block nodes followed by merging
the block's Return into the graph's End. -/
def Builder.buildTrapCode (b : Builder) (R : TrapReason) : Builder :=
  let (ret, b) := b.buildTrapCodeCore R
  b.mergeControlToEnd ret

/-- TFTrapHelper::ConnectTrap: build the trap block on first use of a
reason, otherwise widen the existing Merge by the live control and the
existing EffectPhi by the live effect. -/
def Builder.connectTrap (b : Builder) (R : TrapReason) : Builder :=
  match b.traps R with
  | none => b.buildTrapCode R
  | some m =>
    let b := b.appendToMerge m b.control
    b.appendToPhi m ((b.trapEffects R).getD 0) b.effect

/-- The branch emitted by TFTrapHelper::AddTrapIf: a Branch on the
condition at the live control whose hint points away from the trap, its
two projections, and the control cursor moved to the trap side.  Returns
the if-true and if-false projections together with the new state. -/
def Builder.branchForTrap (b : Builder) (cond : Nat) (iftrue : Bool) :
    Nat × Nat × Builder :=
  let hint := if iftrue then BranchHint.hFalse else BranchHint.hTrue
  let (br, b) := b.newNode (.Branch hint) [cond, b.control]
  let (tt, b) := b.newNode .IfTrue [br]
  let (ff, b) := b.newNode .IfFalse [br]
  (tt, ff, { b with control := if iftrue then tt else ff })

/-- TFTrapHelper::AddTrapIf: branch on the condition at the live control
with the branch hint pointing away from the trap, connect the trap side to
the trap block, then continue on the other side with the pre-branch
effect restored. -/
def Builder.addTrapIf (b : Builder) (R : TrapReason) (cond : Nat)
    (iftrue : Bool) : Builder :=
  let before := b.effect
  let (tt, ff, b) := b.branchForTrap cond iftrue
  let b := b.connectTrap R
  { b with control := if iftrue then ff else tt, effect := before }

/-- TFTrapHelper::AddTrapIfTrue. -/
def Builder.addTrapIfTrue (b : Builder) (R : TrapReason) (cond : Nat) : Builder :=
  b.addTrapIf R cond true

/-- TFTrapHelper::AddTrapIfFalse. -/
def Builder.addTrapIfFalse (b : Builder) (R : TrapReason) (cond : Nat) : Builder :=
  b.addTrapIf R cond false

/-- The Int32Matcher test folded into TrapIfEq32: the node is a
compile-time int32 constant different from the compared value. -/
def isInt32ConstNe (o : Op) (val : Int) : Bool :=
  match o with
  | .Int32Const w => w ≠ toInt32 val
  | _ => false

/-- The Int64Matcher test folded into TrapIfEq64. -/
def isInt64ConstNe (o : Op) (val : Int) : Bool :=
  match o with
  | .Int64Const w => w ≠ toInt64 val
  | _ => false

/-- TFTrapHelper::TrapIfEq32: fold away the check when the node is a
constant known to differ from the compared value (returning the graph's
Start node); otherwise trap-if-false directly on the node when comparing
against zero, or trap-if-true on a Word32Equal comparison, returning the
new live control. -/
def Builder.trapIfEq32 (b : Builder) (R : TrapReason) (nd : Nat) (val : Int) :
    Nat × Builder :=
  if isInt32ConstNe (b.nodeAt nd).op val then (b.startN, b)
  else if val = 0 then
    let b := b.addTrapIfFalse R nd
    (b.control, b)
  else
    let (c, b) := b.int32ConstNode val
    let (eq, b) := b.newNode .Word32Equal [nd, c]
    let b := b.addTrapIfTrue R eq
    (b.control, b)

/-- TFTrapHelper::ZeroCheck32. -/
def Builder.zeroCheck32 (b : Builder) (R : TrapReason) (nd : Nat) : Nat × Builder :=
  b.trapIfEq32 R nd 0

/-- TFTrapHelper::TrapIfEq64: like the 32-bit version but always
materializing a Word64Equal comparison when not folded away. -/
def Builder.trapIfEq64 (b : Builder) (R : TrapReason) (nd : Nat) (val : Int) :
    Nat × Builder :=
  if isInt64ConstNe (b.nodeAt nd).op val then (b.startN, b)
  else
    let (c, b) := b.int64ConstNode val
    let (eq, b) := b.newNode .Word64Equal [nd, c]
    let b := b.addTrapIfTrue R eq
    (b.control, b)

/-- TFTrapHelper::ZeroCheck64. -/
def Builder.zeroCheck64 (b : Builder) (R : TrapReason) (nd : Nat) : Nat × Builder :=
  b.trapIfEq64 R nd 0

/-- TFBuilder::Branch: an unhinted branch at the live control with its two
projections; returns (branch, if true, if false) without moving the
control cursor. -/
def Builder.branch3 (b : Builder) (cond : Nat) : Nat × Nat × Nat × Builder :=
  let (br, b) := b.newNode (.Branch .hNone) [cond, b.control]
  let (tt, b) := b.newNode .IfTrue [br]
  let (ff, b) := b.newNode .IfFalse [br]
  (br, tt, ff, b)

/-- TFBuilder::Binop, case kExprI32DivS: a divide-by-zero check on the
divisor, a branch on divisor equal to minus one whose true side carries a
DivUnrepresentable check of the dividend against INT_MIN, a two-way merge
back (or the pre-branch control when the inner check folded away), and
the Int32Div node anchored at the resulting control. -/
def Builder.binopI32DivS (b : Builder) (left right : Nat) : Nat × Builder :=
  let (_, b) := b.zeroCheck32 .DivByZero right
  let before := b.control
  let (c, b) := b.int32ConstNode (-1)
  let (eq, b) := b.newNode .Word32Equal [right, c]
  let (_, m1, nm1, b) := b.branch3 eq
  let b := { b with control := m1 }
  let (_, b) := b.trapIfEq32 .DivUnrepresentable left kMinInt32
  let b :=
    if b.control ≠ m1 then
      let (mg, b) := b.newNode (.Merge 2) [nm1, b.control]
      { b with control := mg }
    else { b with control := before }
  b.newNode .Int32Div [left, right, b.control]

/-- TFBuilder::Binop, case kExprI32RemS: a remainder-by-zero check on the
divisor, then a Diamond on divisor equal to minus one (the compiler's
Diamond helper: a branch anchored at the graph's Start with both
projections and a two-way Merge); the Int32Mod node is anchored at the
false projection and the result is a phi of the constant zero and the
mod over the diamond's merge. -/
def Builder.binopI32RemS (b : Builder) (left right : Nat) : Nat × Builder :=
  let (_, b) := b.zeroCheck32 .RemByZero right
  let (c, b) := b.int32ConstNode (-1)
  let (eq, b) := b.newNode .Word32Equal [right, c]
  let (br, b) := b.newNode (.Branch .hNone) [eq, b.startN]
  let (dt, b) := b.newNode .IfTrue [br]
  let (df, b) := b.newNode .IfFalse [br]
  let (mg, b) := b.newNode (.Merge 2) [dt, df]
  let (rem, b) := b.newNode .Int32Mod [left, right, df]
  let (z, b) := b.int32ConstNode 0
  b.newNode (.Phi .machInt32 2) [z, rem, mg]

/-- TFBuilder::Binop, case kExprI32RemU: the Uint32Mod node anchored at
the control returned by the remainder-by-zero check. -/
def Builder.binopI32RemU (b : Builder) (left right : Nat) : Nat × Builder :=
  let (ck, b) := b.zeroCheck32 .RemByZero right
  b.newNode .Uint32Mod [left, right, ck]

/-- TFBuilder::Binop, case kExprI64DivS (64-bit targets). -/
def Builder.binopI64DivS (b : Builder) (left right : Nat) : Nat × Builder :=
  let (_, b) := b.zeroCheck64 .DivByZero right
  let before := b.control
  let (c, b) := b.int64ConstNode (-1)
  let (eq, b) := b.newNode .Word64Equal [right, c]
  let (_, m1, nm1, b) := b.branch3 eq
  let b := { b with control := m1 }
  let (_, b) := b.trapIfEq64 .DivUnrepresentable left kMinInt64
  let b :=
    if b.control ≠ m1 then
      let (mg, b) := b.newNode (.Merge 2) [nm1, b.control]
      { b with control := mg }
    else { b with control := before }
  b.newNode .Int64Div [left, right, b.control]

/-- TFBuilder::Binop, case kExprI64RemS (64-bit targets). -/
def Builder.binopI64RemS (b : Builder) (left right : Nat) : Nat × Builder :=
  let (_, b) := b.zeroCheck64 .RemByZero right
  let (c, b) := b.int64ConstNode (-1)
  let (eq, b) := b.newNode .Word64Equal [right, c]
  let (br, b) := b.newNode (.Branch .hNone) [eq, b.startN]
  let (dt, b) := b.newNode .IfTrue [br]
  let (df, b) := b.newNode .IfFalse [br]
  let (mg, b) := b.newNode (.Merge 2) [dt, df]
  let (rem, b) := b.newNode .Int64Mod [left, right, df]
  let (z, b) := b.int64ConstNode 0
  b.newNode (.Phi .machInt64 2) [z, rem, mg]

/-- TFBuilder::Binop, case kExprI64RemU (64-bit targets). -/
def Builder.binopI64RemU (b : Builder) (left right : Nat) : Nat × Builder :=
  let (ck, b) := b.zeroCheck64 .RemByZero right
  b.newNode .Uint64Mod [left, right, ck]

/-- The shape of the condition computed by TFBuilder::BoundsCheckMem for a
linear memory of the given size, a static offset and an access width:
either the constant-false condition (the access always traps), an
unsigned comparison of the dynamic index against an inclusive limit, or a
failure of the CHECK that the limit fits in 32 bits. -/
inductive BCond
  | constFalse
  | cmp (limit : Nat)
  | checkFail
deriving DecidableEq, Repr

/-- The pure condition selection of TFBuilder::BoundsCheckMem.  The sum
offset + memsize is computed in uint32 arithmetic in the source (offset is
a uint32_t immediate and memsize a byte), hence the wrap; size is the
pointer difference mem_end - mem_start.  The limit size - offset - memsize
is signed 64-bit arithmetic stored into a size_t, so a negative value
wraps modulo 2^64 (and then fails the CHECK against kMaxUInt32). -/
def boundsCheckCond (size offset memsize : Nat) : BCond :=
  if size ≤ offset ∨ size ≤ (offset + memsize) % 2 ^ 32 then .constFalse
  else
    let limit := (((size : Int) - offset - memsize) % 2 ^ 64).toNat
    if limit ≤ kMaxUInt32 then .cmp limit else .checkFail

/-- TFBuilder::MemBuffer: the base-address constant mem_start + offset,
memoized in the mem_buffer field when the offset is zero. -/
def Builder.memBuffer (b : Builder) (md : ModuleEnvM) (offset : Nat) :
    Nat × Builder :=
  if offset = 0 then
    match b.memBuf with
    | some u => (u, b)
    | none =>
      let (u, b) := b.newNode (.IntPtrConst md.memStart) []
      (u, { b with memBuf := some u })
  else
    b.newNode (.IntPtrConst (md.memStart + offset)) []

/-- TFBuilder::MemSize: the memory-size constant, memoized when the extra
offset is zero. -/
def Builder.memSizeNode (b : Builder) (md : ModuleEnvM) (offset : Nat) :
    Nat × Builder :=
  let size := md.memEnd - md.memStart
  if offset = 0 then
    match b.memSz with
    | some u => (u, b)
    | none =>
      let (u, b) := b.newNode (.Int32Const (toInt32 size)) []
      (u, { b with memSz := some u })
  else
    b.newNode (.Int32Const (toInt32 (size + offset))) []

/-- TFBuilder::BoundsCheckMem: emit the bounds-check condition (the
constant zero when the access can never be in bounds, otherwise the
unsigned comparison index less-or-equal limit) and trap-if-false with
reason MemOutOfBounds.  Returns none when a CHECK in the source would
fail (mem_end below mem_start, or a size_t limit beyond kMaxUInt32 —
including the limit that wrapped negative past 2^64). -/
def Builder.boundsCheckMem (b : Builder) (memtype : MemTy) (index offset : Nat) :
    Option Builder :=
  match b.module with
  | none => none
  | some md =>
    if md.memEnd < md.memStart then none
    else
      let size := md.memEnd - md.memStart
      let memsize := memSize memtype
      if size ≤ offset ∨ size ≤ (offset + memsize) % 2 ^ 32 then
        let (c, b) := b.newNode (.Int32Const 0) []
        some (b.addTrapIfFalse .MemOutOfBounds c)
      else
        let limit := (((size : Int) - offset - memsize) % 2 ^ 64).toNat
        if limit ≤ kMaxUInt32 then
          let (lc, b) := b.newNode (.Int32Const (toInt32 limit)) []
          let (c, b) := b.newNode .Uint32LessThanOrEqual [index, lc]
          some (b.addTrapIfFalse .MemOutOfBounds c)
        else none

/-- TFBuilder::LoadMem: under asm.js semantics a CheckedLoad of the base,
index and memory size; otherwise the explicit bounds check followed by a
Load whose inputs are the base pointer mem_start + offset, the dynamic
index, and the live effect and control; the load becomes the new effect.
Narrow loads of a 64-bit value are widened by a sign- or zero-extension.
The index is returned together with the produced value node. -/
def Builder.loadMem (b : Builder) (ty : LocalTy) (memtype : MemTy)
    (index offset : Nat) : Option (Nat × Builder) :=
  match b.module with
  | none => none
  | some md =>
    match (if md.asmJs then
             let (buf, b) := b.memBuffer md 0
             let (sz, b) := b.memSizeNode md 0
             let (ld, b) := b.newNode (.CheckedLoad memtype)
               [buf, index, sz, b.effect, b.control]
             some (ld, { b with effect := ld })
           else
             match b.boundsCheckMem memtype index offset with
             | none => none
             | some b =>
               let (buf, b) := b.memBuffer md offset
               let (ld, b) := b.newNode (.Load memtype)
                 [buf, index, b.effect, b.control]
               some (ld, { b with effect := ld })) with
    | none => none
    | some (ld, b) =>
      if ty = .i64 ∧ memSize memtype < 8 then
        let signExtend := memtype = .mI8 ∨ memtype = .mI16 ∨ memtype = .mI32
        let (ext, b) :=
          if signExtend then b.newNode .ChangeInt32ToInt64 [ld]
          else b.newNode .ChangeUint32ToUint64 [ld]
        some (ext, b)
      else some (ld, b)

/-- TFBuilder::StoreMem: under asm.js semantics a CheckedStore; otherwise
the explicit bounds check followed by a Store of the value at base
pointer mem_start + offset with the dynamic index; the store becomes the
new effect. -/
def Builder.storeMem (b : Builder) (memtype : MemTy) (index offset val : Nat) :
    Option (Nat × Builder) :=
  match b.module with
  | none => none
  | some md =>
    if md.asmJs then
      let (buf, b) := b.memBuffer md 0
      let (sz, b) := b.memSizeNode md 0
      let (st, b) := b.newNode (.CheckedStore memtype) [buf, index, sz, val, b.effect, b.control]
      let b := { b with effect := st }
      some (st, b)
    else
      match b.boundsCheckMem memtype index offset with
      | none => none
      | some b =>
        let (buf, b) := b.memBuffer md offset
        let (st, b) := b.newNode (.Store memtype) [buf, index, val, b.effect, b.control]
        let b := { b with effect := st }
        some (st, b)

/-- The per-function environment of the WasmRunner test helper
(FunctionEnv fields used by AllocateLocal in src/unnamed/part_000). -/
structure FunctionEnv where
  paramCount : Nat
  localInt32Count : Nat
  localInt64Count : Nat
  localFloat32Count : Nat
  localFloat64Count : Nat
  totalLocals : Nat
deriving DecidableEq, Repr

/-- WasmRunner::AllocateLocal: the declared-local index starts from the
parameter count and adds the per-type running count of the requested
type, post-incrementing that count; only the i32, f32 and f64 counters
participate and total_locals always grows by one.  The result is cast to
a byte under CHECK_EQ(result, b); none models a failing CHECK. -/
def allocateLocal (env : FunctionEnv) (ty : LocalTy) : Option (Nat × FunctionEnv) :=
  let result := env.paramCount
  let (result, env) :=
    if ty = .i32 then
      (result + env.localInt32Count,
       { env with localInt32Count := env.localInt32Count + 1 })
    else (result, env)
  let (result, env) :=
    if ty = .f32 then
      (result + env.localFloat32Count,
       { env with localFloat32Count := env.localFloat32Count + 1 })
    else (result, env)
  let (result, env) :=
    if ty = .f64 then
      (result + env.localFloat64Count,
       { env with localFloat64Count := env.localFloat64Count + 1 })
    else (result, env)
  let env := { env with totalLocals := env.totalLocals + 1 }
  if result < 256 then some (result, env) else none

/-- A sequence of AllocateLocal calls, returning the allocated indices. -/
def allocRun (env : FunctionEnv) (tys : List LocalTy) :
    Option (List Nat × FunctionEnv) :=
  match tys with
  | [] => some ([], env)
  | ty :: rest =>
    match allocateLocal env ty with
    | none => none
    | some (i, env) =>
      match allocRun env rest with
      | none => none
      | some (is, env) => some (i :: is, env)

/-- Opcodes appearing in the translated switches of TFBuilder::Binop,
TFBuilder::Unop and WasmOpcodes::IsSupported (the kExpr prefix of the
source names is dropped). -/
inductive WasmOpcode
  | I32Add | I32Sub | I32Mul | I32DivS | I32DivU | I32RemS | I32RemU
  | I32And | I32Ior | I32Xor | I32Shl | I32ShrU | I32ShrS
  | I32Eq | I32Ne | I32LtS | I32LeS | I32LtU | I32LeU
  | I32GtS | I32GeS | I32GtU | I32GeU
  | I64Add | I64Sub | I64Mul | I64DivS | I64DivU | I64RemS | I64RemU
  | I64And | I64Ior | I64Xor | I64Shl | I64ShrU | I64ShrS | I64Ror | I64Rol
  | I64Eq | I64Ne | I64LtS | I64LeS | I64LtU | I64LeU
  | I64GtS | I64GeS | I64GtU | I64GeU
  | F32CopySign | F64CopySign
  | F32Add | F32Sub | F32Mul | F32Div | F32Eq | F32Ne
  | F32Lt | F32Ge | F32Gt | F32Le | F32Min | F32Max
  | F64Add | F64Sub | F64Mul | F64Div | F64Eq | F64Ne
  | F64Lt | F64Le | F64Gt | F64Ge | F64Min | F64Max
  | BoolNot
  | F32Abs | F32Neg | F32Sqrt | F64Abs | F64Neg | F64Sqrt
  | I32SConvertF64 | I32UConvertF64 | F32ConvertF64
  | F64SConvertI32 | F64UConvertI32 | F32SConvertI32 | F32UConvertI32
  | I32SConvertF32 | I32UConvertF32 | F64ConvertF32
  | F32ReinterpretI32 | I32ReinterpretF32
  | I32Clz | I32Ctz | I32Popcnt
  | F32Floor | F32Ceil | F32Trunc | F32NearestInt
  | F64Floor | F64Ceil | F64Trunc | F64NearestInt
  | I32ConvertI64 | I64SConvertI32 | I64UConvertI32
  | F32SConvertI64 | F32UConvertI64 | F64SConvertI64 | F64UConvertI64
  | F64ReinterpretI64 | I64ReinterpretF64
  | I64Clz | I64Ctz | I64Popcnt
  | I64SConvertF32 | I64SConvertF64 | I64UConvertF32 | I64UConvertF64
  | ResizeMemH
deriving DecidableEq, Repr

/-- WasmOpcodes::IsSupported in wasm-opcodes.cc as a function of the
target word size: the first case group of the source is compiled in only
on 32-bit targets (WASM_64 equal zero) and answers false there; the
second group always answers false; everything else answers true. -/
def isSupported (wasm64 : Bool) (op : WasmOpcode) : Bool :=
  match op with
  | .I64Add | .I64Sub | .I64Mul | .I64DivS | .I64DivU | .I64RemS | .I64RemU
  | .I64And | .I64Ior | .I64Xor | .I64Shl | .I64ShrU | .I64ShrS
  | .I64Ror | .I64Rol
  | .I64Eq | .I64Ne | .I64LtS | .I64LeS | .I64LtU | .I64LeU
  | .I64GtS | .I64GeS | .I64GtU | .I64GeU
  | .I32ConvertI64 | .I64SConvertI32 | .I64UConvertI32
  | .F64ReinterpretI64 | .I64ReinterpretF64
  | .ResizeMemH => wasm64
  | .I32Clz | .I32Ctz | .I32Popcnt
  | .I64Clz | .I64Ctz | .I64Popcnt
  | .F32Min | .F32Max | .F32CopySign
  | .F32Ceil | .F32Floor | .F32Trunc | .F32NearestInt
  | .F64Min | .F64Max | .F64CopySign
  | .F64Ceil | .F64Floor | .F64Trunc | .F64NearestInt
  | .I64SConvertF32 | .I64SConvertF64 | .I64UConvertF32 | .I64UConvertF64
  | .F32SConvertI64 | .F32UConvertI64 | .F64SConvertI64 | .F64UConvertI64 =>
    false
  | _ => true

/-- The machine operators that the translated Binop and Unop bodies can
request from the machine operator builder. -/
inductive MachOp
  | Int32Add | Int32Sub | Int32Mul | Int32Div | Uint32Div | Int32Mod | Uint32Mod
  | Word32And | Word32Or | Word32Xor | Word32Shl | Word32Shr | Word32Sar
  | Word32Equal | Int32LessThan | Int32LessThanOrEqual
  | Uint32LessThan | Uint32LessThanOrEqual
  | Word32Clz | Word32Ctz | Word32Popcnt
  | Int64Add | Int64Sub | Int64Mul | Int64Div | Uint64Div | Int64Mod | Uint64Mod
  | Word64And | Word64Or | Word64Xor | Word64Shl | Word64Shr | Word64Sar
  | Word64Equal | Int64LessThan | Int64LessThanOrEqual
  | Uint64LessThan | Uint64LessThanOrEqual
  | Word64Clz | Word64Ctz | Word64Popcnt
  | Float32Add | Float32Sub | Float32Mul | Float32Div
  | Float32Equal | Float32LessThan | Float32LessThanOrEqual
  | Float32Abs | Float32Sqrt | Float32Min | Float32Max
  | Float32RoundDown | Float32RoundUp | Float32RoundTruncate | Float32RoundTiesEven
  | Float64Add | Float64Sub | Float64Mul | Float64Div
  | Float64Equal | Float64LessThan | Float64LessThanOrEqual
  | Float64Abs | Float64Sqrt | Float64Min | Float64Max
  | Float64RoundDown | Float64RoundUp | Float64RoundTruncate | Float64RoundTiesEven
  | ChangeFloat64ToInt32 | ChangeFloat64ToUint32 | TruncateFloat64ToFloat32
  | ChangeInt32ToFloat64 | ChangeUint32ToFloat64 | ChangeFloat32ToFloat64
  | BitcastInt32ToFloat32 | BitcastFloat32ToInt32
  | TruncateInt64ToInt32 | ChangeInt32ToInt64 | ChangeUint32ToUint64
  | RoundInt64ToFloat32 | RoundUint64ToFloat32
  | RoundInt64ToFloat64 | RoundUint64ToFloat64
  | BitcastInt64ToFloat64 | BitcastFloat64ToInt64
  | Float64ExtractHighWord32 | Float64InsertHighWord32
deriving DecidableEq, Repr

/-- The optional machine operators: the ones the machine operator builder
exposes behind an IsSupported capability query in the translated code.
All others are unconditionally available on every target. -/
def MachOp.optional : MachOp → Bool
  | .Word32Ctz | .Word32Popcnt | .Word64Ctz | .Word64Popcnt
  | .Float32Min | .Float32Max | .Float64Min | .Float64Max
  | .Float32RoundDown | .Float32RoundUp
  | .Float32RoundTruncate | .Float32RoundTiesEven
  | .Float64RoundDown | .Float64RoundUp
  | .Float64RoundTruncate | .Float64RoundTiesEven => true
  | _ => false

/-- The capability answers of the machine operator builder for the
optional operators queried by Binop and Unop (m->Word32Ctz().IsSupported()
and so on); these depend on the host CPU. -/
structure MachineFlags where
  word32Ctz : Bool
  word32Popcnt : Bool
  word64Ctz : Bool
  word64Popcnt : Bool
  float32Min : Bool
  float32Max : Bool
  float64Min : Bool
  float64Max : Bool
  float32RoundDown : Bool
  float32RoundUp : Bool
  float32RoundTruncate : Bool
  float32RoundTiesEven : Bool
  float64RoundDown : Bool
  float64RoundUp : Bool
  float64RoundTruncate : Bool
  float64RoundTiesEven : Bool
deriving DecidableEq, Repr

/-- What one Binop or Unop invocation does, projected onto the machine
operators of the value nodes it creates (in creation order, for operand
nodes that are not compile-time constants): either those nodes are
emitted, or the call aborts through UnsupportedOpcode, which is a
V8_Fatal hard error. -/
inductive EmitResult
  | emits (ms : List MachOp)
  | fatalError
deriving DecidableEq, Repr

/-- Machine operators created by TFBuilder::MakeI32Popcnt: five SWAR
steps, each a logical shift, two masks and an addition. -/
def makeI32PopcntOps : List MachOp :=
  [.Word32Shr, .Word32And, .Word32And, .Int32Add,
   .Word32Shr, .Word32And, .Word32And, .Int32Add,
   .Word32Shr, .Word32And, .Word32And, .Int32Add,
   .Word32Shr, .Word32And, .Word32And, .Int32Add,
   .Word32Shr, .Word32And, .Word32And, .Int32Add]

/-- Machine operators created by TFBuilder::MakeI32Ctz: five bit-smear
steps (shift then or), the xor with the all-ones mask, then the popcount
lowering. -/
def makeI32CtzOps : List MachOp :=
  [.Word32Shl, .Word32Or,
   .Word32Shl, .Word32Or,
   .Word32Shl, .Word32Or,
   .Word32Shl, .Word32Or,
   .Word32Shl, .Word32Or,
   .Word32Xor] ++ makeI32PopcntOps

/-- Machine operators created by TFBuilder::MakeI64Popcnt (six steps). -/
def makeI64PopcntOps : List MachOp :=
  [.Word64Shr, .Word64And, .Word64And, .Int64Add,
   .Word64Shr, .Word64And, .Word64And, .Int64Add,
   .Word64Shr, .Word64And, .Word64And, .Int64Add,
   .Word64Shr, .Word64And, .Word64And, .Int64Add,
   .Word64Shr, .Word64And, .Word64And, .Int64Add,
   .Word64Shr, .Word64And, .Word64And, .Int64Add]

/-- Machine operators created by TFBuilder::MakeI64Ctz (six smear steps). -/
def makeI64CtzOps : List MachOp :=
  [.Word64Shl, .Word64Or,
   .Word64Shl, .Word64Or,
   .Word64Shl, .Word64Or,
   .Word64Shl, .Word64Or,
   .Word64Shl, .Word64Or,
   .Word64Shl, .Word64Or,
   .Word64Xor] ++ makeI64PopcntOps

/-- Machine operators created by TFBuilder::MakeF32CopySign. -/
def makeF32CopySignOps : List MachOp :=
  [.BitcastFloat32ToInt32, .Word32And,
   .BitcastFloat32ToInt32, .Word32And,
   .Word32Or, .BitcastInt32ToFloat32]

/-- Machine operators created by TFBuilder::MakeF64CopySign; the 64-bit
path reinterprets and masks in one word, the 32-bit path extracts and
reinserts the high word. -/
def makeF64CopySignOps (wasm64 : Bool) : List MachOp :=
  if wasm64 then
    [.BitcastFloat64ToInt64, .Word64And,
     .BitcastFloat64ToInt64, .Word64And,
     .Word64Or, .BitcastInt64ToFloat64]
  else
    [.Float64ExtractHighWord32, .Float64ExtractHighWord32,
     .Word32And, .Word32And, .Word32Or, .Float64InsertHighWord32]

/-- TFBuilder::Unop projected onto machine operators, as a function of
the target word size (the WASM_64 preprocessor sections) and the machine
capability flags.  Operand swapping and constant inputs are not part of
this projection. -/
def unopMachOps (wasm64 : Bool) (fl : MachineFlags) (op : WasmOpcode) :
    EmitResult :=
  match op with
  | .BoolNot => .emits [.Word32Equal]
  | .F32Abs => .emits [.Float32Abs]
  | .F32Neg => .emits [.Float32Sub]
  | .F32Sqrt => .emits [.Float32Sqrt]
  | .F64Abs => .emits [.Float64Abs]
  | .F64Neg => .emits [.Float64Sub]
  | .F64Sqrt => .emits [.Float64Sqrt]
  | .I32SConvertF64 => .emits [.ChangeFloat64ToInt32]
  | .I32UConvertF64 => .emits [.ChangeFloat64ToUint32]
  | .F32ConvertF64 => .emits [.TruncateFloat64ToFloat32]
  | .F64SConvertI32 => .emits [.ChangeInt32ToFloat64]
  | .F64UConvertI32 => .emits [.ChangeUint32ToFloat64]
  | .F32SConvertI32 => .emits [.ChangeInt32ToFloat64, .TruncateFloat64ToFloat32]
  | .F32UConvertI32 => .emits [.ChangeUint32ToFloat64, .TruncateFloat64ToFloat32]
  | .I32SConvertF32 => .emits [.ChangeFloat32ToFloat64, .ChangeFloat64ToInt32]
  | .I32UConvertF32 => .emits [.ChangeFloat32ToFloat64, .ChangeFloat64ToUint32]
  | .F64ConvertF32 => .emits [.ChangeFloat32ToFloat64]
  | .F32ReinterpretI32 => .emits [.BitcastInt32ToFloat32]
  | .I32ReinterpretF32 => .emits [.BitcastFloat32ToInt32]
  | .I32Clz => .emits [.Word32Clz]
  | .I32Ctz =>
    if fl.word32Ctz then .emits [.Word32Ctz] else .emits makeI32CtzOps
  | .I32Popcnt =>
    if fl.word32Popcnt then .emits [.Word32Popcnt] else .emits makeI32PopcntOps
  | .F32Floor =>
    if fl.float32RoundDown then .emits [.Float32RoundDown] else .fatalError
  | .F32Ceil =>
    if fl.float32RoundUp then .emits [.Float32RoundUp] else .fatalError
  | .F32Trunc =>
    if fl.float32RoundTruncate then .emits [.Float32RoundTruncate] else .fatalError
  | .F32NearestInt =>
    if fl.float32RoundTiesEven then .emits [.Float32RoundTiesEven] else .fatalError
  | .F64Floor =>
    if fl.float64RoundDown then .emits [.Float64RoundDown] else .fatalError
  | .F64Ceil =>
    if fl.float64RoundUp then .emits [.Float64RoundUp] else .fatalError
  | .F64Trunc =>
    if fl.float64RoundTruncate then .emits [.Float64RoundTruncate] else .fatalError
  | .F64NearestInt =>
    if fl.float64RoundTiesEven then .emits [.Float64RoundTiesEven] else .fatalError
  | .I32ConvertI64 => if wasm64 then .emits [.TruncateInt64ToInt32] else .fatalError
  | .I64SConvertI32 => if wasm64 then .emits [.ChangeInt32ToInt64] else .fatalError
  | .I64UConvertI32 => if wasm64 then .emits [.ChangeUint32ToUint64] else .fatalError
  | .F32SConvertI64 => if wasm64 then .emits [.RoundInt64ToFloat32] else .fatalError
  | .F32UConvertI64 => if wasm64 then .emits [.RoundUint64ToFloat32] else .fatalError
  | .F64SConvertI64 => if wasm64 then .emits [.RoundInt64ToFloat64] else .fatalError
  | .F64UConvertI64 => if wasm64 then .emits [.RoundUint64ToFloat64] else .fatalError
  | .F64ReinterpretI64 => if wasm64 then .emits [.BitcastInt64ToFloat64] else .fatalError
  | .I64ReinterpretF64 => if wasm64 then .emits [.BitcastFloat64ToInt64] else .fatalError
  | .I64Clz => if wasm64 then .emits [.Word64Clz] else .fatalError
  | .I64Ctz =>
    if wasm64 then
      if fl.word64Ctz then .emits [.Word64Ctz] else .emits makeI64CtzOps
    else .fatalError
  | .I64Popcnt =>
    if wasm64 then
      if fl.word64Popcnt then .emits [.Word64Popcnt] else .emits makeI64PopcntOps
    else .fatalError
  | _ => .fatalError

/-- TFBuilder::Binop projected onto machine operators, as a function of
the target word size and the machine capability flags.  For the
division and remainder cases the trap-check comparisons are listed before
the arithmetic operator (assuming operands that are not compile-time
constants); operand swapping for the flipped comparisons is not part of
this projection. -/
def binopMachOps (wasm64 : Bool) (fl : MachineFlags) (op : WasmOpcode) :
    EmitResult :=
  match op with
  | .I32Add => .emits [.Int32Add]
  | .I32Sub => .emits [.Int32Sub]
  | .I32Mul => .emits [.Int32Mul]
  | .I32DivS => .emits [.Word32Equal, .Word32Equal, .Int32Div]
  | .I32DivU => .emits [.Uint32Div]
  | .I32RemS => .emits [.Word32Equal, .Int32Mod]
  | .I32RemU => .emits [.Uint32Mod]
  | .I32And => .emits [.Word32And]
  | .I32Ior => .emits [.Word32Or]
  | .I32Xor => .emits [.Word32Xor]
  | .I32Shl => .emits [.Word32Shl]
  | .I32ShrU => .emits [.Word32Shr]
  | .I32ShrS => .emits [.Word32Sar]
  | .I32Eq => .emits [.Word32Equal]
  | .I32Ne => .emits [.Word32Equal, .Word32Equal]
  | .I32LtS => .emits [.Int32LessThan]
  | .I32LeS => .emits [.Int32LessThanOrEqual]
  | .I32LtU => .emits [.Uint32LessThan]
  | .I32LeU => .emits [.Uint32LessThanOrEqual]
  | .I32GtS => .emits [.Int32LessThan]
  | .I32GeS => .emits [.Int32LessThanOrEqual]
  | .I32GtU => .emits [.Uint32LessThan]
  | .I32GeU => .emits [.Uint32LessThanOrEqual]
  | .I64Add => if wasm64 then .emits [.Int64Add] else .fatalError
  | .I64Sub => if wasm64 then .emits [.Int64Sub] else .fatalError
  | .I64Mul => if wasm64 then .emits [.Int64Mul] else .fatalError
  | .I64DivS =>
    if wasm64 then .emits [.Word64Equal, .Word64Equal, .Word64Equal, .Int64Div]
    else .fatalError
  | .I64DivU => if wasm64 then .emits [.Word64Equal, .Uint64Div] else .fatalError
  | .I64RemS =>
    if wasm64 then .emits [.Word64Equal, .Word64Equal, .Int64Mod]
    else .fatalError
  | .I64RemU => if wasm64 then .emits [.Word64Equal, .Uint64Mod] else .fatalError
  | .I64And => if wasm64 then .emits [.Word64And] else .fatalError
  | .I64Ior => if wasm64 then .emits [.Word64Or] else .fatalError
  | .I64Xor => if wasm64 then .emits [.Word64Xor] else .fatalError
  | .I64Shl => if wasm64 then .emits [.Word64Shl] else .fatalError
  | .I64ShrU => if wasm64 then .emits [.Word64Shr] else .fatalError
  | .I64ShrS => if wasm64 then .emits [.Word64Sar] else .fatalError
  | .I64Eq => if wasm64 then .emits [.Word64Equal] else .fatalError
  | .I64Ne => if wasm64 then .emits [.Word64Equal, .Word32Equal] else .fatalError
  | .I64LtS => if wasm64 then .emits [.Int64LessThan] else .fatalError
  | .I64LeS => if wasm64 then .emits [.Int64LessThanOrEqual] else .fatalError
  | .I64LtU => if wasm64 then .emits [.Uint64LessThan] else .fatalError
  | .I64LeU => if wasm64 then .emits [.Uint64LessThanOrEqual] else .fatalError
  | .I64GtS => if wasm64 then .emits [.Int64LessThan] else .fatalError
  | .I64GeS => if wasm64 then .emits [.Int64LessThanOrEqual] else .fatalError
  | .I64GtU => if wasm64 then .emits [.Uint64LessThan] else .fatalError
  | .I64GeU => if wasm64 then .emits [.Uint64LessThanOrEqual] else .fatalError
  | .F32CopySign => .emits makeF32CopySignOps
  | .F64CopySign => .emits (makeF64CopySignOps wasm64)
  | .F32Add => .emits [.Float32Add]
  | .F32Sub => .emits [.Float32Sub]
  | .F32Mul => .emits [.Float32Mul]
  | .F32Div => .emits [.Float32Div]
  | .F32Eq => .emits [.Float32Equal]
  | .F32Ne => .emits [.Float32Equal, .Word32Equal]
  | .F32Lt => .emits [.Float32LessThan]
  | .F32Ge => .emits [.Float32LessThanOrEqual]
  | .F32Gt => .emits [.Float32LessThan]
  | .F32Le => .emits [.Float32LessThanOrEqual]
  | .F64Add => .emits [.Float64Add]
  | .F64Sub => .emits [.Float64Sub]
  | .F64Mul => .emits [.Float64Mul]
  | .F64Div => .emits [.Float64Div]
  | .F64Eq => .emits [.Float64Equal]
  | .F64Ne => .emits [.Float64Equal, .Word32Equal]
  | .F64Lt => .emits [.Float64LessThan]
  | .F64Le => .emits [.Float64LessThanOrEqual]
  | .F64Gt => .emits [.Float64LessThan]
  | .F64Ge => .emits [.Float64LessThanOrEqual]
  | .F32Min => if fl.float32Min then .emits [.Float32Min] else .fatalError
  | .F64Min => if fl.float64Min then .emits [.Float64Min] else .fatalError
  | .F32Max => if fl.float32Max then .emits [.Float32Max] else .fatalError
  | .F64Max => if fl.float64Max then .emits [.Float64Max] else .fatalError
  | _ => .fatalError

/-- The natural primitive machine operator denoted by an opcode, used to
compare the opcode table against what the builder emits.  Opcodes whose
meaning has no single machine operator in the machine operator builder of
this code base (the copysign and the 64-bit integer-float conversions,
and the structural opcodes) map to none. -/
def machPrimitiveFor (op : WasmOpcode) : Option MachOp :=
  match op with
  | .I32Add => some .Int32Add
  | .I32Sub => some .Int32Sub
  | .I32Mul => some .Int32Mul
  | .I32DivS => some .Int32Div
  | .I32DivU => some .Uint32Div
  | .I32RemS => some .Int32Mod
  | .I32RemU => some .Uint32Mod
  | .I32And => some .Word32And
  | .I32Ior => some .Word32Or
  | .I32Xor => some .Word32Xor
  | .I32Shl => some .Word32Shl
  | .I32ShrU => some .Word32Shr
  | .I32ShrS => some .Word32Sar
  | .I32Eq => some .Word32Equal
  | .I32LtS => some .Int32LessThan
  | .I32LeS => some .Int32LessThanOrEqual
  | .I32LtU => some .Uint32LessThan
  | .I32LeU => some .Uint32LessThanOrEqual
  | .I64Add => some .Int64Add
  | .I64Sub => some .Int64Sub
  | .I64Mul => some .Int64Mul
  | .I64DivS => some .Int64Div
  | .I64DivU => some .Uint64Div
  | .I64RemS => some .Int64Mod
  | .I64RemU => some .Uint64Mod
  | .I64And => some .Word64And
  | .I64Ior => some .Word64Or
  | .I64Xor => some .Word64Xor
  | .I64Shl => some .Word64Shl
  | .I64ShrU => some .Word64Shr
  | .I64ShrS => some .Word64Sar
  | .I64Eq => some .Word64Equal
  | .I64LtS => some .Int64LessThan
  | .I64LeS => some .Int64LessThanOrEqual
  | .I64LtU => some .Uint64LessThan
  | .I64LeU => some .Uint64LessThanOrEqual
  | .F32Add => some .Float32Add
  | .F32Sub => some .Float32Sub
  | .F32Mul => some .Float32Mul
  | .F32Div => some .Float32Div
  | .F32Eq => some .Float32Equal
  | .F32Lt => some .Float32LessThan
  | .F32Le => some .Float32LessThanOrEqual
  | .F64Add => some .Float64Add
  | .F64Sub => some .Float64Sub
  | .F64Mul => some .Float64Mul
  | .F64Div => some .Float64Div
  | .F64Eq => some .Float64Equal
  | .F64Lt => some .Float64LessThan
  | .F64Le => some .Float64LessThanOrEqual
  | .F32Min => some .Float32Min
  | .F32Max => some .Float32Max
  | .F64Min => some .Float64Min
  | .F64Max => some .Float64Max
  | .F32Abs => some .Float32Abs
  | .F32Sqrt => some .Float32Sqrt
  | .F64Abs => some .Float64Abs
  | .F64Sqrt => some .Float64Sqrt
  | .I32Clz => some .Word32Clz
  | .I32Ctz => some .Word32Ctz
  | .I32Popcnt => some .Word32Popcnt
  | .I64Clz => some .Word64Clz
  | .I64Ctz => some .Word64Ctz
  | .I64Popcnt => some .Word64Popcnt
  | .F32Floor => some .Float32RoundDown
  | .F32Ceil => some .Float32RoundUp
  | .F32Trunc => some .Float32RoundTruncate
  | .F32NearestInt => some .Float32RoundTiesEven
  | .F64Floor => some .Float64RoundDown
  | .F64Ceil => some .Float64RoundUp
  | .F64Trunc => some .Float64RoundTruncate
  | .F64NearestInt => some .Float64RoundTiesEven
  | .I32SConvertF64 => some .ChangeFloat64ToInt32
  | .I32UConvertF64 => some .ChangeFloat64ToUint32
  | .F32ConvertF64 => some .TruncateFloat64ToFloat32
  | .F64SConvertI32 => some .ChangeInt32ToFloat64
  | .F64UConvertI32 => some .ChangeUint32ToFloat64
  | .F64ConvertF32 => some .ChangeFloat32ToFloat64
  | .F32ReinterpretI32 => some .BitcastInt32ToFloat32
  | .I32ReinterpretF32 => some .BitcastFloat32ToInt32
  | .I32ConvertI64 => some .TruncateInt64ToInt32
  | .I64SConvertI32 => some .ChangeInt32ToInt64
  | .I64UConvertI32 => some .ChangeUint32ToUint64
  | .F32SConvertI64 => some .RoundInt64ToFloat32
  | .F32UConvertI64 => some .RoundUint64ToFloat32
  | .F64SConvertI64 => some .RoundInt64ToFloat64
  | .F64UConvertI64 => some .RoundUint64ToFloat64
  | .F64ReinterpretI64 => some .BitcastInt64ToFloat64
  | .I64ReinterpretF64 => some .BitcastFloat64ToInt64
  | _ => none

/-- Machine semantics of Word32Shl on 32-bit words represented as
naturals below 2 to the 32: shift count taken mod 32, result wrapped. -/
def w32shl (x k : Nat) : Nat :=
  (x <<< (k % 32)) % 2 ^ 32

/-- Machine semantics of Word32Shr (logical right shift). -/
def w32shr (x k : Nat) : Nat :=
  x >>> (k % 32)

/-- Machine semantics of Int32Add on the word representation (wrapping). -/
def w32add (x y : Nat) : Nat :=
  (x + y) % 2 ^ 32

/-- One bit-smear step of MakeI32Ctz: value = value or (value shl k). -/
def orShl32 (x k : Nat) : Nat :=
  x ||| w32shl x k

/-- The value computed by the graph that TFBuilder::MakeI32Popcnt emits,
on a 32-bit word: five SWAR steps with masks 0x55555555, 0x33333333,
0x0f0f0f0f, 0x00ff00ff, 0x0000ffff. -/
def makeI32PopcntVal (x : Nat) : Nat :=
  let v1 := w32add (w32shr x 1 &&& 0x55555555) (x &&& 0x55555555)
  let v2 := w32add (w32shr v1 2 &&& 0x33333333) (v1 &&& 0x33333333)
  let v3 := w32add (w32shr v2 4 &&& 0x0f0f0f0f) (v2 &&& 0x0f0f0f0f)
  let v4 := w32add (w32shr v3 8 &&& 0x00ff00ff) (v3 &&& 0x00ff00ff)
  w32add (w32shr v4 16 &&& 0x0000ffff) (v4 &&& 0x0000ffff)

/-- The value computed by the graph that TFBuilder::MakeI32Ctz emits on a
32-bit word: bit-smear by shifts 1, 2, 4, 8, 16 combined with or, then
popcount of the xor with 0xffffffff. -/
def makeI32CtzVal (x : Nat) : Nat :=
  let s1 := orShl32 x 1
  let s2 := orShl32 s1 2
  let s3 := orShl32 s2 4
  let s4 := orShl32 s3 8
  let s5 := orShl32 s4 16
  makeI32PopcntVal (0xffffffff ^^^ s5)

/-- Fuel-bounded count of trailing zero bits. -/
def ctzAux : Nat → Nat → Nat
  | 0, _ => 0
  | f + 1, x => if x % 2 = 1 then 0 else ctzAux f (x / 2) + 1

/-- The number of trailing zero bits of a 32-bit word, with 32 for the
zero word (the specification value for i32.ctz). -/
def ctz32 (x : Nat) : Nat :=
  ctzAux 32 x

/-- Operators of the join nodes that the trap helper may mutate in place
(the lazily grown Merge and EffectPhi of a trap block and the graph's
End node); every other node is immutable once created. -/
def isJoinOp : Op → Bool
  | .Merge _ => true
  | .EffectPhi _ => true
  | .End _ => true
  | _ => false

/-- A node inside the arena that is a Merge whose operator count matches
its input count. -/
def mergeConsistent (b : Builder) (m : Nat) : Bool :=
  decide (m < b.nodes.size) &&
  (match (b.nodeAt m).op with
   | .Merge k => decide ((b.nodeAt m).inputs.length = k)
   | _ => false)

/-- A node inside the arena that is an EffectPhi with one more input
(the trailing control input) than its operator count. -/
def phiConsistent (b : Builder) (p : Nat) : Bool :=
  decide (p < b.nodes.size) &&
  (match (b.nodeAt p).op with
   | .EffectPhi k => decide ((b.nodeAt p).inputs.length = k + 1)
   | _ => false)

/-- Consistency of one entry of the trap cache: when a trap block for the
reason exists, its merge is a consistent Merge and its effect phi a
consistent EffectPhi. -/
def okTrapB (b : Builder) (R : TrapReason) : Bool :=
  match b.traps R, b.trapEffects R with
  | none, _ => true
  | some _, none => false
  | some m, some p => mergeConsistent b m && phiConsistent b p

/-- Consistency of the End pointer: when present it names an End node
inside the arena. -/
def okEndB (b : Builder) : Bool :=
  match b.endN with
  | none => true
  | some e =>
    decide (e < b.nodes.size) &&
    (match (b.nodeAt e).op with | .End _ => true | _ => false)

/-- Builder well-formedness: live cursors and the start node are inside
the arena, the End pointer is consistent and every trap cache entry is
consistent. -/
def wfB (b : Builder) : Bool :=
  decide (b.control < b.nodes.size) && decide (b.effect < b.nodes.size) &&
  decide (b.startN < b.nodes.size) && okEndB b &&
  TrapReason.all.all (okTrapB b)

/-- Consistency of the memoized base-pointer constant: when present it is
the IntPtrConstant of mem_start inside the arena. -/
def okMemBufB (b : Builder) (md : ModuleEnvM) : Bool :=
  match b.memBuf with
  | none => true
  | some u =>
    decide (u < b.nodes.size) &&
    decide (b.nodeAt u = ⟨.IntPtrConst md.memStart, []⟩)

/-- The control predecessors of a node, read off its operator: the
control input of a branch is its last input, the projections and merges
have only control inputs, and all other nodes are treated as control
sources here (the claims checked below only traverse branch, projection
and merge nodes). -/
def ctrlInputs (b : Builder) (i : Nat) : List Nat :=
  let n := b.nodeAt i
  match n.op with
  | .Branch _ => n.inputs.drop 1
  | .IfTrue => n.inputs
  | .IfFalse => n.inputs
  | .Merge _ => n.inputs
  | _ => []

/-- A backward control path from a node to a target, recorded as the list
of visited nodes (the target excluded). -/
inductive CPathTo (b : Builder) (tgt : Nat) : Nat → List Nat → Prop
  | base : CPathTo b tgt tgt []
  | step {i j : Nat} {l : List Nat} :
      j ∈ ctrlInputs b i → CPathTo b tgt j l → CPathTo b tgt i (i :: l)

/-- A sequence of consecutive trap sites for one reason: each site is an
AddTrapIf call with its condition node and polarity. -/
def runTrapSites (b : Builder) (R : TrapReason) (sites : List (Nat × Bool)) :
    Builder :=
  sites.foldl (fun b s => b.addTrapIf R s.1 s.2) b

/-- A fresh builder over a graph holding a Start node and two parameter
nodes, with no module attached: the state right after TFBuilder::Start
and two TFBuilder::Param calls on a two-parameter function. -/
def bW : Builder :=
  { nodes := #[⟨.Start, []⟩, ⟨.Parameter 0, [0]⟩, ⟨.Parameter 1, [0]⟩],
    startN := 0, endN := none, control := 0, effect := 0,
    traps := fun _ => none, trapEffects := fun _ => none,
    hasCtx := false, module := none, memBuf := none, memSz := none }

/-- The builder bW with a 32-byte linear memory attached (default, not
asm.js, semantics). -/
def bL : Builder :=
  { bW with module := some ⟨1024, 1056, false⟩ }

/-- A builder whose graph holds compile-time constants (for exercising
the constant matcher of the trap helper): node 1 is the int32 constant 5
and node 2 the int64 constant 7. -/
def bK : Builder :=
  { nodes := #[⟨.Start, []⟩, ⟨.Int32Const 5, []⟩, ⟨.Int64Const 7, []⟩],
    startN := 0, endN := none, control := 0, effect := 0,
    traps := fun _ => none, trapEffects := fun _ => none,
    hasCtx := false, module := none, memBuf := none, memSz := none }

/-- Machine capability flags all answering false (a bare machine with
none of the optional operators). -/
def flagsNone : MachineFlags :=
  ⟨false, false, false, false, false, false, false, false,
   false, false, false, false, false, false, false, false⟩

/-- The table-vs-builder divergences: cases where the translated Binop or
Unop body emits an opcode's own primitive machine operator even though
WasmOpcodes::IsSupported reports the opcode as unsupported on the target.
The Clz opcodes and the 64-bit integer-to-float conversions do so
unconditionally, the Ctz, Popcnt, Min, Max and float-rounding opcodes do
so whenever the machine capability flag answers yes (the builder consults
the machine operator builder rather than the opcode table). -/
def c4Exception (wasm64 : Bool) (fl : MachineFlags) (op : WasmOpcode) :
    Bool :=
  match op with
  | .I32Clz => true
  | .I32Ctz => fl.word32Ctz
  | .I32Popcnt => fl.word32Popcnt
  | .I64Clz => wasm64
  | .I64Ctz => wasm64 && fl.word64Ctz
  | .I64Popcnt => wasm64 && fl.word64Popcnt
  | .F32Min => fl.float32Min
  | .F32Max => fl.float32Max
  | .F64Min => fl.float64Min
  | .F64Max => fl.float64Max
  | .F32Floor => fl.float32RoundDown
  | .F32Ceil => fl.float32RoundUp
  | .F32Trunc => fl.float32RoundTruncate
  | .F32NearestInt => fl.float32RoundTiesEven
  | .F64Floor => fl.float64RoundDown
  | .F64Ceil => fl.float64RoundUp
  | .F64Trunc => fl.float64RoundTruncate
  | .F64NearestInt => fl.float64RoundTiesEven
  | .F32SConvertI64 | .F32UConvertI64
  | .F64SConvertI64 | .F64UConvertI64 => wasm64
  | _ => false

/-- An emit outcome respects the unsupported status of an opcode when it
is a hard error, or a list of machine operators that avoids the opcode's
own primitive operator and contains only unconditionally available
(non-optional) operators. -/
def emitsAvoiding (op : WasmOpcode) : EmitResult → Bool
  | .fatalError => true
  | .emits ms => ms.all fun m => (machPrimitiveFor op != some m) && !m.optional

theorem TrapReason.mem_all (R : TrapReason) : R ∈ TrapReason.all := by
  cases R <;> simp [TrapReason.all]

theorem aget_push (a : Array Node) (x : Node) (i : Nat) :
    aget (a.push x) i = if i = a.size then x else aget a i := by
  by_cases h : i = a.size
  · subst h
    simp [aget]
  · unfold aget
    rcases Nat.lt_trichotomy i a.size with hlt | heq | hgt
    · rw [dif_pos (by simp; omega), dif_pos hlt, if_neg h]
      exact Array.getElem_push_lt a x i hlt
    · exact absurd heq h
    · rw [dif_neg (by simp; omega), dif_neg (by omega), if_neg h]

theorem aget_push_self (a : Array Node) (x : Node) :
    aget (a.push x) a.size = x := by
  simp [aget_push]

theorem aget_push_lt (a : Array Node) (x : Node) (i : Nat) (h : i < a.size) :
    aget (a.push x) i = aget a i := by
  rw [aget_push, if_neg (by omega)]

theorem size_aset (a : Array Node) (i : Nat) (n : Node) :
    (aset a i n).size = a.size := by
  simp [aset]

theorem aget_aset_self (a : Array Node) (i : Nat) (n : Node) (h : i < a.size) :
    aget (aset a i n) i = n := by
  unfold aget aset
  rw [dif_pos (by simpa using h)]
  simp [Array.setD, h]

theorem aget_aset_ne (a : Array Node) (i j : Nat) (n : Node) (h : j ≠ i) :
    aget (aset a i n) j = aget a j := by
  unfold aget aset
  by_cases hj : j < a.size
  · rw [dif_pos (by simpa using hj), dif_pos hj]
    unfold Array.setD
    split
    · simp [Array.getElem_set, Ne.symm h]
    · rfl
  · rw [dif_neg (by simpa using hj), dif_neg hj]

theorem setT_same (f : TrapReason → Option Nat) (R : TrapReason) (v : Nat) :
    setT f R v R = some v := by
  simp [setT]

theorem setT_other (f : TrapReason → Option Nat) (R R2 : TrapReason) (v : Nat)
    (h : R2 ≠ R) : setT f R v R2 = f R2 := by
  simp [setT, h]

theorem okEndB_elim (b : Builder) (e : Nat) (hok : okEndB b = true)
    (hend : b.endN = some e) : e < b.nodes.size ∧ ∃ k, (b.nodeAt e).op = .End k := by
  unfold okEndB at hok
  rw [hend] at hok
  rcases hop : (b.nodeAt e).op <;> simp [hop] at hok <;> simp_all

theorem mergeConsistent_elim (b : Builder) (m : Nat)
    (h : mergeConsistent b m = true) :
    m < b.nodes.size ∧ (b.nodeAt m).op = .Merge (b.nodeAt m).inputs.length := by
  unfold mergeConsistent at h
  rcases hop : (b.nodeAt m).op <;> rw [hop] at h <;> simp_all

theorem phiConsistent_elim (b : Builder) (p : Nat)
    (h : phiConsistent b p = true) :
    p < b.nodes.size ∧
      ∃ k, (b.nodeAt p).op = .EffectPhi k ∧ (b.nodeAt p).inputs.length = k + 1 := by
  unfold phiConsistent at h
  rcases hop : (b.nodeAt p).op <;> rw [hop] at h <;> simp_all

theorem okTrapB_elim (b : Builder) (R : TrapReason) (m : Nat)
    (h : okTrapB b R = true) (hm : b.traps R = some m) :
    ∃ p, b.trapEffects R = some p ∧
      mergeConsistent b m = true ∧ phiConsistent b p = true := by
  unfold okTrapB at h
  rw [hm] at h
  rcases hp : b.trapEffects R with _ | p <;> rw [hp] at h <;> simp_all

theorem wfB_elim (b : Builder) (h : wfB b = true) :
    b.control < b.nodes.size ∧ b.effect < b.nodes.size ∧
    b.startN < b.nodes.size ∧ okEndB b = true ∧
    ∀ R, okTrapB b R = true := by
  unfold wfB at h
  simp only [Bool.and_eq_true, decide_eq_true_eq, List.all_eq_true] at h
  exact ⟨h.1.1.1.1, h.1.1.1.2, h.1.1.2, h.1.2,
    fun R => h.2 R (TrapReason.mem_all R)⟩

theorem wfB_intro (b : Builder) (h1 : b.control < b.nodes.size)
    (h2 : b.effect < b.nodes.size) (h3 : b.startN < b.nodes.size)
    (h4 : okEndB b = true) (h5 : ∀ R, okTrapB b R = true) : wfB b = true := by
  unfold wfB
  simp only [Bool.and_eq_true, decide_eq_true_eq, List.all_eq_true]
  exact ⟨⟨⟨⟨h1, h2⟩, h3⟩, h4⟩, fun R _ => h5 R⟩

theorem mergeConsistent_mono (b b2 : Builder) (m : Nat)
    (hsz : b.nodes.size ≤ b2.nodes.size) (hpres : b2.nodeAt m = b.nodeAt m)
    (h : mergeConsistent b m = true) : mergeConsistent b2 m = true := by
  unfold mergeConsistent at h ⊢
  rw [hpres]
  rcases hop : (b.nodeAt m).op <;> rw [hop] at h <;> simp_all <;> omega

theorem phiConsistent_mono (b b2 : Builder) (p : Nat)
    (hsz : b.nodes.size ≤ b2.nodes.size) (hpres : b2.nodeAt p = b.nodeAt p)
    (h : phiConsistent b p = true) : phiConsistent b2 p = true := by
  unfold phiConsistent at h ⊢
  rw [hpres]
  rcases hop : (b.nodeAt p).op <;> rw [hop] at h <;> simp_all <;> omega

theorem okTrapB_transport (b b2 : Builder) (R : TrapReason)
    (h : okTrapB b R = true)
    (ht : b2.traps R = b.traps R) (hte : b2.trapEffects R = b.trapEffects R)
    (hsz : b.nodes.size ≤ b2.nodes.size)
    (hm : ∀ m, b.traps R = some m → b2.nodeAt m = b.nodeAt m)
    (hp : ∀ m p, b.traps R = some m → b.trapEffects R = some p →
      b2.nodeAt p = b.nodeAt p) :
    okTrapB b2 R = true := by
  unfold okTrapB
  rw [ht, hte]
  rcases hmm : b.traps R with _ | m
  · simp
  · obtain ⟨p, hpp, hmc, hpc⟩ := okTrapB_elim b R m h hmm
    rw [hpp]
    simp only [Bool.and_eq_true]
    exact ⟨mergeConsistent_mono b b2 m hsz (hm m hmm) hmc,
      phiConsistent_mono b b2 p hsz (hp m p hmm hpp) hpc⟩

theorem okEndB_transport (b b2 : Builder) (h : okEndB b = true)
    (hend : b2.endN = b.endN) (hsz : b.nodes.size ≤ b2.nodes.size)
    (hpres : ∀ i, i < b.nodes.size → b2.nodeAt i = b.nodeAt i) :
    okEndB b2 = true := by
  unfold okEndB
  rw [hend]
  rcases he : b.endN with _ | e
  · rfl
  · obtain ⟨hlt, k, hk⟩ := okEndB_elim b e h he
    simp only [hpres e hlt, hk]
    simp
    omega

theorem wfB_step (b b2 : Builder) (hwf : wfB b = true)
    (hsz : b.nodes.size ≤ b2.nodes.size)
    (hpres : ∀ i, i < b.nodes.size → b2.nodeAt i = b.nodeAt i)
    (hend : b2.endN = b.endN)
    (ht : b2.traps = b.traps) (hte : b2.trapEffects = b.trapEffects)
    (hc : b2.control < b2.nodes.size) (he : b2.effect < b2.nodes.size)
    (hs : b2.startN = b.startN) : wfB b2 = true := by
  obtain ⟨_, _, hstart, hok, htrap⟩ := wfB_elim b hwf
  refine wfB_intro b2 hc he (by omega) ?_ ?_
  · exact okEndB_transport b b2 hok hend hsz hpres
  · intro R
    refine okTrapB_transport b b2 R (htrap R) (by rw [ht]) (by rw [hte]) hsz ?_ ?_
    · intro m hm
      obtain ⟨p, _, hmc, _⟩ := okTrapB_elim b R m (htrap R) hm
      exact hpres m (mergeConsistent_elim b m hmc).1
    · intro m p hm hp
      obtain ⟨p2, hp2, _, hpc⟩ := okTrapB_elim b R m (htrap R) hm
      rw [hp2] at hp
      injection hp with hp
      subst hp
      exact hpres p2 (phiConsistent_elim b p2 hpc).1

theorem aTM_fields (b : Builder) (m c : Nat) :
    let b2 := b.appendToMerge m c
    b2.nodes.size = b.nodes.size ∧ b2.startN = b.startN ∧
    b2.endN = b.endN ∧ b2.control = b.control ∧ b2.effect = b.effect ∧
    b2.traps = b.traps ∧ b2.trapEffects = b.trapEffects ∧
    b2.hasCtx = b.hasCtx ∧ b2.module = b.module ∧
    b2.memBuf = b.memBuf ∧ b2.memSz = b.memSz := by
  simp [Builder.appendToMerge, Builder.setNode, aset]

theorem aTM_ne (b : Builder) (m c j : Nat) (h : j ≠ m) :
    (b.appendToMerge m c).nodeAt j = b.nodeAt j := by
  simp only [Builder.appendToMerge, Builder.setNode, Builder.nodeAt]
  exact aget_aset_ne _ _ _ _ h

theorem aTM_target (b : Builder) (m c : Nat) (hm : m < b.nodes.size) :
    (b.appendToMerge m c).nodeAt m =
      ⟨resizeMergeOrPhi (b.nodeAt m).op ((b.nodeAt m).inputs.length + 1),
        (b.nodeAt m).inputs ++ [c]⟩ := by
  simp only [Builder.appendToMerge, Builder.setNode, Builder.nodeAt]
  rw [aget_aset_self _ _ _ hm]
  simp

theorem aTP_fields (b : Builder) (m p c : Nat) :
    let b2 := b.appendToPhi m p c
    b2.nodes.size = b.nodes.size ∧ b2.startN = b.startN ∧
    b2.endN = b.endN ∧ b2.control = b.control ∧ b2.effect = b.effect ∧
    b2.traps = b.traps ∧ b2.trapEffects = b.trapEffects ∧
    b2.hasCtx = b.hasCtx ∧ b2.module = b.module ∧
    b2.memBuf = b.memBuf ∧ b2.memSz = b.memSz := by
  simp [Builder.appendToPhi, Builder.setNode, aset]

theorem aTP_ne (b : Builder) (m p c j : Nat) (h : j ≠ p) :
    (b.appendToPhi m p c).nodeAt j = b.nodeAt j := by
  simp only [Builder.appendToPhi, Builder.setNode, Builder.nodeAt]
  exact aget_aset_ne _ _ _ _ h

theorem aTP_target (b : Builder) (m p c : Nat) (hp : p < b.nodes.size) :
    (b.appendToPhi m p c).nodeAt p =
      ⟨resizeMergeOrPhi (b.nodeAt p).op (b.nodeAt p).inputs.length,
        (b.nodeAt p).inputs.insertIdx ((b.nodeAt p).inputs.length - 1) c⟩ := by
  simp only [Builder.appendToPhi, Builder.setNode, Builder.nodeAt]
  rw [aget_aset_self _ _ _ hp]

theorem mcte_fields (b : Builder) (nd : Nat) :
    let b2 := b.mergeControlToEnd nd
    b2.startN = b.startN ∧ b2.control = b.control ∧ b2.effect = b.effect ∧
    b2.traps = b.traps ∧ b2.trapEffects = b.trapEffects ∧
    b2.hasCtx = b.hasCtx ∧ b2.module = b.module ∧
    b2.memBuf = b.memBuf ∧ b2.memSz = b.memSz := by
  rcases hend : b.endN with _ | e <;>
    simp [Builder.mergeControlToEnd, hend, Builder.newNode, Builder.setNode]

theorem mcte_size (b : Builder) (nd : Nat) :
    b.nodes.size ≤ (b.mergeControlToEnd nd).nodes.size := by
  rcases hend : b.endN with _ | e <;>
    simp [Builder.mergeControlToEnd, hend, Builder.newNode, Builder.setNode, aset]

theorem mcte_okEnd (b : Builder) (nd : Nat) (hok : okEndB b = true) :
    okEndB (b.mergeControlToEnd nd) = true := by
  rcases hend : b.endN with _ | e
  · simp [Builder.mergeControlToEnd, hend, Builder.newNode, okEndB,
      Builder.nodeAt, aget_push]
  · obtain ⟨he, k, hk⟩ := okEndB_elim b e hok hend
    simp only [Builder.mergeControlToEnd, hend, Builder.setNode, okEndB,
      Builder.nodeAt]
    rw [aget_aset_self _ _ _ he]
    simp [size_aset, he]

theorem mcte_preserve (b : Builder) (nd : Nat) (i : Nat) (hi : i < b.nodes.size)
    (hne : b.endN ≠ some i) : (b.mergeControlToEnd nd).nodeAt i = b.nodeAt i := by
  rcases hend : b.endN with _ | e
  · simp [Builder.mergeControlToEnd, hend, Builder.newNode, Builder.nodeAt,
      aget_push_lt _ _ _ hi]
  · have hie : i ≠ e := fun h => hne (by rw [hend, h])
    simp only [Builder.mergeControlToEnd, hend, Builder.setNode, Builder.nodeAt]
    exact aget_aset_ne _ _ _ _ hie

theorem mcte_mono (b : Builder) (nd : Nat) (i : Nat) (hi : i < b.nodes.size) :
    ∀ x, x ∈ (b.nodeAt i).inputs → x ∈ ((b.mergeControlToEnd nd).nodeAt i).inputs := by
  intro x hx
  rcases hend : b.endN with _ | e
  · simpa [Builder.mergeControlToEnd, hend, Builder.newNode, Builder.nodeAt,
      aget_push_lt _ _ _ hi] using hx
  · by_cases hie : i = e
    · subst hie
      simp only [Builder.mergeControlToEnd, hend, Builder.setNode, Builder.nodeAt]
      rw [aget_aset_self _ _ _ hi]
      simp only [List.mem_append]
      exact Or.inl hx
    · simp only [Builder.mergeControlToEnd, hend, Builder.setNode, Builder.nodeAt]
      rw [aget_aset_ne _ _ _ _ hie]
      exact hx

theorem core_fields (b : Builder) (R : TrapReason) :
    let c := (b.buildTrapCodeCore R).2
    b.nodes.size + 5 ≤ c.nodes.size ∧
    c.startN = b.startN ∧ c.endN = b.endN ∧
    c.hasCtx = b.hasCtx ∧ c.module = b.module ∧
    c.memBuf = b.memBuf ∧ c.memSz = b.memSz := by
  by_cases hc : b.hasCtx <;>
    simp [Builder.buildTrapCodeCore, Builder.strConstNode, Builder.newNode,
      Builder.int32ConstNode, hc]

theorem core_cursors (b : Builder) (R : TrapReason) :
    let c := (b.buildTrapCodeCore R).2
    c.control < c.nodes.size ∧ c.effect < c.nodes.size := by
  by_cases hc : b.hasCtx <;>
    simp [Builder.buildTrapCodeCore, Builder.strConstNode, Builder.newNode,
      Builder.int32ConstNode, hc]

theorem core_traps (b : Builder) (R : TrapReason) :
    (b.buildTrapCodeCore R).2.traps R = some (b.nodes.size + 1) ∧
    (b.buildTrapCodeCore R).2.trapEffects R = some (b.nodes.size + 2) := by
  by_cases hc : b.hasCtx <;>
    simp [Builder.buildTrapCodeCore, Builder.strConstNode, Builder.newNode,
      Builder.int32ConstNode, hc, setT_same]

theorem core_traps_other (b : Builder) (R R2 : TrapReason) (hne : R2 ≠ R) :
    (b.buildTrapCodeCore R).2.traps R2 = b.traps R2 ∧
    (b.buildTrapCodeCore R).2.trapEffects R2 = b.trapEffects R2 := by
  by_cases hc : b.hasCtx <;>
    simp [Builder.buildTrapCodeCore, Builder.strConstNode, Builder.newNode,
      Builder.int32ConstNode, hc, setT_other _ _ _ _ hne]

theorem core_node_m (b : Builder) (R : TrapReason) :
    (b.buildTrapCodeCore R).2.nodeAt (b.nodes.size + 1) =
      ⟨.Merge 1, [b.control]⟩ := by
  by_cases hc : b.hasCtx <;>
    simp [Builder.buildTrapCodeCore, Builder.strConstNode, Builder.newNode,
      Builder.int32ConstNode, hc, Builder.nodeAt, aget_push]

theorem core_node_p (b : Builder) (R : TrapReason) :
    (b.buildTrapCodeCore R).2.nodeAt (b.nodes.size + 2) =
      ⟨.EffectPhi 1, [b.effect, b.nodes.size + 1]⟩ := by
  by_cases hc : b.hasCtx <;>
    simp [Builder.buildTrapCodeCore, Builder.strConstNode, Builder.newNode,
      Builder.int32ConstNode, hc, Builder.nodeAt, aget_push]

theorem core_preserve (b : Builder) (R : TrapReason) :
    ∀ i, i < b.nodes.size →
      (b.buildTrapCodeCore R).2.nodeAt i = b.nodeAt i := by
  intro i hi
  by_cases hc : b.hasCtx <;>
  · simp only [Builder.buildTrapCodeCore, Builder.strConstNode, Builder.newNode,
      Builder.int32ConstNode, hc, Builder.nodeAt, Bool.false_eq_true,
      if_true, if_false, ite_true, ite_false]
    simp only [aget_push, Array.size_push]
    repeat rw [if_neg (by omega)]

theorem btc_unfold (b : Builder) (R : TrapReason) :
    b.buildTrapCode R =
      (b.buildTrapCodeCore R).2.mergeControlToEnd (b.buildTrapCodeCore R).1 := by
  unfold Builder.buildTrapCode
  rfl

theorem core_okEnd (b : Builder) (R : TrapReason) (hok : okEndB b = true) :
    okEndB (b.buildTrapCodeCore R).2 = true := by
  exact okEndB_transport b _ hok (core_fields b R).2.2.1
    (by have := (core_fields b R).1; omega) (core_preserve b R)

theorem btc_spec (b : Builder) (R : TrapReason) (hok : okEndB b = true) :
    let b2 := b.buildTrapCode R
    let s := b.nodes.size
    s + 5 ≤ b2.nodes.size ∧
    b2.startN = b.startN ∧ b2.hasCtx = b.hasCtx ∧ b2.module = b.module ∧
    b2.memBuf = b.memBuf ∧ b2.memSz = b.memSz ∧
    b2.control < b2.nodes.size ∧ b2.effect < b2.nodes.size ∧
    b2.traps R = some (s + 1) ∧ b2.trapEffects R = some (s + 2) ∧
    b2.nodeAt (s + 1) = ⟨.Merge 1, [b.control]⟩ ∧
    b2.nodeAt (s + 2) = ⟨.EffectPhi 1, [b.effect, s + 1]⟩ ∧
    (∀ R2, R2 ≠ R → b2.traps R2 = b.traps R2 ∧
      b2.trapEffects R2 = b.trapEffects R2) ∧
    (∀ i, i < s → b.endN ≠ some i → b2.nodeAt i = b.nodeAt i) ∧
    (∀ i, i < s → ∀ x, x ∈ (b.nodeAt i).inputs → x ∈ (b2.nodeAt i).inputs) ∧
    okEndB b2 = true := by
  intro b2 s
  obtain ⟨hsz5, hstart, hend, hctx, hmod, hbuf, hmsz⟩ := core_fields b R
  have hcur := core_cursors b R
  have htr := core_traps b R
  have hokc := core_okEnd b R hok
  obtain ⟨m1, m2, m3, m4, m5, m6, m7, m8, m9⟩ :=
    mcte_fields (b.buildTrapCodeCore R).2 (b.buildTrapCodeCore R).1
  have hmsize := mcte_size (b.buildTrapCodeCore R).2 (b.buildTrapCodeCore R).1
  have hb2 : b2 = (b.buildTrapCodeCore R).2.mergeControlToEnd
      (b.buildTrapCodeCore R).1 := btc_unfold b R
  have hnotend : ∀ j, s ≤ j → (b.buildTrapCodeCore R).2.endN ≠ some j := by
    intro j hj hcon
    rw [hend] at hcon
    obtain ⟨hlt, _⟩ := okEndB_elim b j hok hcon
    omega
  refine ⟨?_, ?_, ?_, ?_, ?_, ?_, ?_, ?_, ?_, ?_, ?_, ?_, ?_, ?_, ?_, ?_⟩
  · rw [hb2]; omega
  · rw [hb2, m1, hstart]
  · rw [hb2, m6, hctx]
  · rw [hb2, m7, hmod]
  · rw [hb2, m8, hbuf]
  · rw [hb2, m9, hmsz]
  · rw [hb2, m2]
    have := hcur.1
    omega
  · rw [hb2, m3]
    have := hcur.2
    omega
  · rw [hb2, m4, htr.1]
  · rw [hb2, m5, htr.2]
  · rw [hb2, mcte_preserve _ _ _ (by omega) (hnotend (s + 1) (by omega))]
    exact core_node_m b R
  · rw [hb2, mcte_preserve _ _ _ (by omega) (hnotend (s + 2) (by omega))]
    exact core_node_p b R
  · intro R2 hne
    rw [hb2, m4, m5]
    exact core_traps_other b R R2 hne
  · intro i hi hne
    rw [hb2, mcte_preserve _ _ _ (by omega) (by rw [hend]; exact hne)]
    exact core_preserve b R i hi
  · intro i hi x hx
    rw [hb2]
    refine mcte_mono _ _ _ (by omega) x ?_
    rw [core_preserve b R i hi]
    exact hx
  · rw [hb2]
    exact mcte_okEnd _ _ hokc

theorem endN_ne_merge (b : Builder) (m : Nat) (hok : okEndB b = true)
    (hmc : mergeConsistent b m = true) : b.endN ≠ some m := by
  intro hcon
  obtain ⟨_, k, hk⟩ := okEndB_elim b m hok hcon
  have := (mergeConsistent_elim b m hmc).2
  rw [hk] at this
  exact Op.noConfusion this

theorem endN_ne_phi (b : Builder) (p : Nat) (hok : okEndB b = true)
    (hpc : phiConsistent b p = true) : b.endN ≠ some p := by
  intro hcon
  obtain ⟨_, k, hk⟩ := okEndB_elim b p hok hcon
  obtain ⟨_, k2, hk2, _⟩ := phiConsistent_elim b p hpc
  rw [hk] at hk2
  exact Op.noConfusion hk2

theorem merge_ne_phi (b : Builder) (m p : Nat)
    (hmc : mergeConsistent b m = true) (hpc : phiConsistent b p = true) :
    m ≠ p := by
  intro hcon
  subst hcon
  have h1 := (mergeConsistent_elim b m hmc).2
  obtain ⟨_, k2, hk2, _⟩ := phiConsistent_elim b m hpc
  rw [h1] at hk2
  exact Op.noConfusion hk2

theorem joinOp_merge (b : Builder) (m : Nat) (hmc : mergeConsistent b m = true) :
    isJoinOp (b.nodeAt m).op = true := by
  rw [(mergeConsistent_elim b m hmc).2]
  rfl

theorem joinOp_phi (b : Builder) (p : Nat) (hpc : phiConsistent b p = true) :
    isJoinOp (b.nodeAt p).op = true := by
  obtain ⟨_, k, hk, _⟩ := phiConsistent_elim b p hpc
  rw [hk]
  rfl

theorem connectTrap_spec (b : Builder) (R : TrapReason) (hwf : wfB b = true) :
    let b2 := b.connectTrap R
    let s := b.nodes.size
    s ≤ b2.nodes.size ∧
    b2.startN = b.startN ∧ b2.hasCtx = b.hasCtx ∧ b2.module = b.module ∧
    b2.memBuf = b.memBuf ∧ b2.memSz = b.memSz ∧
    (∀ i, i < s → isJoinOp (b.nodeAt i).op = false → b2.nodeAt i = b.nodeAt i) ∧
    (∀ i, i < s → ∀ x, x ∈ (b.nodeAt i).inputs → x ∈ (b2.nodeAt i).inputs) ∧
    (∃ m p, b2.traps R = some m ∧ b2.trapEffects R = some p ∧
      b.control ∈ (b2.nodeAt m).inputs ∧ mergeConsistent b2 m = true ∧
      b.effect ∈ (b2.nodeAt p).inputs ∧ phiConsistent b2 p = true) ∧
    (∀ R2, R2 ≠ R → b2.traps R2 = b.traps R2 ∧
      b2.trapEffects R2 = b.trapEffects R2) ∧
    b2.control < b2.nodes.size ∧ b2.effect < b2.nodes.size ∧
    okEndB b2 = true ∧ (∀ R2, okTrapB b2 R2 = true) := by
  intro b2 s
  obtain ⟨hctl, heff, hstart, hokend, htraps⟩ := wfB_elim b hwf
  rcases hR : b.traps R with _ | m
  · -- first use of the reason: the trap block is built
    have hb2 : b2 = b.buildTrapCode R := by
      unfold_let b2
      unfold Builder.connectTrap
      rw [hR]
    obtain ⟨c1, c2, c3, c4, c5, c6, c7, c8, c9, c10, c11, c12, c13, c14, c15, c16⟩ :=
      btc_spec b R hokend
    refine ⟨by rw [hb2]; omega, by rw [hb2, c2], by rw [hb2, c3],
      by rw [hb2, c4], by rw [hb2, c5], by rw [hb2, c6], ?_, ?_, ?_, ?_,
      by rw [hb2]; exact c7, by rw [hb2]; exact c8, by rw [hb2]; exact c16, ?_⟩
    · intro i hi hnj
      rw [hb2]
      refine c14 i hi ?_
      intro hcon
      obtain ⟨_, k, hk⟩ := okEndB_elim b i hokend hcon
      rw [hk] at hnj
      exact Bool.noConfusion hnj
    · intro i hi x hx
      rw [hb2]
      exact c15 i hi x hx
    · refine ⟨s + 1, s + 2, by rw [hb2, c9], by rw [hb2, c10], ?_, ?_, ?_, ?_⟩
      · rw [hb2, c11]
        simp
      · unfold mergeConsistent
        rw [hb2, c11]
        simp
        omega
      · rw [hb2, c12]
        simp
      · unfold phiConsistent
        rw [hb2, c12]
        simp
        omega
    · intro R2 hne
      rw [hb2]
      exact c13 R2 hne
    · intro R2
      rw [hb2]
      by_cases hR2 : R2 = R
      · subst hR2
        unfold okTrapB
        rw [c9, c10]
        simp only [Bool.and_eq_true]
        refine ⟨?_, ?_⟩
        · unfold mergeConsistent
          rw [c11]
          simp
          omega
        · unfold phiConsistent
          rw [c12]
          simp
          omega
      · obtain ⟨ht1, ht2⟩ := c13 R2 hR2
        refine okTrapB_transport b _ R2 (htraps R2) ht1 ht2 (by omega) ?_ ?_
        · intro m2 hm2
          obtain ⟨p2, hp2, hmc2, hpc2⟩ := okTrapB_elim b R2 m2 (htraps R2) hm2
          exact c14 m2 (mergeConsistent_elim b m2 hmc2).1
            (endN_ne_merge b m2 hokend hmc2)
        · intro m2 p2 hm2 hp2
          obtain ⟨p3, hp3, hmc2, hpc2⟩ := okTrapB_elim b R2 m2 (htraps R2) hm2
          rw [hp3] at hp2
          injection hp2 with hp2
          subst hp2
          exact c14 p3 (phiConsistent_elim b p3 hpc2).1
            (endN_ne_phi b p3 hokend hpc2)
  · -- the reason already has a trap block: widen its merge and phi
    obtain ⟨p, hP, hmc, hpc⟩ := okTrapB_elim b R m (htraps R) hR
    have hmlt := (mergeConsistent_elim b m hmc).1
    have hmop := (mergeConsistent_elim b m hmc).2
    obtain ⟨hplt, kp, hpop, hplen⟩ := phiConsistent_elim b p hpc
    have hmp : m ≠ p := merge_ne_phi b m p hmc hpc
    have hb2 : b2 = (b.appendToMerge m b.control).appendToPhi m
        (((b.appendToMerge m b.control).trapEffects R).getD 0) b.effect := by
      unfold_let b2
      unfold Builder.connectTrap
      rw [hR]
      rfl
    obtain ⟨a1, a2, a3, a4, a5, a6, a7, a8, a9, a10, a11⟩ :=
      aTM_fields b m b.control
    have hgetd : ((b.appendToMerge m b.control).trapEffects R).getD 0 = p := by
      rw [a7, hP]
      rfl
    rw [hgetd] at hb2
    obtain ⟨q1, q2, q3, q4, q5, q6, q7, q8, q9, q10, q11⟩ :=
      aTP_fields (b.appendToMerge m b.control) m p b.effect
    have hsz2 : b2.nodes.size = s := by
      rw [hb2, q1, a1]
    have hnode_m : b2.nodeAt m =
        ⟨.Merge ((b.nodeAt m).inputs.length + 1),
          (b.nodeAt m).inputs ++ [b.control]⟩ := by
      rw [hb2, aTP_ne _ _ _ _ _ hmp, aTM_target b m b.control hmlt]
      rw [hmop]
      rfl
    have hnode_p : b2.nodeAt p =
        ⟨.EffectPhi (kp + 1),
          (b.nodeAt p).inputs.insertIdx kp b.effect⟩ := by
      rw [hb2, aTP_target _ _ _ _ (by rw [a1]; exact hplt)]
      rw [aTM_ne _ _ _ _ hmp.symm]
      rw [hpop, hplen]
      simp [resizeMergeOrPhi]
    have hpres : ∀ j, j ≠ m → j ≠ p → b2.nodeAt j = b.nodeAt j := by
      intro j hjm hjp
      rw [hb2, aTP_ne _ _ _ _ _ hjp, aTM_ne _ _ _ _ hjm]
    have hmc2 : mergeConsistent b2 m = true := by
      unfold mergeConsistent
      rw [hnode_m, hsz2]
      simp
      exact hmlt
    have hlen2 : ((b.nodeAt p).inputs.insertIdx kp b.effect).length = kp + 2 := by
      rw [List.length_insertIdx kp (b.nodeAt p).inputs (by omega)]
      omega
    have hpc2 : phiConsistent b2 p = true := by
      unfold phiConsistent
      rw [hnode_p, hsz2]
      simp [hlen2]
      exact hplt
    refine ⟨by omega, by rw [hb2, q2, a2], by rw [hb2, q8, a8],
      by rw [hb2, q9, a9], by rw [hb2, q10, a10], by rw [hb2, q11, a11],
      ?_, ?_, ?_, ?_, ?_, ?_, ?_, ?_⟩
    · intro i hi hnj
      refine hpres i ?_ ?_
      · intro hcon
        subst hcon
        rw [joinOp_merge b i hmc] at hnj
        exact Bool.noConfusion hnj
      · intro hcon
        subst hcon
        rw [joinOp_phi b i hpc] at hnj
        exact Bool.noConfusion hnj
    · intro i hi x hx
      by_cases him : i = m
      · subst him
        rw [hnode_m]
        simp only [List.mem_append]
        exact Or.inl hx
      · by_cases hip : i = p
        · subst hip
          rw [hnode_p]
          rw [List.mem_insertIdx (by omega)]
          exact Or.inr hx
        · rw [hpres i him hip]
          exact hx
    · refine ⟨m, p, ?_, ?_, ?_, hmc2, ?_, hpc2⟩
      · rw [hb2, q6, a6, hR]
      · rw [hb2, q7, a7, hP]
      · rw [hnode_m]
        simp
      · rw [hnode_p]
        rw [List.mem_insertIdx (by omega)]
        exact Or.inl rfl
    · intro R2 hne
      constructor
      · rw [hb2, q6, a6]
      · rw [hb2, q7, a7]
    · rw [hb2, q4, a4]
      omega
    · rw [hb2, q5, a5]
      omega
    · have hend2 : b2.endN = b.endN := by rw [hb2, q3, a3]
      unfold okEndB
      rw [hend2]
      rcases hend : b.endN with _ | e
      · rfl
      · have hem : e ≠ m := by
          intro hcon
          exact endN_ne_merge b m hokend hmc (by rw [hend, hcon])
        have hep : e ≠ p := by
          intro hcon
          exact endN_ne_phi b p hokend hpc (by rw [hend, hcon])
        obtain ⟨helt, k, hk⟩ := okEndB_elim b e hokend hend
        simp only [hpres e hem hep, hk, hsz2]
        simp
        omega
    · intro R2
      unfold okTrapB
      rw [hb2, q6, a6, q7, a7, ← hb2]
      rcases hm2 : b.traps R2 with _ | m2
      · rfl
      · obtain ⟨p2, hp2, hmc2b, hpc2b⟩ := okTrapB_elim b R2 m2 (htraps R2) hm2
        rw [hp2]
        simp only [Bool.and_eq_true]
        constructor
        · by_cases hmm : m2 = m
          · subst hmm
            exact hmc2
          · have hm2p : m2 ≠ p := merge_ne_phi b m2 p hmc2b hpc
            exact mergeConsistent_mono b b2 m2 (by omega)
              (hpres m2 hmm hm2p) hmc2b
        · by_cases hpp : p2 = p
          · subst hpp
            exact hpc2
          · have hp2m : p2 ≠ m := (merge_ne_phi b m p2 hmc hpc2b).symm
            exact phiConsistent_mono b b2 p2 (by omega)
              (hpres p2 hp2m hpp) hpc2b

theorem bft_preserve (b : Builder) (cond : Nat) (ift : Bool) :
    ∀ i, i < b.nodes.size →
      (b.branchForTrap cond ift).2.2.nodeAt i = b.nodeAt i := by
  intro i hi
  simp only [Builder.branchForTrap, Builder.newNode, Builder.nodeAt]
  simp only [aget_push, Array.size_push]
  repeat rw [if_neg (by omega)]

theorem bft_spec (b : Builder) (cond : Nat) (ift : Bool) :
    let r := b.branchForTrap cond ift
    let s := b.nodes.size
    r.1 = s + 1 ∧ r.2.1 = s + 2 ∧
    r.2.2.nodes.size = s + 3 ∧
    r.2.2.nodeAt s =
      ⟨.Branch (if ift then .hFalse else .hTrue), [cond, b.control]⟩ ∧
    r.2.2.nodeAt (s + 1) = ⟨.IfTrue, [s]⟩ ∧
    r.2.2.nodeAt (s + 2) = ⟨.IfFalse, [s]⟩ ∧
    r.2.2.control = (if ift then s + 1 else s + 2) ∧
    r.2.2.effect = b.effect ∧ r.2.2.startN = b.startN ∧ r.2.2.endN = b.endN ∧
    r.2.2.traps = b.traps ∧ r.2.2.trapEffects = b.trapEffects ∧
    r.2.2.hasCtx = b.hasCtx ∧ r.2.2.module = b.module ∧
    r.2.2.memBuf = b.memBuf ∧ r.2.2.memSz = b.memSz ∧
    (∀ i, i < s → r.2.2.nodeAt i = b.nodeAt i) := by
  intro r s
  have hr : r = b.branchForTrap cond ift := rfl
  have hs : s = b.nodes.size := rfl
  rw [hr, hs]
  refine ⟨?_, ?_, ?_, ?_, ?_, ?_, ?_, ?_, ?_, ?_, ?_, ?_, ?_, ?_, ?_, ?_,
    bft_preserve b cond ift⟩ <;>
    try simp [Builder.branchForTrap, Builder.newNode, Builder.nodeAt, aget_push]
  all_goals omega

theorem bft_wf (b : Builder) (cond : Nat) (ift : Bool) (hwf : wfB b = true) :
    wfB (b.branchForTrap cond ift).2.2 = true := by
  obtain ⟨f1, f2, f3, f4, f5, f6, f7, f8, f9, f10, f11, f12, f13, f14, f15,
    f16, f17⟩ := bft_spec b cond ift
  obtain ⟨hctl, heff, hstart, hokend, htraps⟩ := wfB_elim b hwf
  refine wfB_step b _ hwf (by omega) f17 f10 f11 f12 ?_ ?_ f9
  · rw [f3, f7]
    by_cases hi : ift <;> simp [hi]
  · rw [f3, f8]
    omega

theorem addTrapIf_spec (b : Builder) (R : TrapReason) (cond : Nat) (ift : Bool)
    (hwf : wfB b = true) :
    let b2 := b.addTrapIf R cond ift
    let s := b.nodes.size
    b2.effect = b.effect ∧
    b2.control = (if ift then s + 2 else s + 1) ∧
    b2.startN = b.startN ∧
    b2.hasCtx = b.hasCtx ∧ b2.module = b.module ∧
    b2.memBuf = b.memBuf ∧ b2.memSz = b.memSz ∧
    s + 3 ≤ b2.nodes.size ∧
    b2.nodeAt s =
      ⟨.Branch (if ift then .hFalse else .hTrue), [cond, b.control]⟩ ∧
    b2.nodeAt (s + 1) = ⟨.IfTrue, [s]⟩ ∧
    b2.nodeAt (s + 2) = ⟨.IfFalse, [s]⟩ ∧
    (∀ i, i < s → isJoinOp (b.nodeAt i).op = false →
      b2.nodeAt i = b.nodeAt i) ∧
    (∀ i, i < s → ∀ x, x ∈ (b.nodeAt i).inputs → x ∈ (b2.nodeAt i).inputs) ∧
    (∃ m p, b2.traps R = some m ∧ b2.trapEffects R = some p ∧
      (if ift then s + 1 else s + 2) ∈ (b2.nodeAt m).inputs ∧
      mergeConsistent b2 m = true ∧
      b.effect ∈ (b2.nodeAt p).inputs ∧ phiConsistent b2 p = true) ∧
    (∀ R2, R2 ≠ R → b2.traps R2 = b.traps R2 ∧
      b2.trapEffects R2 = b.trapEffects R2) ∧
    wfB b2 = true := by
  intro b2 s
  obtain ⟨f1, f2, f3, f4, f5, f6, f7, f8, f9, f10, f11, f12, f13, f14, f15,
    f16, f17⟩ := bft_spec b cond ift
  have hwfm := bft_wf b cond ift hwf
  obtain ⟨hctl, heff, hstart, hokend, htraps⟩ := wfB_elim b hwf
  obtain ⟨c1, c2, c3, c4, c5, c6, c7, c8, c9, c10, c11, c12, c13, c14⟩ :=
    connectTrap_spec (b.branchForTrap cond ift).2.2 R hwfm
  have hb2 : b2 = { ((b.branchForTrap cond ift).2.2.connectTrap R) with
      control := if ift then (b.branchForTrap cond ift).2.1
                 else (b.branchForTrap cond ift).1,
      effect := b.effect } := rfl
  have hnodes : ∀ j, b2.nodeAt j =
      ((b.branchForTrap cond ift).2.2.connectTrap R).nodeAt j := by
    intro j
    rw [hb2]
    rfl
  have hsz : b2.nodes.size =
      ((b.branchForTrap cond ift).2.2.connectTrap R).nodes.size := by
    rw [hb2]
  have hszge : s + 3 ≤ b2.nodes.size := by
    rw [hsz]
    omega
  have hcontrol : b2.control = (if ift then s + 2 else s + 1) := by
    rw [hb2]
    simp only [f1, f2]
  have heffect : b2.effect = b.effect := by
    rw [hb2]
  have htrapsEq : b2.traps = ((b.branchForTrap cond ift).2.2.connectTrap R).traps := by
    rw [hb2]
  have htrapsEffEq : b2.trapEffects =
      ((b.branchForTrap cond ift).2.2.connectTrap R).trapEffects := by
    rw [hb2]
  have hendEq : b2.endN = ((b.branchForTrap cond ift).2.2.connectTrap R).endN := by
    rw [hb2]
  have hstartEq : b2.startN = b.startN := by
    rw [hb2]
    simp only [c2, f9]
  refine ⟨heffect, hcontrol, hstartEq, ?_, ?_, ?_, ?_, hszge, ?_, ?_, ?_, ?_,
    ?_, ?_, ?_, ?_⟩
  · rw [hb2]
    simp only [c3, f13]
  · rw [hb2]
    simp only [c4, f14]
  · rw [hb2]
    simp only [c5, f15]
  · rw [hb2]
    simp only [c6, f16]
  · rw [hnodes, c7 s (by omega) (by rw [f4]; rfl), f4]
  · rw [hnodes, c7 (s + 1) (by omega) (by rw [f5]; rfl), f5]
  · rw [hnodes, c7 (s + 2) (by omega) (by rw [f6]; rfl), f6]
  · intro i hi hnj
    rw [hnodes, c7 i (by omega) (by rw [f17 i hi]; exact hnj), f17 i hi]
  · intro i hi x hx
    rw [hnodes]
    refine c8 i (by omega) x ?_
    rw [f17 i hi]
    exact hx
  · obtain ⟨m, p, d1, d2, d3, d4, d5, d6⟩ := c9
    refine ⟨m, p, ?_, ?_, ?_, ?_, ?_, ?_⟩
    · rw [htrapsEq]
      exact d1
    · rw [htrapsEffEq]
      exact d2
    · rw [hnodes]
      rw [f7] at d3
      exact d3
    · exact mergeConsistent_mono _ _ m (by rw [hsz]) (hnodes m) d4
    · rw [hnodes]
      rw [f8] at d5
      exact d5
    · exact phiConsistent_mono _ _ p (by rw [hsz]) (hnodes p) d6
  · intro R2 hne
    obtain ⟨e1, e2⟩ := c10 R2 hne
    constructor
    · rw [htrapsEq, e1, f11]
    · rw [htrapsEffEq, e2, f12]
  · refine wfB_intro b2 ?_ ?_ ?_ ?_ ?_
    · rw [hcontrol]
      by_cases hi : ift <;> simp [hi] <;> omega
    · rw [heffect]
      omega
    · rw [hstartEq]
      omega
    · refine okEndB_transport _ b2 c13 hendEq (by rw [hsz]) ?_
      intro i _
      exact hnodes i
    · intro R2
      refine okTrapB_transport _ b2 R2 (c14 R2) (by rw [htrapsEq])
        (by rw [htrapsEffEq]) (by rw [hsz]) ?_ ?_
      · intro m2 _
        exact hnodes m2
      · intro m2 p2 _ _
        exact hnodes p2

theorem addTrapIf_fresh (b : Builder) (R : TrapReason) (cond : Nat) (ift : Bool)
    (hwf : wfB b = true) (hnone : b.traps R = none) :
    let b2 := b.addTrapIf R cond ift
    let s := b.nodes.size
    b2.traps R = some (s + 4) ∧ b2.trapEffects R = some (s + 5) ∧
    b2.nodeAt (s + 4) = ⟨.Merge 1, [if ift then s + 1 else s + 2]⟩ ∧
    b2.nodeAt (s + 5) = ⟨.EffectPhi 1, [b.effect, s + 4]⟩ := by
  intro b2 s
  obtain ⟨f1, f2, f3, f4, f5, f6, f7, f8, f9, f10, f11, f12, f13, f14, f15,
    f16, f17⟩ := bft_spec b cond ift
  have hwfm := bft_wf b cond ift hwf
  obtain ⟨_, _, _, hokendm, _⟩ := wfB_elim _ hwfm
  have hmidnone : (b.branchForTrap cond ift).2.2.traps R = none := by
    rw [f11, hnone]
  have hct : (b.branchForTrap cond ift).2.2.connectTrap R =
      (b.branchForTrap cond ift).2.2.buildTrapCode R := by
    unfold Builder.connectTrap
    rw [hmidnone]
  obtain ⟨c1, c2, c3, c4, c5, c6, c7, c8, c9, c10, c11, c12, c13, c14, c15,
    c16⟩ := btc_spec (b.branchForTrap cond ift).2.2 R hokendm
  have hb2 : b2 = { ((b.branchForTrap cond ift).2.2.connectTrap R) with
      control := if ift then (b.branchForTrap cond ift).2.1
                 else (b.branchForTrap cond ift).1,
      effect := b.effect } := rfl
  rw [f3] at c9 c10 c11 c12
  refine ⟨?_, ?_, ?_, ?_⟩
  · rw [hb2]
    show ((b.branchForTrap cond ift).2.2.connectTrap R).traps R = _
    rw [hct, c9]
  · rw [hb2]
    show ((b.branchForTrap cond ift).2.2.connectTrap R).trapEffects R = _
    rw [hct, c10]
  · rw [hb2]
    show ((b.branchForTrap cond ift).2.2.connectTrap R).nodeAt (s + 4) = _
    rw [hct]
    have : s + 3 + 1 = s + 4 := rfl
    rw [← this, c11, f7]
  · rw [hb2]
    show ((b.branchForTrap cond ift).2.2.connectTrap R).nodeAt (s + 5) = _
    rw [hct]
    have : s + 3 + 2 = s + 5 := rfl
    rw [← this, c12, f8]

theorem addTrapIf_grow (b : Builder) (R : TrapReason) (cond : Nat) (ift : Bool)
    (m p k kp : Nat) (insM insP : List Nat)
    (hwf : wfB b = true) (hm : b.traps R = some m) (hp : b.trapEffects R = some p)
    (hmm : b.nodeAt m = ⟨.Merge k, insM⟩) (hlen : insM.length = k)
    (hpp : b.nodeAt p = ⟨.EffectPhi kp, insP⟩) (hplen : insP.length = kp + 1) :
    let b2 := b.addTrapIf R cond ift
    let s := b.nodes.size
    b2.nodes.size = s + 3 ∧
    b2.traps R = some m ∧ b2.trapEffects R = some p ∧
    b2.nodeAt m = ⟨.Merge (k + 1), insM ++ [if ift then s + 1 else s + 2]⟩ ∧
    b2.nodeAt p = ⟨.EffectPhi (kp + 1), insP.insertIdx kp b.effect⟩ := by
  intro b2 s
  obtain ⟨f1, f2, f3, f4, f5, f6, f7, f8, f9, f10, f11, f12, f13, f14, f15,
    f16, f17⟩ := bft_spec b cond ift
  obtain ⟨hctl, heff, hstart, hokend, htraps⟩ := wfB_elim b hwf
  obtain ⟨p0, hp0, hmc, hpc⟩ := okTrapB_elim b R m (htraps R) hm
  have hmlt : m < s := (mergeConsistent_elim b m hmc).1
  have hplt : p < s := by
    rw [hp0] at hp
    injection hp with hp
    subst hp
    exact (phiConsistent_elim b p0 hpc).1
  have hmp : m ≠ p := by
    intro hcon
    rw [hcon, hpp] at hmm
    exact Op.noConfusion (congrArg Node.op hmm)
  have hmidm : (b.branchForTrap cond ift).2.2.traps R = some m := by
    rw [f11, hm]
  set mid := (b.branchForTrap cond ift).2.2 with hmid
  have hmidnode_m : mid.nodeAt m = ⟨.Merge k, insM⟩ := by
    rw [bft_preserve b cond ift m hmlt, hmm]
  have hmidnode_p : mid.nodeAt p = ⟨.EffectPhi kp, insP⟩ := by
    rw [bft_preserve b cond ift p hplt, hpp]
  have hct : mid.connectTrap R = (mid.appendToMerge m mid.control).appendToPhi m
      (((mid.appendToMerge m mid.control).trapEffects R).getD 0) mid.effect := by
    unfold Builder.connectTrap
    rw [hmidm]
    rfl
  obtain ⟨a1, a2, a3, a4, a5, a6, a7, a8, a9, a10, a11⟩ :=
    aTM_fields mid m mid.control
  have hgetd : (((mid.appendToMerge m mid.control).trapEffects R).getD 0) = p := by
    rw [a7, f12, hp]
    rfl
  rw [hgetd] at hct
  obtain ⟨q1, q2, q3, q4, q5, q6, q7, q8, q9, q10, q11⟩ :=
    aTP_fields (mid.appendToMerge m mid.control) m p mid.effect
  have hb2 : b2 = { (mid.connectTrap R) with
      control := if ift then (b.branchForTrap cond ift).2.1
                 else (b.branchForTrap cond ift).1,
      effect := b.effect } := rfl
  have hnodes : ∀ j, b2.nodeAt j = (mid.connectTrap R).nodeAt j := by
    intro j
    rw [hb2]
    rfl
  refine ⟨?_, ?_, ?_, ?_, ?_⟩
  · have : b2.nodes.size = (mid.connectTrap R).nodes.size := by rw [hb2]
    rw [this, hct, q1, a1, f3]
  · have : b2.traps R = (mid.connectTrap R).traps R := by rw [hb2]
    rw [this, hct, q6, a6, f11, hm]
  · have : b2.trapEffects R = (mid.connectTrap R).trapEffects R := by rw [hb2]
    rw [this, hct, q7, a7, f12, hp]
  · rw [hnodes, hct, aTP_ne _ _ _ _ _ hmp,
      aTM_target mid m mid.control (by rw [f3]; omega), hmidnode_m]
    simp [resizeMergeOrPhi, hlen, f7]
  · rw [hnodes, hct, aTP_target _ _ _ _ (by rw [a1, f3]; omega),
      aTM_ne _ _ _ _ hmp.symm, hmidnode_p]
    simp [resizeMergeOrPhi, hplen, f8]

/-- C9: when TrapIfEq32 is given a node that is a compile-time Int32
constant whose value differs from the compared value, it emits nothing
(no branch, no trap block), leaves the whole builder state - in
particular the control and effect cursors - unchanged, and returns the
graph's Start node instead of the current control; ZeroCheck32 is the
val equal zero instance of this, and TrapIfEq64 behaves the same way on
Int64 constants. -/
theorem c9_trapIfEq_const_fold :
    (∀ (b : Builder) (R : TrapReason) (nd : Nat) (w val : Int),
      (b.nodeAt nd).op = .Int32Const w → w ≠ toInt32 val →
      b.trapIfEq32 R nd val = (b.startN, b)) ∧
    (∀ (b : Builder) (R : TrapReason) (nd : Nat) (w : Int),
      (b.nodeAt nd).op = .Int32Const w → w ≠ 0 →
      b.zeroCheck32 R nd = (b.startN, b)) ∧
    (∀ (b : Builder) (R : TrapReason) (nd : Nat) (w val : Int),
      (b.nodeAt nd).op = .Int64Const w → w ≠ toInt64 val →
      b.trapIfEq64 R nd val = (b.startN, b)) := by
  refine ⟨?_, ?_, ?_⟩
  · intro b R nd w val hop hne
    simp [Builder.trapIfEq32, isInt32ConstNe, hop, hne]
  · intro b R nd w hop hne
    have h0 : toInt32 0 = 0 := by decide
    simp [Builder.zeroCheck32, Builder.trapIfEq32, isInt32ConstNe, hop, h0, hne]
  · intro b R nd w val hop hne
    simp [Builder.trapIfEq64, isInt64ConstNe, hop, hne]

/-- Witness for C9 at a concrete builder: node 1 of bK is the int32
constant 5 and node 2 the int64 constant 7; checking either against zero
folds away completely, returning the Start node with the state intact. -/
theorem c9_witness :
    bK.trapIfEq32 .DivByZero 1 0 = (bK.startN, bK) ∧
    bK.trapIfEq64 .DivByZero 2 0 = (bK.startN, bK) :=
  ⟨c9_trapIfEq_const_fold.1 bK .DivByZero 1 5 0 (by decide) (by decide),
   c9_trapIfEq_const_fold.2.2 bK .DivByZero 2 7 0 (by decide) (by decide)⟩

/-- C8: AddTrapIf emits a branch on the condition at the old control
(hinted away from the trap side) and on return the control cursor is the
non-trap projection of that branch - the IfFalse projection when iftrue
is set, the IfTrue projection otherwise - while the effect cursor is
exactly the pre-call effect, so no effect wired into the trap side is
visible on the fall-through path. -/
theorem c8_addTrapIf_cursors (b : Builder) (R : TrapReason) (cond : Nat)
    (ift : Bool) (hwf : wfB b = true) :
    let b2 := b.addTrapIf R cond ift
    let s := b.nodes.size
    b2.nodeAt s =
      ⟨.Branch (if ift then .hFalse else .hTrue), [cond, b.control]⟩ ∧
    b2.nodeAt (s + 1) = ⟨.IfTrue, [s]⟩ ∧
    b2.nodeAt (s + 2) = ⟨.IfFalse, [s]⟩ ∧
    b2.control = (if ift then s + 2 else s + 1) ∧
    b2.effect = b.effect := by
  intro b2 s
  obtain ⟨g1, g2, _, _, _, _, _, _, g9, g10, g11, _, _, _, _, _⟩ :=
    addTrapIf_spec b R cond ift hwf
  exact ⟨g9, g10, g11, g2, g1⟩

/-- Witness for C8 at a concrete builder: a trap-if-true site on bW with
condition node 1 leaves the effect cursor at node 0 and the control
cursor at the IfFalse projection (node 5) of the new branch (node 3). -/
theorem c8_witness :
    (bW.addTrapIf .Unreachable 1 true).nodeAt 3 =
      ⟨.Branch .hFalse, [1, 0]⟩ ∧
    (bW.addTrapIf .Unreachable 1 true).nodeAt 4 = ⟨.IfTrue, [3]⟩ ∧
    (bW.addTrapIf .Unreachable 1 true).nodeAt 5 = ⟨.IfFalse, [3]⟩ ∧
    (bW.addTrapIf .Unreachable 1 true).control = 5 ∧
    (bW.addTrapIf .Unreachable 1 true).effect = 0 := by
  have h := c8_addTrapIf_cursors bW .Unreachable 1 true (by decide)
  exact ⟨h.1, h.2.1, h.2.2.1, h.2.2.2.1, h.2.2.2.2⟩

/-- C10: AllocateLocal on the i64 type touches none of the per-type
counters (only total_locals grows), and the returned index is exactly
the parameter count no matter how many locals were allocated before;
consequently it collides with the index handed out for the first i32
local of the function. -/
theorem c10_allocateLocal_i64 (env : FunctionEnv)
    (h : env.paramCount < 256) :
    allocateLocal env .i64 =
      some (env.paramCount, { env with totalLocals := env.totalLocals + 1 }) ∧
    (env.localInt32Count = 0 →
      (allocateLocal env .i32).map Prod.fst = some env.paramCount) := by
  constructor
  · simp [allocateLocal, h]
  · intro h0
    simp [allocateLocal, h0, h]

/-- Witness for C10 at a concrete environment with one parameter and
both per-type counters untouched: the i64 local gets index 1, and so
would the first i32 local. -/
theorem c10_witness :
    allocateLocal ⟨1, 0, 0, 0, 0, 1⟩ .i64 = some (1, ⟨1, 0, 0, 0, 0, 2⟩) ∧
    ((⟨1, 0, 0, 0, 0, 1⟩ : FunctionEnv).localInt32Count = 0 →
      (allocateLocal ⟨1, 0, 0, 0, 0, 1⟩ .i32).map Prod.fst = some 1) :=
  c10_allocateLocal_i64 ⟨1, 0, 0, 0, 0, 1⟩ (by decide)

/-- C3 counterexample: with one parameter, allocating i32, f32, i32 in
that order yields the index list [1, 1, 2].  A = 1 < C = 2 holds, but
the f32 local B also gets index 1, equal to the first i32 local rather
than strictly greater than every i32 local as the claim states: the
per-type counters start independently at parameter_count, so type
classes overlap instead of being grouped after one another. -/
theorem c3_counterexample :
    allocRun ⟨1, 0, 0, 0, 0, 1⟩ [.i32, .f32, .i32] =
      some ([1, 1, 2], ⟨1, 2, 0, 1, 0, 4⟩) ∧
    ¬ (1 : Nat) < 1 := by decide

/-- C3 amended: AllocateLocal returns parameter_count plus the running
count of previously allocated locals of the same type (i64 contributes
nothing), post-increments only that type's counter, always bumps
total_locals, and never changes parameter_count; indices are therefore
order-preserving within one type class, but distinct type classes
overlap because each counter starts at parameter_count. -/
theorem c3_amended (env : FunctionEnv) (ty : LocalTy) (i : Nat)
    (env2 : FunctionEnv) (h : allocateLocal env ty = some (i, env2)) :
    i = env.paramCount +
      (match ty with
       | .i32 => env.localInt32Count
       | .i64 => 0
       | .f32 => env.localFloat32Count
       | .f64 => env.localFloat64Count) ∧
    env2.paramCount = env.paramCount ∧
    env2.totalLocals = env.totalLocals + 1 ∧
    env2.localInt32Count =
      (if ty = .i32 then env.localInt32Count + 1 else env.localInt32Count) ∧
    env2.localFloat32Count =
      (if ty = .f32 then env.localFloat32Count + 1
       else env.localFloat32Count) ∧
    env2.localFloat64Count =
      (if ty = .f64 then env.localFloat64Count + 1
       else env.localFloat64Count) ∧
    env2.localInt64Count = env.localInt64Count ∧
    i < 256 := by
  cases ty <;> simp [allocateLocal] at h <;>
    obtain ⟨hlt, hi, henv⟩ := h <;> subst hi <;> subst henv <;> simp_all

/-- Witness for C3 amended: the second i32 local of an environment with
one parameter and one i32 local already allocated gets index 2 and the
i32 counter moves to 2. -/
theorem c3_amended_witness :
    allocateLocal ⟨1, 1, 0, 0, 0, 2⟩ .i32 = some (2, ⟨1, 2, 0, 0, 0, 3⟩) ∧
    (2 : Nat) < 256 :=
  ⟨by decide,
   (c3_amended ⟨1, 1, 0, 0, 0, 2⟩ .i32 2 ⟨1, 2, 0, 0, 0, 3⟩
      (by decide)).2.2.2.2.2.2.2⟩

theorem zeroCheck32_nofold (b : Builder) (R : TrapReason) (nd : Nat)
    (hnc : isInt32ConstNe (b.nodeAt nd).op 0 = false) :
    b.zeroCheck32 R nd =
      ((b.addTrapIfFalse R nd).control, b.addTrapIfFalse R nd) := by
  unfold Builder.zeroCheck32 Builder.trapIfEq32
  rw [if_neg (by simp [hnc]), if_pos rfl]

theorem trapIfEq32_nofold (b : Builder) (R : TrapReason) (nd : Nat) (val : Int)
    (hnc : isInt32ConstNe (b.nodeAt nd).op val = false) (hval : val ≠ 0) :
    b.trapIfEq32 R nd val =
      (let ns := (b.nodes.push ⟨.Int32Const (toInt32 val), []⟩).push
                   ⟨.Word32Equal, [nd, b.nodes.size]⟩
       let b3 := { b with nodes := ns }.addTrapIfTrue R (b.nodes.size + 1)
       (b3.control, b3)) := by
  unfold Builder.trapIfEq32
  rw [if_neg (by simp [hnc]), if_neg hval]
  simp only [Builder.int32ConstNode, Builder.newNode, Array.size_push]

theorem trapIfEq64_nofold (b : Builder) (R : TrapReason) (nd : Nat) (val : Int)
    (hnc : isInt64ConstNe (b.nodeAt nd).op val = false) :
    b.trapIfEq64 R nd val =
      (let ns := (b.nodes.push ⟨.Int64Const (toInt64 val), []⟩).push
                   ⟨.Word64Equal, [nd, b.nodes.size]⟩
       let b3 := { b with nodes := ns }.addTrapIfTrue R (b.nodes.size + 1)
       (b3.control, b3)) := by
  unfold Builder.trapIfEq64
  rw [if_neg (by simp [hnc])]
  simp only [Builder.int64ConstNode, Builder.newNode, Array.size_push]

theorem zeroCheck64_nofold (b : Builder) (R : TrapReason) (nd : Nat)
    (hnc : isInt64ConstNe (b.nodeAt nd).op 0 = false) :
    b.zeroCheck64 R nd =
      (let ns := (b.nodes.push ⟨.Int64Const (toInt64 0), []⟩).push
                   ⟨.Word64Equal, [nd, b.nodes.size]⟩
       let b3 := { b with nodes := ns }.addTrapIfTrue R (b.nodes.size + 1)
       (b3.control, b3)) := by
  unfold Builder.zeroCheck64
  exact trapIfEq64_nofold b R nd 0 hnc

theorem binopI32RemS_unfold (b : Builder) (left right : Nat)
    (hnc : isInt32ConstNe (b.nodeAt right).op 0 = false) :
    b.binopI32RemS left right =
      (let b1 := b.addTrapIfFalse .RemByZero right
       let t := b1.nodes.size
       let ns := ((((((((b1.nodes.push
             ⟨.Int32Const (toInt32 (-1)), []⟩).push
             ⟨.Word32Equal, [right, t]⟩).push
             ⟨.Branch .hNone, [t + 1, b1.startN]⟩).push
             ⟨.IfTrue, [t + 2]⟩).push
             ⟨.IfFalse, [t + 2]⟩).push
             ⟨.Merge 2, [t + 3, t + 4]⟩).push
             ⟨.Int32Mod, [left, right, t + 4]⟩).push
             ⟨.Int32Const (toInt32 0), []⟩).push
             ⟨.Phi .machInt32 2, [t + 7, t + 6, t + 5]⟩
       (t + 8, { b1 with nodes := ns })) := by
  have hz := zeroCheck32_nofold b .RemByZero right hnc
  unfold Builder.binopI32RemS
  rw [hz]
  simp only [Builder.int32ConstNode, Builder.newNode, Array.size_push]

theorem binopI32RemU_unfold (b : Builder) (left right : Nat)
    (hnc : isInt32ConstNe (b.nodeAt right).op 0 = false) :
    b.binopI32RemU left right =
      (let b1 := b.addTrapIfFalse .RemByZero right
       (b1.nodes.size,
        { b1 with nodes :=
            b1.nodes.push ⟨.Uint32Mod, [left, right, b1.control]⟩ })) := by
  have hz := zeroCheck32_nofold b .RemByZero right hnc
  unfold Builder.binopI32RemU
  rw [hz]
  simp only [Builder.newNode]

theorem binopI64RemS_unfold (b : Builder) (left right : Nat)
    (hnc : isInt64ConstNe (b.nodeAt right).op 0 = false) :
    b.binopI64RemS left right =
      (let ns0 := (b.nodes.push ⟨.Int64Const (toInt64 0), []⟩).push
                    ⟨.Word64Equal, [right, b.nodes.size]⟩
       let b1 := { b with nodes := ns0 }.addTrapIfTrue .RemByZero
                   (b.nodes.size + 1)
       let t := b1.nodes.size
       let ns := ((((((((b1.nodes.push
             ⟨.Int64Const (toInt64 (-1)), []⟩).push
             ⟨.Word64Equal, [right, t]⟩).push
             ⟨.Branch .hNone, [t + 1, b1.startN]⟩).push
             ⟨.IfTrue, [t + 2]⟩).push
             ⟨.IfFalse, [t + 2]⟩).push
             ⟨.Merge 2, [t + 3, t + 4]⟩).push
             ⟨.Int64Mod, [left, right, t + 4]⟩).push
             ⟨.Int64Const (toInt64 0), []⟩).push
             ⟨.Phi .machInt64 2, [t + 7, t + 6, t + 5]⟩
       (t + 8, { b1 with nodes := ns })) := by
  have hz := zeroCheck64_nofold b .RemByZero right hnc
  unfold Builder.binopI64RemS
  rw [hz]
  simp only [Builder.int64ConstNode, Builder.newNode, Array.size_push]

theorem binopI64RemU_unfold (b : Builder) (left right : Nat)
    (hnc : isInt64ConstNe (b.nodeAt right).op 0 = false) :
    b.binopI64RemU left right =
      (let ns0 := (b.nodes.push ⟨.Int64Const (toInt64 0), []⟩).push
                    ⟨.Word64Equal, [right, b.nodes.size]⟩
       let b1 := { b with nodes := ns0 }.addTrapIfTrue .RemByZero
                   (b.nodes.size + 1)
       (b1.nodes.size,
        { b1 with nodes :=
            b1.nodes.push ⟨.Uint64Mod, [left, right, b1.control]⟩ })) := by
  have hz := zeroCheck64_nofold b .RemByZero right hnc
  unfold Builder.binopI64RemU
  rw [hz]
  simp only [Builder.newNode]

theorem aget_spine9 (a : Array Node) (n0 n1 n2 n3 n4 n5 n6 n7 n8 : Node) :
    let ns := ((((((((a.push n0).push n1).push n2).push n3).push n4).push
      n5).push n6).push n7).push n8
    (∀ i, i < a.size → aget ns i = aget a i) ∧
    aget ns a.size = n0 ∧ aget ns (a.size + 1) = n1 ∧
    aget ns (a.size + 2) = n2 ∧ aget ns (a.size + 3) = n3 ∧
    aget ns (a.size + 4) = n4 ∧ aget ns (a.size + 5) = n5 ∧
    aget ns (a.size + 6) = n6 ∧ aget ns (a.size + 7) = n7 ∧
    aget ns (a.size + 8) = n8 := by
  intro ns
  constructor
  · intro i hi
    simp only [ns, aget_push, Array.size_push]
    split_ifs <;> first | omega | rfl
  · refine ⟨?_, ?_, ?_, ?_, ?_, ?_, ?_, ?_, ?_⟩ <;>
      (simp only [ns, aget_push, Array.size_push]
       split_ifs <;> first | rfl | omega)

theorem remS32_shape (b : Builder) (left right rid : Nat) (r2 : Builder)
    (s t : Nat) (b1 : Builder) (hwf : wfB b = true)
    (hnc : isInt32ConstNe (b.nodeAt right).op 0 = false)
    (heq : b.binopI32RemS left right = (rid, r2))
    (hb1 : b1 = b.addTrapIfFalse .RemByZero right)
    (hs : s = b.nodes.size) (ht : t = b1.nodes.size) :
    rid = t + 8 ∧
    r2.nodeAt s = ⟨.Branch .hTrue, [right, b.control]⟩ ∧
    r2.nodeAt (s + 1) = ⟨.IfTrue, [s]⟩ ∧
    r2.nodeAt (s + 2) = ⟨.IfFalse, [s]⟩ ∧
    r2.nodeAt t = ⟨.Int32Const (toInt32 (-1)), []⟩ ∧
    r2.nodeAt (t + 1) = ⟨.Word32Equal, [right, t]⟩ ∧
    r2.nodeAt (t + 2) = ⟨.Branch .hNone, [t + 1, b.startN]⟩ ∧
    r2.nodeAt (t + 3) = ⟨.IfTrue, [t + 2]⟩ ∧
    r2.nodeAt (t + 4) = ⟨.IfFalse, [t + 2]⟩ ∧
    r2.nodeAt (t + 5) = ⟨.Merge 2, [t + 3, t + 4]⟩ ∧
    r2.nodeAt (t + 6) = ⟨.Int32Mod, [left, right, t + 4]⟩ ∧
    r2.nodeAt (t + 7) = ⟨.Int32Const (toInt32 0), []⟩ ∧
    r2.nodeAt (t + 8) = ⟨.Phi .machInt32 2, [t + 7, t + 6, t + 5]⟩ ∧
    (∃ m p, r2.traps .RemByZero = some m ∧
      r2.trapEffects .RemByZero = some p ∧
      (s + 2) ∈ (r2.nodeAt m).inputs) ∧
    (∀ R2, R2 ≠ .RemByZero → r2.traps R2 = b.traps R2) := by
  subst hb1 ht hs
  rw [binopI32RemS_unfold b left right hnc] at heq
  simp only [Builder.addTrapIfFalse] at heq ⊢
  obtain ⟨hrid, hr2⟩ := Prod.mk.injEq .. ▸ heq
  subst hr2
  obtain ⟨g1, g2, g3, g4, g5, g6, g7, g8, g9, g10, g11, g12, g13, g14, g15,
    g16⟩ := addTrapIf_spec b .RemByZero right false hwf
  obtain ⟨hlt9, h0, h1, h2, h3, h4, h5, h6, h7, h8⟩ :=
    aget_spine9 (b.addTrapIf .RemByZero right false).nodes
      ⟨.Int32Const (toInt32 (-1)), []⟩
      ⟨.Word32Equal, [right, (b.addTrapIf .RemByZero right false).nodes.size]⟩
      ⟨.Branch .hNone, [(b.addTrapIf .RemByZero right false).nodes.size + 1,
        (b.addTrapIf .RemByZero right false).startN]⟩
      ⟨.IfTrue, [(b.addTrapIf .RemByZero right false).nodes.size + 2]⟩
      ⟨.IfFalse, [(b.addTrapIf .RemByZero right false).nodes.size + 2]⟩
      ⟨.Merge 2, [(b.addTrapIf .RemByZero right false).nodes.size + 3,
        (b.addTrapIf .RemByZero right false).nodes.size + 4]⟩
      ⟨.Int32Mod, [left, right,
        (b.addTrapIf .RemByZero right false).nodes.size + 4]⟩
      ⟨.Int32Const (toInt32 0), []⟩
      ⟨.Phi .machInt32 2, [(b.addTrapIf .RemByZero right false).nodes.size + 7,
        (b.addTrapIf .RemByZero right false).nodes.size + 6,
        (b.addTrapIf .RemByZero right false).nodes.size + 5]⟩
  have hsle : b.nodes.size + 3 ≤ (b.addTrapIf .RemByZero right false).nodes.size := g8
  refine ⟨hrid.symm ▸ rfl, ?_, ?_, ?_, ?_, ?_, ?_, ?_, ?_, ?_, ?_, ?_, ?_,
    ?_, ?_⟩
  · show aget _ b.nodes.size = _
    rw [hlt9 b.nodes.size (by omega)]
    exact g9
  · show aget _ (b.nodes.size + 1) = _
    rw [hlt9 (b.nodes.size + 1) (by omega)]
    exact g10
  · show aget _ (b.nodes.size + 2) = _
    rw [hlt9 (b.nodes.size + 2) (by omega)]
    exact g11
  · exact h0
  · exact h1
  · show aget _ _ = _
    rw [h2, g3]
  · exact h3
  · exact h4
  · exact h5
  · exact h6
  · exact h7
  · exact h8
  · obtain ⟨m, p, d1, d2, d3, d4, d5, d6⟩ := g14
    have hmlt : m < (b.addTrapIf .RemByZero right false).nodes.size :=
      (mergeConsistent_elim _ m d4).1
    refine ⟨m, p, d1, d2, ?_⟩
    show (b.nodes.size + 2) ∈ (aget _ m).inputs
    rw [hlt9 m hmlt]
    exact d3
  · intro R2 hne
    exact (g15 R2 hne).1

theorem wfB_push2 (b : Builder) (n0 n1 : Node) (hwf : wfB b = true) :
    wfB { b with nodes := (b.nodes.push n0).push n1 } = true := by
  obtain ⟨hc, he, _, _, _⟩ := wfB_elim b hwf
  refine wfB_step b _ hwf ?_ ?_ rfl rfl rfl ?_ ?_ rfl
  · simp [Array.size_push]
    omega
  · intro i hi
    show aget _ i = aget _ i
    rw [aget_push_lt _ _ _ (by simp [Array.size_push] ; omega),
      aget_push_lt _ _ _ hi]
  · show b.control < _
    simp [Array.size_push]
    omega
  · show b.effect < _
    simp [Array.size_push]
    omega

theorem remU32_shape (b : Builder) (left right rid : Nat) (r2 : Builder)
    (s t : Nat) (b1 : Builder) (hwf : wfB b = true)
    (hnc : isInt32ConstNe (b.nodeAt right).op 0 = false)
    (heq : b.binopI32RemU left right = (rid, r2))
    (hb1 : b1 = b.addTrapIfFalse .RemByZero right)
    (hs : s = b.nodes.size) (ht : t = b1.nodes.size) :
    rid = t ∧
    r2.nodeAt s = ⟨.Branch .hTrue, [right, b.control]⟩ ∧
    r2.nodeAt (s + 1) = ⟨.IfTrue, [s]⟩ ∧
    r2.nodeAt (s + 2) = ⟨.IfFalse, [s]⟩ ∧
    b1.control = s + 1 ∧
    r2.nodeAt t = ⟨.Uint32Mod, [left, right, s + 1]⟩ ∧
    (∃ m p, r2.traps .RemByZero = some m ∧
      r2.trapEffects .RemByZero = some p ∧
      (s + 2) ∈ (r2.nodeAt m).inputs) ∧
    (∀ R2, R2 ≠ .RemByZero → r2.traps R2 = b.traps R2) := by
  subst hb1 ht hs
  rw [binopI32RemU_unfold b left right hnc] at heq
  simp only [Builder.addTrapIfFalse] at heq ⊢
  obtain ⟨hrid, hr2⟩ := Prod.mk.injEq .. ▸ heq
  subst hr2
  obtain ⟨g1, g2, g3, g4, g5, g6, g7, g8, g9, g10, g11, g12, g13, g14, g15,
    g16⟩ := addTrapIf_spec b .RemByZero right false hwf
  refine ⟨hrid.symm ▸ rfl, ?_, ?_, ?_, g2, ?_, ?_, ?_⟩
  · show aget _ b.nodes.size = _
    rw [aget_push_lt _ _ _ (by omega)]
    exact g9
  · show aget _ (b.nodes.size + 1) = _
    rw [aget_push_lt _ _ _ (by omega)]
    exact g10
  · show aget _ (b.nodes.size + 2) = _
    rw [aget_push_lt _ _ _ (by omega)]
    exact g11
  · show aget _ _ = _
    rw [aget_push_self, g2]
    rfl
  · obtain ⟨m, p, d1, d2, d3, d4, d5, d6⟩ := g14
    have hmlt : m < (b.addTrapIf .RemByZero right false).nodes.size :=
      (mergeConsistent_elim _ m d4).1
    refine ⟨m, p, d1, d2, ?_⟩
    show (b.nodes.size + 2) ∈ (aget _ m).inputs
    rw [aget_push_lt _ _ _ hmlt]
    exact d3
  · intro R2 hne
    exact (g15 R2 hne).1

theorem remS64_shape (b : Builder) (left right rid : Nat) (r2 : Builder)
    (s t : Nat) (ns0 : Array Node) (b0 b1 : Builder) (hwf : wfB b = true)
    (hnc : isInt64ConstNe (b.nodeAt right).op 0 = false)
    (heq : b.binopI64RemS left right = (rid, r2))
    (hns0 : ns0 = (b.nodes.push ⟨.Int64Const (toInt64 0), []⟩).push ⟨.Word64Equal, [right, b.nodes.size]⟩)
    (hb0 : b0 = { b with nodes := ns0 })
    (hb1 : b1 = b0.addTrapIfTrue .RemByZero (b.nodes.size + 1))
    (hs : s = b.nodes.size) (ht : t = b1.nodes.size) :
    rid = t + 8 ∧
    r2.nodeAt s = ⟨.Int64Const (toInt64 0), []⟩ ∧
    r2.nodeAt (s + 1) = ⟨.Word64Equal, [right, s]⟩ ∧
    r2.nodeAt (s + 2) = ⟨.Branch .hFalse, [s + 1, b.control]⟩ ∧
    r2.nodeAt (s + 3) = ⟨.IfTrue, [s + 2]⟩ ∧
    r2.nodeAt (s + 4) = ⟨.IfFalse, [s + 2]⟩ ∧
    r2.nodeAt t = ⟨.Int64Const (toInt64 (-1)), []⟩ ∧
    r2.nodeAt (t + 1) = ⟨.Word64Equal, [right, t]⟩ ∧
    r2.nodeAt (t + 2) = ⟨.Branch .hNone, [t + 1, b.startN]⟩ ∧
    r2.nodeAt (t + 3) = ⟨.IfTrue, [t + 2]⟩ ∧
    r2.nodeAt (t + 4) = ⟨.IfFalse, [t + 2]⟩ ∧
    r2.nodeAt (t + 5) = ⟨.Merge 2, [t + 3, t + 4]⟩ ∧
    r2.nodeAt (t + 6) = ⟨.Int64Mod, [left, right, t + 4]⟩ ∧
    r2.nodeAt (t + 7) = ⟨.Int64Const (toInt64 0), []⟩ ∧
    r2.nodeAt (t + 8) = ⟨.Phi .machInt64 2, [t + 7, t + 6, t + 5]⟩ ∧
    (∃ m p, r2.traps .RemByZero = some m ∧
      r2.trapEffects .RemByZero = some p ∧
      (s + 3) ∈ (r2.nodeAt m).inputs) ∧
    (∀ R2, R2 ≠ .RemByZero → r2.traps R2 = b.traps R2) := by
  subst hs ht
  have hb1a : b1 = b0.addTrapIf .RemByZero (b.nodes.size + 1) true := hb1
  have hsz0 : b0.nodes.size = b.nodes.size + 2 := by
    rw [hb0, hns0]
    simp [Array.size_push]
  have hctl0 : b0.control = b.control := by rw [hb0]
  have hst0 : b0.startN = b.startN := by rw [hb0]
  have htr0 : b0.traps = b.traps := by rw [hb0]
  have hwf0 : wfB b0 = true := by
    rw [hb0, hns0]
    exact wfB_push2 b _ _ hwf
  have hb0s : b0.nodeAt b.nodes.size = ⟨.Int64Const (toInt64 0), []⟩ := by
    rw [hb0, hns0]
    show aget _ _ = _
    rw [aget_push_lt _ _ _ (by simp [Array.size_push])]
    exact aget_push_self _ _
  have hb0s1 : b0.nodeAt (b.nodes.size + 1) = ⟨.Word64Equal, [right, b.nodes.size]⟩ := by
    rw [hb0, hns0]
    show aget _ _ = _
    rw [show b.nodes.size + 1 = (b.nodes.push ⟨.Int64Const (toInt64 0), []⟩).size from by simp [Array.size_push]]
    exact aget_push_self _ _
  have heq2 : b.binopI64RemS left right = (b1.nodes.size + 8,
      { b1 with nodes := ((((((((b1.nodes.push ⟨.Int64Const (toInt64 (-1)), []⟩).push ⟨.Word64Equal, [right, b1.nodes.size]⟩).push ⟨.Branch .hNone, [b1.nodes.size + 1, b1.startN]⟩).push ⟨.IfTrue, [b1.nodes.size + 2]⟩).push ⟨.IfFalse, [b1.nodes.size + 2]⟩).push ⟨.Merge 2, [b1.nodes.size + 3, b1.nodes.size + 4]⟩).push ⟨.Int64Mod, [left, right, b1.nodes.size + 4]⟩).push ⟨.Int64Const (toInt64 0), []⟩).push ⟨.Phi .machInt64 2, [b1.nodes.size + 7, b1.nodes.size + 6, b1.nodes.size + 5]⟩ }) := by
    rw [hb1, hb0, hns0]
    exact binopI64RemS_unfold b left right hnc
  obtain ⟨hrid, hr2⟩ := Prod.mk.injEq .. ▸ (heq2.symm.trans heq)
  subst hr2
  obtain ⟨g1, g2, g3, g4, g5, g6, g7, g8, g9, g10, g11, g12, g13, g14, g15,
    g16⟩ := addTrapIf_spec b0 .RemByZero (b.nodes.size + 1) true hwf0
  rw [← hb1a] at g3 g8 g9 g10 g11 g12 g14 g15
  rw [hsz0] at g8 g9 g10 g11 g12
  rw [hctl0] at g9
  obtain ⟨hlt9, h0, h1, h2, h3, h4, h5, h6, h7, h8⟩ :=
    aget_spine9 b1.nodes
      ⟨.Int64Const (toInt64 (-1)), []⟩
      ⟨.Word64Equal, [right, b1.nodes.size]⟩
      ⟨.Branch .hNone, [b1.nodes.size + 1, b1.startN]⟩
      ⟨.IfTrue, [b1.nodes.size + 2]⟩
      ⟨.IfFalse, [b1.nodes.size + 2]⟩
      ⟨.Merge 2, [b1.nodes.size + 3, b1.nodes.size + 4]⟩
      ⟨.Int64Mod, [left, right, b1.nodes.size + 4]⟩
      ⟨.Int64Const (toInt64 0), []⟩
      ⟨.Phi .machInt64 2, [b1.nodes.size + 7, b1.nodes.size + 6, b1.nodes.size + 5]⟩
  refine ⟨hrid.symm ▸ rfl, ?_, ?_, ?_, ?_, ?_, ?_, ?_, ?_, ?_, ?_, ?_, ?_,
    ?_, ?_, ?_, ?_⟩
  · show aget _ b.nodes.size = _
    rw [hlt9 b.nodes.size (by omega)]
    show b1.nodeAt b.nodes.size = _
    rw [g12 b.nodes.size (by omega) (by rw [hb0s] ; rfl)]
    exact hb0s
  · show aget _ (b.nodes.size + 1) = _
    rw [hlt9 (b.nodes.size + 1) (by omega)]
    show b1.nodeAt (b.nodes.size + 1) = _
    rw [g12 (b.nodes.size + 1) (by omega) (by rw [hb0s1] ; rfl)]
    exact hb0s1
  · show aget _ (b.nodes.size + 2) = _
    rw [hlt9 (b.nodes.size + 2) (by omega)]
    exact g9
  · show aget _ (b.nodes.size + 3) = _
    rw [hlt9 (b.nodes.size + 3) (by omega)]
    exact g10
  · show aget _ (b.nodes.size + 4) = _
    rw [hlt9 (b.nodes.size + 4) (by omega)]
    exact g11
  · exact h0
  · exact h1
  · show aget _ _ = _
    rw [h2, g3, hst0]
  · exact h3
  · exact h4
  · exact h5
  · exact h6
  · exact h7
  · exact h8
  · obtain ⟨m, p, d1, d2, d3, d4, d5, d6⟩ := g14
    have hmlt := (mergeConsistent_elim _ m d4).1
    rw [hsz0] at d3
    have d3a : (b.nodes.size + 3) ∈ (b1.nodeAt m).inputs := by
      simpa using d3
    refine ⟨m, p, d1, d2, ?_⟩
    show (b.nodes.size + 3) ∈ (aget _ m).inputs
    rw [hlt9 m hmlt]
    exact d3a
  · intro R2 hne
    show b1.traps R2 = b.traps R2
    rw [(g15 R2 hne).1, htr0]

theorem remU64_shape (b : Builder) (left right rid : Nat) (r2 : Builder)
    (s t : Nat) (ns0 : Array Node) (b0 b1 : Builder) (hwf : wfB b = true)
    (hnc : isInt64ConstNe (b.nodeAt right).op 0 = false)
    (heq : b.binopI64RemU left right = (rid, r2))
    (hns0 : ns0 = (b.nodes.push ⟨.Int64Const (toInt64 0), []⟩).push ⟨.Word64Equal, [right, b.nodes.size]⟩)
    (hb0 : b0 = { b with nodes := ns0 })
    (hb1 : b1 = b0.addTrapIfTrue .RemByZero (b.nodes.size + 1))
    (hs : s = b.nodes.size) (ht : t = b1.nodes.size) :
    rid = t ∧
    r2.nodeAt s = ⟨.Int64Const (toInt64 0), []⟩ ∧
    r2.nodeAt (s + 1) = ⟨.Word64Equal, [right, s]⟩ ∧
    r2.nodeAt (s + 2) = ⟨.Branch .hFalse, [s + 1, b.control]⟩ ∧
    r2.nodeAt (s + 3) = ⟨.IfTrue, [s + 2]⟩ ∧
    r2.nodeAt (s + 4) = ⟨.IfFalse, [s + 2]⟩ ∧
    b1.control = s + 4 ∧
    r2.nodeAt t = ⟨.Uint64Mod, [left, right, s + 4]⟩ ∧
    (∃ m p, r2.traps .RemByZero = some m ∧
      r2.trapEffects .RemByZero = some p ∧
      (s + 3) ∈ (r2.nodeAt m).inputs) ∧
    (∀ R2, R2 ≠ .RemByZero → r2.traps R2 = b.traps R2) := by
  subst hs ht
  have hb1a : b1 = b0.addTrapIf .RemByZero (b.nodes.size + 1) true := hb1
  have hsz0 : b0.nodes.size = b.nodes.size + 2 := by
    rw [hb0, hns0]
    simp [Array.size_push]
  have hctl0 : b0.control = b.control := by rw [hb0]
  have htr0 : b0.traps = b.traps := by rw [hb0]
  have hwf0 : wfB b0 = true := by
    rw [hb0, hns0]
    exact wfB_push2 b _ _ hwf
  have hb0s : b0.nodeAt b.nodes.size = ⟨.Int64Const (toInt64 0), []⟩ := by
    rw [hb0, hns0]
    show aget _ _ = _
    rw [aget_push_lt _ _ _ (by simp [Array.size_push])]
    exact aget_push_self _ _
  have hb0s1 : b0.nodeAt (b.nodes.size + 1) = ⟨.Word64Equal, [right, b.nodes.size]⟩ := by
    rw [hb0, hns0]
    show aget _ _ = _
    rw [show b.nodes.size + 1 = (b.nodes.push ⟨.Int64Const (toInt64 0), []⟩).size from by simp [Array.size_push]]
    exact aget_push_self _ _
  have heq2 : b.binopI64RemU left right = (b1.nodes.size,
      { b1 with nodes := b1.nodes.push ⟨.Uint64Mod, [left, right, b1.control]⟩ }) := by
    rw [hb1, hb0, hns0]
    exact binopI64RemU_unfold b left right hnc
  obtain ⟨hrid, hr2⟩ := Prod.mk.injEq .. ▸ (heq2.symm.trans heq)
  subst hr2
  obtain ⟨g1, g2, g3, g4, g5, g6, g7, g8, g9, g10, g11, g12, g13, g14, g15,
    g16⟩ := addTrapIf_spec b0 .RemByZero (b.nodes.size + 1) true hwf0
  rw [← hb1a] at g2 g8 g9 g10 g11 g12 g14 g15
  rw [hsz0] at g2 g8 g9 g10 g11 g12
  rw [hctl0] at g9
  have hctl1 : b1.control = b.nodes.size + 4 := by
    rw [g2]
    simp
  refine ⟨hrid.symm ▸ rfl, ?_, ?_, ?_, ?_, ?_, hctl1, ?_, ?_, ?_⟩
  · show aget _ b.nodes.size = _
    rw [aget_push_lt _ _ _ (by omega)]
    show b1.nodeAt b.nodes.size = _
    rw [g12 b.nodes.size (by omega) (by rw [hb0s] ; rfl)]
    exact hb0s
  · show aget _ (b.nodes.size + 1) = _
    rw [aget_push_lt _ _ _ (by omega)]
    show b1.nodeAt (b.nodes.size + 1) = _
    rw [g12 (b.nodes.size + 1) (by omega) (by rw [hb0s1] ; rfl)]
    exact hb0s1
  · show aget _ (b.nodes.size + 2) = _
    rw [aget_push_lt _ _ _ (by omega)]
    exact g9
  · show aget _ (b.nodes.size + 3) = _
    rw [aget_push_lt _ _ _ (by omega)]
    exact g10
  · show aget _ (b.nodes.size + 4) = _
    rw [aget_push_lt _ _ _ (by omega)]
    exact g11
  · show aget _ _ = _
    rw [aget_push_self, hctl1]
  · obtain ⟨m, p, d1, d2, d3, d4, d5, d6⟩ := g14
    have hmlt := (mergeConsistent_elim _ m d4).1
    rw [hsz0] at d3
    have d3a : (b.nodes.size + 3) ∈ (b1.nodeAt m).inputs := by
      simpa using d3
    refine ⟨m, p, d1, d2, ?_⟩
    show (b.nodes.size + 3) ∈ (aget _ m).inputs
    rw [aget_push_lt _ _ _ hmlt]
    exact d3a
  · intro R2 hne
    show b1.traps R2 = b.traps R2
    rw [(g15 R2 hne).1, htr0]

theorem aget_spine2 (a : Array Node) (n0 n1 : Node) :
    let ns := (a.push n0).push n1
    (∀ i, i < a.size → aget ns i = aget a i) ∧
    aget ns a.size = n0 ∧ aget ns (a.size + 1) = n1 := by
  intro ns
  refine ⟨?_, ?_, ?_⟩
  · intro i hi
    simp only [ns, aget_push, Array.size_push]
    split_ifs <;> first | omega | rfl
  · simp only [ns, aget_push, Array.size_push]
    split_ifs <;> first | rfl | omega
  · simp only [ns, aget_push, Array.size_push]
    split_ifs <;> first | rfl | omega

theorem aget_spine5 (a : Array Node) (n0 n1 n2 n3 n4 : Node) :
    let ns := ((((a.push n0).push n1).push n2).push n3).push n4
    (∀ i, i < a.size → aget ns i = aget a i) ∧
    aget ns a.size = n0 ∧ aget ns (a.size + 1) = n1 ∧
    aget ns (a.size + 2) = n2 ∧ aget ns (a.size + 3) = n3 ∧
    aget ns (a.size + 4) = n4 := by
  intro ns
  constructor
  · intro i hi
    simp only [ns, aget_push, Array.size_push]
    split_ifs <;> first | omega | rfl
  · refine ⟨?_, ?_, ?_, ?_, ?_⟩ <;>
      (simp only [ns, aget_push, Array.size_push]
       split_ifs <;> first | rfl | omega)

theorem cpath_head_mem (b : Builder) (tgt i : Nat) (l : List Nat)
    (hne : i ≠ tgt) (hp : CPathTo b tgt i l) : i ∈ l := by
  cases hp with
  | base => exact absurd rfl hne
  | step hmem hp2 => exact List.mem_cons_self i _

theorem cpath_cons_sing (b : Builder) (tgt i j : Nat) (l : List Nat)
    (hne : i ≠ tgt) (hci : ctrlInputs b i = [j]) (hp : CPathTo b tgt i l) :
    ∃ l2, l = i :: l2 ∧ CPathTo b tgt j l2 := by
  cases hp with
  | base => exact absurd rfl hne
  | step hmem hp2 =>
    rw [hci] at hmem
    rw [List.mem_singleton] at hmem
    subst hmem
    exact ⟨_, rfl, hp2⟩

theorem cpath_cons_pair (b : Builder) (tgt i j1 j2 : Nat) (l : List Nat)
    (hne : i ≠ tgt) (hci : ctrlInputs b i = [j1, j2])
    (hp : CPathTo b tgt i l) :
    ∃ l2, l = i :: l2 ∧ (CPathTo b tgt j1 l2 ∨ CPathTo b tgt j2 l2) := by
  cases hp with
  | base => exact absurd rfl hne
  | step hmem hp2 =>
    rw [hci] at hmem
    rw [List.mem_cons, List.mem_singleton] at hmem
    rcases hmem with rfl | rfl
    · exact ⟨_, rfl, Or.inl hp2⟩
    · exact ⟨_, rfl, Or.inr hp2⟩

theorem binopI32DivS_unfold (b : Builder) (left right : Nat)
    (b1 b4 b5 : Builder) (ns5 ns7 : Array Node)
    (hnc0 : isInt32ConstNe (b.nodeAt right).op 0 = false)
    (hncm : isInt32ConstNe (b4.nodeAt left).op kMinInt32 = false)
    (hb1 : b1 = b.addTrapIfFalse .DivByZero right)
    (hns5 : ns5 = ((((b1.nodes.push ⟨.Int32Const (toInt32 (-1)), []⟩).push ⟨.Word32Equal, [right, b1.nodes.size]⟩).push ⟨.Branch .hNone, [b1.nodes.size + 1, b1.control]⟩).push ⟨.IfTrue, [b1.nodes.size + 2]⟩).push ⟨.IfFalse, [b1.nodes.size + 2]⟩)
    (hb4 : b4 = { b1 with nodes := ns5, control := b1.nodes.size + 3 })
    (hns7 : ns7 = (b4.nodes.push ⟨.Int32Const (toInt32 kMinInt32), []⟩).push ⟨.Word32Equal, [left, b4.nodes.size]⟩)
    (hb5 : b5 = { b4 with nodes := ns7 }.addTrapIfTrue .DivUnrepresentable (b4.nodes.size + 1))
    (hcc : ¬ b5.control = b1.nodes.size + 3) :
    b.binopI32DivS left right =
      (b5.nodes.size + 1,
       { b5 with
         nodes := (b5.nodes.push ⟨.Merge 2, [b1.nodes.size + 4, b5.control]⟩).push ⟨.Int32Div, [left, right, b5.nodes.size]⟩,
         control := b5.nodes.size }) := by
  subst hb1 hns5 hb4 hns7 hb5
  unfold Builder.binopI32DivS
  rw [zeroCheck32_nofold b .DivByZero right hnc0]
  simp only [Builder.int32ConstNode, Builder.newNode, Builder.branch3,
    Array.size_push]
  rw [trapIfEq32_nofold _ .DivUnrepresentable left kMinInt32 hncm
    (by decide)]
  simp only [Builder.int32ConstNode, Builder.newNode, Builder.addTrapIfTrue,
    Array.size_push] at hcc ⊢
  split
  · simp only [Array.size_push]
  · next h => exact absurd (not_not.mp h) hcc

theorem divS32_shape (b : Builder) (left right rid : Nat) (r2 : Builder)
    (s t u : Nat) (ns5 ns7 : Array Node) (b1 b4 b5 : Builder)
    (hwf : wfB b = true)
    (hnc0 : isInt32ConstNe (b.nodeAt right).op 0 = false)
    (hncm : isInt32ConstNe (b.nodeAt left).op kMinInt32 = false)
    (hleft : left < b.nodes.size)
    (hjoin : isJoinOp (b.nodeAt left).op = false)
    (heq : b.binopI32DivS left right = (rid, r2))
    (hb1 : b1 = b.addTrapIfFalse .DivByZero right)
    (hns5 : ns5 = ((((b1.nodes.push ⟨.Int32Const (toInt32 (-1)), []⟩).push ⟨.Word32Equal, [right, b1.nodes.size]⟩).push ⟨.Branch .hNone, [b1.nodes.size + 1, b1.control]⟩).push ⟨.IfTrue, [b1.nodes.size + 2]⟩).push ⟨.IfFalse, [b1.nodes.size + 2]⟩)
    (hb4 : b4 = { b1 with nodes := ns5, control := b1.nodes.size + 3 })
    (hns7 : ns7 = (b4.nodes.push ⟨.Int32Const (toInt32 kMinInt32), []⟩).push ⟨.Word32Equal, [left, b4.nodes.size]⟩)
    (hb5 : b5 = { b4 with nodes := ns7 }.addTrapIfTrue .DivUnrepresentable (b4.nodes.size + 1))
    (hs : s = b.nodes.size) (ht : t = b1.nodes.size)
    (hu : u = b5.nodes.size) :
    rid = u + 1 ∧
    r2.nodeAt s = ⟨.Branch .hTrue, [right, b.control]⟩ ∧
    r2.nodeAt (s + 1) = ⟨.IfTrue, [s]⟩ ∧
    r2.nodeAt (s + 2) = ⟨.IfFalse, [s]⟩ ∧
    r2.nodeAt t = ⟨.Int32Const (toInt32 (-1)), []⟩ ∧
    r2.nodeAt (t + 1) = ⟨.Word32Equal, [right, t]⟩ ∧
    r2.nodeAt (t + 2) = ⟨.Branch .hNone, [t + 1, s + 1]⟩ ∧
    r2.nodeAt (t + 3) = ⟨.IfTrue, [t + 2]⟩ ∧
    r2.nodeAt (t + 4) = ⟨.IfFalse, [t + 2]⟩ ∧
    r2.nodeAt (t + 5) = ⟨.Int32Const (toInt32 kMinInt32), []⟩ ∧
    r2.nodeAt (t + 6) = ⟨.Word32Equal, [left, t + 5]⟩ ∧
    r2.nodeAt (t + 7) = ⟨.Branch .hFalse, [t + 6, t + 3]⟩ ∧
    r2.nodeAt (t + 8) = ⟨.IfTrue, [t + 7]⟩ ∧
    r2.nodeAt (t + 9) = ⟨.IfFalse, [t + 7]⟩ ∧
    r2.nodeAt u = ⟨.Merge 2, [t + 4, t + 9]⟩ ∧
    r2.nodeAt (u + 1) = ⟨.Int32Div, [left, right, u]⟩ ∧
    (∃ m p, r2.traps .DivByZero = some m ∧
      r2.trapEffects .DivByZero = some p ∧
      (s + 2) ∈ (r2.nodeAt m).inputs) ∧
    (∃ m p, r2.traps .DivUnrepresentable = some m ∧
      r2.trapEffects .DivUnrepresentable = some p ∧
      (t + 8) ∈ (r2.nodeAt m).inputs) ∧
    (∀ tr, CPathTo r2 b.control u tr →
      s ∈ tr ∧ (t + 7 ∈ tr ∨ t + 4 ∈ tr)) := by
  subst hs ht hu
  have hb1a : b1 = b.addTrapIf .DivByZero right false := hb1
  obtain ⟨z1, z2, z3, z4, z5, z6, z7, z8, z9, z10, z11, z12, z13, z14, z15,
    z16⟩ := addTrapIf_spec b .DivByZero right false hwf
  rw [← hb1a] at z1 z2 z3 z8 z9 z10 z11 z12 z13 z14 z15 z16
  have hwf1 : wfB b1 = true := z16
  have hc1 : b1.control = b.nodes.size + 1 := by
    rw [z2]
    rfl
  have hbc : b.control < b.nodes.size := (wfB_elim b hwf).1
  have hsz4 : b4.nodes.size = b1.nodes.size + 5 := by
    rw [hb4, hns5]
    simp [Array.size_push]
  have hc4 : b4.control = b1.nodes.size + 3 := by rw [hb4]
  have hb4n : ∀ i, b4.nodeAt i = aget ns5 i := by
    intro i
    rw [hb4]
    rfl
  obtain ⟨s5lt, s5a, s5b, s5c, s5d, s5e⟩ :=
    aget_spine5 b1.nodes ⟨.Int32Const (toInt32 (-1)), []⟩
      ⟨.Word32Equal, [right, b1.nodes.size]⟩
      ⟨.Branch .hNone, [b1.nodes.size + 1, b1.control]⟩
      ⟨.IfTrue, [b1.nodes.size + 2]⟩ ⟨.IfFalse, [b1.nodes.size + 2]⟩
  rw [← hns5] at s5lt s5a s5b s5c s5d s5e
  rw [hc1] at s5c
  have h4lt : ∀ i, i < b1.nodes.size → b4.nodeAt i = b1.nodeAt i := by
    intro i hi
    rw [hb4n]
    exact s5lt i hi
  have hwf4 : wfB b4 = true := by
    rw [hb4, hns5]
    refine wfB_step b1 _ hwf1 ?_ ?_ rfl rfl rfl ?_ ?_ rfl
    · simp [Array.size_push]
      omega
    · intro i hi
      show aget _ i = aget _ i
      rw [aget_push_lt _ _ _ (by simp [Array.size_push] ; omega),
        aget_push_lt _ _ _ (by simp [Array.size_push] ; omega),
        aget_push_lt _ _ _ (by simp [Array.size_push] ; omega),
        aget_push_lt _ _ _ (by simp [Array.size_push] ; omega),
        aget_push_lt _ _ _ hi]
    · show b1.nodes.size + 3 < _
      simp [Array.size_push]
    · show b1.effect < _
      have := (wfB_elim b1 hwf1).2.1
      simp [Array.size_push]
      omega
  have hncm4 : isInt32ConstNe (b4.nodeAt left).op kMinInt32 = false := by
    have h1 : b4.nodeAt left = b.nodeAt left := by
      rw [h4lt left (by omega)]
      exact z12 left hleft hjoin
    rw [h1]
    exact hncm
  have hwf47 : wfB ({ b4 with nodes := ns7 } : Builder) = true := by
    rw [hns7]
    exact wfB_push2 b4 _ _ hwf4
  have hsz47 : ({ b4 with nodes := ns7 } : Builder).nodes.size =
      b1.nodes.size + 7 := by
    show ns7.size = _
    rw [hns7]
    simp [Array.size_push, hsz4]
  obtain ⟨s7lt, s7a, s7b⟩ :=
    aget_spine2 b4.nodes ⟨.Int32Const (toInt32 kMinInt32), []⟩
      ⟨.Word32Equal, [left, b4.nodes.size]⟩
  rw [← hns7] at s7lt s7a s7b
  rw [hsz4] at s7lt s7a s7b
  have hb5a : b5 = ({ b4 with nodes := ns7 } : Builder).addTrapIf
      .DivUnrepresentable (b4.nodes.size + 1) true := hb5
  obtain ⟨w1, w2, w3, w4, w5, w6, w7, w8, w9, w10, w11, w12, w13, w14, w15,
    w16⟩ := addTrapIf_spec ({ b4 with nodes := ns7 } : Builder)
      .DivUnrepresentable (b4.nodes.size + 1) true hwf47
  rw [← hb5a] at w1 w2 w3 w8 w9 w10 w11 w12 w13 w14 w15
  rw [hsz47] at w2 w8 w9 w10 w11 w12 w13 w14
  rw [hsz4] at w9
  rw [show ({ b4 with nodes := ns7 } : Builder).control = b4.control from rfl,
    hc4] at w9
  have hc5 : b5.control = b1.nodes.size + 9 := by
    rw [w2]
    rfl
  have hu8 : b1.nodes.size + 10 ≤ b5.nodes.size := by omega
  have hcc : ¬ b5.control = b1.nodes.size + 3 := by
    rw [hc5]
    omega
  have hunf := binopI32DivS_unfold b left right b1 b4 b5 ns5 ns7 hnc0 hncm4
    hb1 hns5 hb4 hns7 hb5 hcc
  obtain ⟨hrid, hr2⟩ := Prod.mk.injEq .. ▸ (hunf.symm.trans heq)
  have hr2n : ∀ i, r2.nodeAt i =
      aget ((b5.nodes.push ⟨.Merge 2, [b1.nodes.size + 4, b5.control]⟩).push
        ⟨.Int32Div, [left, right, b5.nodes.size]⟩) i := by
    intro i
    rw [← hr2]
    rfl
  have hr2t : r2.traps = b5.traps := by
    rw [← hr2]
  have hr2te : r2.trapEffects = b5.trapEffects := by
    rw [← hr2]
  obtain ⟨f2lt, f2a, f2b⟩ := aget_spine2 b5.nodes
    ⟨.Merge 2, [b1.nodes.size + 4, b5.control]⟩
    ⟨.Int32Div, [left, right, b5.nodes.size]⟩
  have N15 : aget ((b5.nodes.push
      ⟨.Merge 2, [b1.nodes.size + 4, b5.control]⟩).push
      ⟨.Int32Div, [left, right, b5.nodes.size]⟩) b5.nodes.size =
      ⟨.Merge 2, [b1.nodes.size + 4, b1.nodes.size + 9]⟩ := by
    rw [f2a, hc5]
  have P5 : ∀ i, i < b1.nodes.size + 7 →
      isJoinOp (aget ns7 i).op = false →
      b5.nodeAt i = aget ns7 i := by
    intro i hi hj
    exact w12 i (by omega) hj
  have P4 : ∀ i, i < b1.nodes.size + 5 → aget ns7 i = aget ns5 i := by
    intro i hi
    exact (s7lt i (by omega)).trans (hb4n i)
  have P1 : ∀ i, i < b1.nodes.size → aget ns5 i = b1.nodeAt i := by
    intro i hi
    exact s5lt i hi
  have N2 : b5.nodeAt b.nodes.size = ⟨.Branch .hTrue, [right, b.control]⟩ := by
    rw [P5 b.nodes.size (by omega)
      (by rw [P4 b.nodes.size (by omega), P1 b.nodes.size (by omega), z9] ; rfl),
      P4 b.nodes.size (by omega), P1 b.nodes.size (by omega)]
    exact z9
  have N3 : b5.nodeAt (b.nodes.size + 1) = ⟨.IfTrue, [b.nodes.size]⟩ := by
    rw [P5 (b.nodes.size + 1) (by omega)
      (by rw [P4 (b.nodes.size + 1) (by omega), P1 (b.nodes.size + 1) (by omega), z10] ; rfl),
      P4 (b.nodes.size + 1) (by omega), P1 (b.nodes.size + 1) (by omega)]
    exact z10
  have N4 : b5.nodeAt (b.nodes.size + 2) = ⟨.IfFalse, [b.nodes.size]⟩ := by
    rw [P5 (b.nodes.size + 2) (by omega)
      (by rw [P4 (b.nodes.size + 2) (by omega), P1 (b.nodes.size + 2) (by omega), z11] ; rfl),
      P4 (b.nodes.size + 2) (by omega), P1 (b.nodes.size + 2) (by omega)]
    exact z11
  have N5 : b5.nodeAt b1.nodes.size = ⟨.Int32Const (toInt32 (-1)), []⟩ := by
    rw [P5 b1.nodes.size (by omega)
      (by rw [P4 b1.nodes.size (by omega), s5a] ; rfl),
      P4 b1.nodes.size (by omega), s5a]
  have N6 : b5.nodeAt (b1.nodes.size + 1) =
      ⟨.Word32Equal, [right, b1.nodes.size]⟩ := by
    rw [P5 (b1.nodes.size + 1) (by omega)
      (by rw [P4 (b1.nodes.size + 1) (by omega), s5b] ; rfl),
      P4 (b1.nodes.size + 1) (by omega), s5b]
  have N7 : b5.nodeAt (b1.nodes.size + 2) =
      ⟨.Branch .hNone, [b1.nodes.size + 1, b.nodes.size + 1]⟩ := by
    rw [P5 (b1.nodes.size + 2) (by omega)
      (by rw [P4 (b1.nodes.size + 2) (by omega), s5c] ; rfl),
      P4 (b1.nodes.size + 2) (by omega), s5c]
  have N8 : b5.nodeAt (b1.nodes.size + 3) =
      ⟨.IfTrue, [b1.nodes.size + 2]⟩ := by
    rw [P5 (b1.nodes.size + 3) (by omega)
      (by rw [P4 (b1.nodes.size + 3) (by omega), s5d] ; rfl),
      P4 (b1.nodes.size + 3) (by omega), s5d]
  have N9 : b5.nodeAt (b1.nodes.size + 4) =
      ⟨.IfFalse, [b1.nodes.size + 2]⟩ := by
    rw [P5 (b1.nodes.size + 4) (by omega)
      (by rw [P4 (b1.nodes.size + 4) (by omega), s5e] ; rfl),
      P4 (b1.nodes.size + 4) (by omega), s5e]
  have N10 : b5.nodeAt (b1.nodes.size + 5) =
      ⟨.Int32Const (toInt32 kMinInt32), []⟩ := by
    rw [P5 (b1.nodes.size + 5) (by omega) (by rw [s7a] ; rfl), s7a]
  have N11 : b5.nodeAt (b1.nodes.size + 6) =
      ⟨.Word32Equal, [left, b1.nodes.size + 5]⟩ := by
    rw [P5 (b1.nodes.size + 6) (by omega) (by rw [s7b] ; rfl), s7b]
  have N12 : b5.nodeAt (b1.nodes.size + 7) =
      ⟨.Branch .hFalse, [b1.nodes.size + 6, b1.nodes.size + 3]⟩ := by
    exact w9
  have N13 : b5.nodeAt (b1.nodes.size + 8) =
      ⟨.IfTrue, [b1.nodes.size + 7]⟩ := by
    exact w10
  have N14 : b5.nodeAt (b1.nodes.size + 9) =
      ⟨.IfFalse, [b1.nodes.size + 7]⟩ := by
    exact w11
  have R5 : ∀ i, i < b5.nodes.size →
      aget ((b5.nodes.push ⟨.Merge 2, [b1.nodes.size + 4, b5.control]⟩).push
        ⟨.Int32Div, [left, right, b5.nodes.size]⟩) i = b5.nodeAt i := by
    intro i hi
    exact f2lt i hi
  refine ⟨hrid.symm ▸ rfl, ?_, ?_, ?_, ?_, ?_, ?_, ?_, ?_, ?_, ?_, ?_, ?_,
    ?_, ?_, ?_, ?_, ?_, ?_⟩
  · rw [hr2n, R5 _ (by omega)]
    exact N2
  · rw [hr2n, R5 _ (by omega)]
    exact N3
  · rw [hr2n, R5 _ (by omega)]
    exact N4
  · rw [hr2n, R5 _ (by omega)]
    exact N5
  · rw [hr2n, R5 _ (by omega)]
    exact N6
  · rw [hr2n, R5 _ (by omega)]
    exact N7
  · rw [hr2n, R5 _ (by omega)]
    exact N8
  · rw [hr2n, R5 _ (by omega)]
    exact N9
  · rw [hr2n, R5 _ (by omega)]
    exact N10
  · rw [hr2n, R5 _ (by omega)]
    exact N11
  · rw [hr2n, R5 _ (by omega)]
    exact N12
  · rw [hr2n, R5 _ (by omega)]
    exact N13
  · rw [hr2n, R5 _ (by omega)]
    exact N14
  · rw [hr2n]
    exact N15
  · rw [hr2n]
    exact f2b
  · obtain ⟨m, p, d1, d2, d3, d4, d5, d6⟩ := z14
    have hmlt1 : m < b1.nodes.size := (mergeConsistent_elim b1 m d4).1
    have hmem5 : (b.nodes.size + 2) ∈ (b5.nodeAt m).inputs := by
      refine w13 m (by omega) _ ?_
      show _ ∈ (aget ns7 m).inputs
      rw [P4 m (by omega), P1 m (by omega)]
      exact d3
    have htb5 : b5.traps .DivByZero = b1.traps .DivByZero := by
      rw [(w15 .DivByZero (by decide)).1]
      show b4.traps .DivByZero = _
      rw [hb4]
    have hteb5 : b5.trapEffects .DivByZero = b1.trapEffects .DivByZero := by
      rw [(w15 .DivByZero (by decide)).2]
      show b4.trapEffects .DivByZero = _
      rw [hb4]
    refine ⟨m, p, ?_, ?_, ?_⟩
    · rw [hr2t, htb5]
      exact d1
    · rw [hr2te, hteb5]
      exact d2
    · rw [hr2n, R5 m (by omega)]
      exact hmem5
  · obtain ⟨m, p, e1, e2, e3, e4, e5, e6⟩ := w14
    have hmlt5 : m < b5.nodes.size := (mergeConsistent_elim b5 m e4).1
    refine ⟨m, p, ?_, ?_, ?_⟩
    · rw [hr2t]
      exact e1
    · rw [hr2te]
      exact e2
    · rw [hr2n, R5 m (by omega)]
      exact e3
  · intro tr hp
    have C_u : ctrlInputs r2 b5.nodes.size =
        [b1.nodes.size + 4, b1.nodes.size + 9] := by
      unfold ctrlInputs
      rw [hr2n, N15]
    have C_t9 : ctrlInputs r2 (b1.nodes.size + 9) = [b1.nodes.size + 7] := by
      unfold ctrlInputs
      rw [hr2n, R5 _ (by omega), N14]
    have C_t7 : ctrlInputs r2 (b1.nodes.size + 7) = [b1.nodes.size + 3] := by
      unfold ctrlInputs
      rw [hr2n, R5 _ (by omega), N12]
      rfl
    have C_t4 : ctrlInputs r2 (b1.nodes.size + 4) = [b1.nodes.size + 2] := by
      unfold ctrlInputs
      rw [hr2n, R5 _ (by omega), N9]
    have C_t3 : ctrlInputs r2 (b1.nodes.size + 3) = [b1.nodes.size + 2] := by
      unfold ctrlInputs
      rw [hr2n, R5 _ (by omega), N8]
    have C_t2 : ctrlInputs r2 (b1.nodes.size + 2) = [b.nodes.size + 1] := by
      unfold ctrlInputs
      rw [hr2n, R5 _ (by omega), N7]
      rfl
    have C_s1 : ctrlInputs r2 (b.nodes.size + 1) = [b.nodes.size] := by
      unfold ctrlInputs
      rw [hr2n, R5 _ (by omega), N3]
    obtain ⟨l1, rfl, hp1⟩ := cpath_cons_pair r2 b.control b5.nodes.size
      (b1.nodes.size + 4) (b1.nodes.size + 9) tr (by omega) C_u hp
    rcases hp1 with hp1 | hp1
    · obtain ⟨l2, rfl, hp2⟩ := cpath_cons_sing r2 b.control
        (b1.nodes.size + 4) (b1.nodes.size + 2) l1 (by omega) C_t4 hp1
      obtain ⟨l3, rfl, hp3⟩ := cpath_cons_sing r2 b.control
        (b1.nodes.size + 2) (b.nodes.size + 1) l2 (by omega) C_t2 hp2
      obtain ⟨l4, rfl, hp4⟩ := cpath_cons_sing r2 b.control
        (b.nodes.size + 1) b.nodes.size l3 (by omega) C_s1 hp3
      have hsm := cpath_head_mem r2 b.control b.nodes.size l4 (by omega) hp4
      constructor
      · simp [hsm]
      · right
        simp
    · obtain ⟨l2, rfl, hp2⟩ := cpath_cons_sing r2 b.control
        (b1.nodes.size + 9) (b1.nodes.size + 7) l1 (by omega) C_t9 hp1
      obtain ⟨l3, rfl, hp3⟩ := cpath_cons_sing r2 b.control
        (b1.nodes.size + 7) (b1.nodes.size + 3) l2 (by omega) C_t7 hp2
      obtain ⟨l4, rfl, hp4⟩ := cpath_cons_sing r2 b.control
        (b1.nodes.size + 3) (b1.nodes.size + 2) l3 (by omega) C_t3 hp3
      obtain ⟨l5, rfl, hp5⟩ := cpath_cons_sing r2 b.control
        (b1.nodes.size + 2) (b.nodes.size + 1) l4 (by omega) C_t2 hp4
      obtain ⟨l6, rfl, hp6⟩ := cpath_cons_sing r2 b.control
        (b.nodes.size + 1) b.nodes.size l5 (by omega) C_s1 hp5
      have hsm := cpath_head_mem r2 b.control b.nodes.size l6 (by omega) hp6
      constructor
      · simp [hsm]
      · left
        simp

theorem binopI64DivS_unfold (b : Builder) (left right : Nat)
    (b0 b1 b4 b5 : Builder) (ns0 ns5 ns7 : Array Node)
    (hnc0 : isInt64ConstNe (b.nodeAt right).op 0 = false)
    (hncm : isInt64ConstNe (b4.nodeAt left).op kMinInt64 = false)
    (hns0 : ns0 = (b.nodes.push ⟨.Int64Const (toInt64 0), []⟩).push ⟨.Word64Equal, [right, b.nodes.size]⟩)
    (hb0 : b0 = { b with nodes := ns0 })
    (hb1 : b1 = b0.addTrapIfTrue .DivByZero (b.nodes.size + 1))
    (hns5 : ns5 = ((((b1.nodes.push ⟨.Int64Const (toInt64 (-1)), []⟩).push ⟨.Word64Equal, [right, b1.nodes.size]⟩).push ⟨.Branch .hNone, [b1.nodes.size + 1, b1.control]⟩).push ⟨.IfTrue, [b1.nodes.size + 2]⟩).push ⟨.IfFalse, [b1.nodes.size + 2]⟩)
    (hb4 : b4 = { b1 with nodes := ns5, control := b1.nodes.size + 3 })
    (hns7 : ns7 = (b4.nodes.push ⟨.Int64Const (toInt64 kMinInt64), []⟩).push ⟨.Word64Equal, [left, b4.nodes.size]⟩)
    (hb5 : b5 = { b4 with nodes := ns7 }.addTrapIfTrue .DivUnrepresentable (b4.nodes.size + 1))
    (hcc : ¬ b5.control = b1.nodes.size + 3) :
    b.binopI64DivS left right =
      (b5.nodes.size + 1,
       { b5 with
         nodes := (b5.nodes.push ⟨.Merge 2, [b1.nodes.size + 4, b5.control]⟩).push ⟨.Int64Div, [left, right, b5.nodes.size]⟩,
         control := b5.nodes.size }) := by
  subst hns0 hb0 hb1 hns5 hb4 hns7 hb5
  unfold Builder.binopI64DivS
  rw [zeroCheck64_nofold b .DivByZero right hnc0]
  simp only [Builder.int64ConstNode, Builder.newNode, Builder.branch3,
    Array.size_push]
  rw [trapIfEq64_nofold _ .DivUnrepresentable left kMinInt64 hncm]
  simp only [Builder.int64ConstNode, Builder.newNode, Builder.addTrapIfTrue,
    Array.size_push] at hcc ⊢
  split
  · simp only [Array.size_push]
  · next h => exact absurd (not_not.mp h) hcc

theorem divS64_shape (b : Builder) (left right rid : Nat) (r2 : Builder)
    (s t u : Nat) (ns0 ns5 ns7 : Array Node) (b0 b1 b4 b5 : Builder)
    (hwf : wfB b = true)
    (hnc0 : isInt64ConstNe (b.nodeAt right).op 0 = false)
    (hncm : isInt64ConstNe (b.nodeAt left).op kMinInt64 = false)
    (hleft : left < b.nodes.size)
    (hjoin : isJoinOp (b.nodeAt left).op = false)
    (heq : b.binopI64DivS left right = (rid, r2))
    (hns0 : ns0 = (b.nodes.push ⟨.Int64Const (toInt64 0), []⟩).push ⟨.Word64Equal, [right, b.nodes.size]⟩)
    (hb0 : b0 = { b with nodes := ns0 })
    (hb1 : b1 = b0.addTrapIfTrue .DivByZero (b.nodes.size + 1))
    (hns5 : ns5 = ((((b1.nodes.push ⟨.Int64Const (toInt64 (-1)), []⟩).push ⟨.Word64Equal, [right, b1.nodes.size]⟩).push ⟨.Branch .hNone, [b1.nodes.size + 1, b1.control]⟩).push ⟨.IfTrue, [b1.nodes.size + 2]⟩).push ⟨.IfFalse, [b1.nodes.size + 2]⟩)
    (hb4 : b4 = { b1 with nodes := ns5, control := b1.nodes.size + 3 })
    (hns7 : ns7 = (b4.nodes.push ⟨.Int64Const (toInt64 kMinInt64), []⟩).push ⟨.Word64Equal, [left, b4.nodes.size]⟩)
    (hb5 : b5 = { b4 with nodes := ns7 }.addTrapIfTrue .DivUnrepresentable (b4.nodes.size + 1))
    (hs : s = b.nodes.size) (ht : t = b1.nodes.size)
    (hu : u = b5.nodes.size) :
    rid = u + 1 ∧
    r2.nodeAt s = ⟨.Int64Const (toInt64 0), []⟩ ∧
    r2.nodeAt (s + 1) = ⟨.Word64Equal, [right, s]⟩ ∧
    r2.nodeAt (s + 2) = ⟨.Branch .hFalse, [s + 1, b.control]⟩ ∧
    r2.nodeAt (s + 3) = ⟨.IfTrue, [s + 2]⟩ ∧
    r2.nodeAt (s + 4) = ⟨.IfFalse, [s + 2]⟩ ∧
    r2.nodeAt t = ⟨.Int64Const (toInt64 (-1)), []⟩ ∧
    r2.nodeAt (t + 1) = ⟨.Word64Equal, [right, t]⟩ ∧
    r2.nodeAt (t + 2) = ⟨.Branch .hNone, [t + 1, s + 4]⟩ ∧
    r2.nodeAt (t + 3) = ⟨.IfTrue, [t + 2]⟩ ∧
    r2.nodeAt (t + 4) = ⟨.IfFalse, [t + 2]⟩ ∧
    r2.nodeAt (t + 5) = ⟨.Int64Const (toInt64 kMinInt64), []⟩ ∧
    r2.nodeAt (t + 6) = ⟨.Word64Equal, [left, t + 5]⟩ ∧
    r2.nodeAt (t + 7) = ⟨.Branch .hFalse, [t + 6, t + 3]⟩ ∧
    r2.nodeAt (t + 8) = ⟨.IfTrue, [t + 7]⟩ ∧
    r2.nodeAt (t + 9) = ⟨.IfFalse, [t + 7]⟩ ∧
    r2.nodeAt u = ⟨.Merge 2, [t + 4, t + 9]⟩ ∧
    r2.nodeAt (u + 1) = ⟨.Int64Div, [left, right, u]⟩ ∧
    (∃ m p, r2.traps .DivByZero = some m ∧
      r2.trapEffects .DivByZero = some p ∧
      (s + 3) ∈ (r2.nodeAt m).inputs) ∧
    (∃ m p, r2.traps .DivUnrepresentable = some m ∧
      r2.trapEffects .DivUnrepresentable = some p ∧
      (t + 8) ∈ (r2.nodeAt m).inputs) ∧
    (∀ tr, CPathTo r2 b.control u tr →
      s + 2 ∈ tr ∧ (t + 7 ∈ tr ∨ t + 4 ∈ tr)) := by
  subst hs ht hu
  have hbc : b.control < b.nodes.size := (wfB_elim b hwf).1
  have hb1a : b1 = b0.addTrapIf .DivByZero (b.nodes.size + 1) true := hb1
  have hsz0 : b0.nodes.size = b.nodes.size + 2 := by
    rw [hb0, hns0]
    simp [Array.size_push]
  have hctl0 : b0.control = b.control := by rw [hb0]
  have htr0 : b0.traps = b.traps := by rw [hb0]
  have hte0 : b0.trapEffects = b.trapEffects := by rw [hb0]
  have hwf0 : wfB b0 = true := by
    rw [hb0, hns0]
    exact wfB_push2 b _ _ hwf
  obtain ⟨s0lt, s0a, s0b⟩ := aget_spine2 b.nodes
    ⟨.Int64Const (toInt64 0), []⟩ ⟨.Word64Equal, [right, b.nodes.size]⟩
  rw [← hns0] at s0lt s0a s0b
  have hb0n : ∀ i, b0.nodeAt i = aget ns0 i := by
    intro i
    rw [hb0]
    rfl
  have hb0s : b0.nodeAt b.nodes.size = ⟨.Int64Const (toInt64 0), []⟩ := by
    rw [hb0n]
    exact s0a
  have hb0s1 : b0.nodeAt (b.nodes.size + 1) =
      ⟨.Word64Equal, [right, b.nodes.size]⟩ := by
    rw [hb0n]
    exact s0b
  have h0lt : ∀ i, i < b.nodes.size → b0.nodeAt i = b.nodeAt i := by
    intro i hi
    rw [hb0n]
    exact s0lt i hi
  obtain ⟨z1, z2, z3, z4, z5, z6, z7, z8, z9, z10, z11, z12, z13, z14, z15,
    z16⟩ := addTrapIf_spec b0 .DivByZero (b.nodes.size + 1) true hwf0
  rw [← hb1a] at z1 z2 z3 z8 z9 z10 z11 z12 z13 z14 z15 z16
  rw [hsz0] at z2 z8 z9 z10 z11 z12 z13 z14
  rw [hctl0] at z9
  have hwf1 : wfB b1 = true := z16
  have hc1 : b1.control = b.nodes.size + 4 := by
    rw [z2]
    rfl
  have B1s : b1.nodeAt b.nodes.size = ⟨.Int64Const (toInt64 0), []⟩ := by
    rw [z12 b.nodes.size (by omega) (by rw [hb0s] ; rfl)]
    exact hb0s
  have B1s1 : b1.nodeAt (b.nodes.size + 1) =
      ⟨.Word64Equal, [right, b.nodes.size]⟩ := by
    rw [z12 (b.nodes.size + 1) (by omega) (by rw [hb0s1] ; rfl)]
    exact hb0s1
  have hsz4 : b4.nodes.size = b1.nodes.size + 5 := by
    rw [hb4, hns5]
    simp [Array.size_push]
  have hc4 : b4.control = b1.nodes.size + 3 := by rw [hb4]
  have hb4n : ∀ i, b4.nodeAt i = aget ns5 i := by
    intro i
    rw [hb4]
    rfl
  obtain ⟨s5lt, s5a, s5b, s5c, s5d, s5e⟩ :=
    aget_spine5 b1.nodes ⟨.Int64Const (toInt64 (-1)), []⟩
      ⟨.Word64Equal, [right, b1.nodes.size]⟩
      ⟨.Branch .hNone, [b1.nodes.size + 1, b1.control]⟩
      ⟨.IfTrue, [b1.nodes.size + 2]⟩ ⟨.IfFalse, [b1.nodes.size + 2]⟩
  rw [← hns5] at s5lt s5a s5b s5c s5d s5e
  rw [hc1] at s5c
  have h4lt : ∀ i, i < b1.nodes.size → b4.nodeAt i = b1.nodeAt i := by
    intro i hi
    rw [hb4n]
    exact s5lt i hi
  have hwf4 : wfB b4 = true := by
    rw [hb4, hns5]
    refine wfB_step b1 _ hwf1 ?_ ?_ rfl rfl rfl ?_ ?_ rfl
    · simp [Array.size_push]
      omega
    · intro i hi
      show aget _ i = aget _ i
      rw [aget_push_lt _ _ _ (by simp [Array.size_push] ; omega),
        aget_push_lt _ _ _ (by simp [Array.size_push] ; omega),
        aget_push_lt _ _ _ (by simp [Array.size_push] ; omega),
        aget_push_lt _ _ _ (by simp [Array.size_push] ; omega),
        aget_push_lt _ _ _ hi]
    · show b1.nodes.size + 3 < _
      simp [Array.size_push]
    · show b1.effect < _
      have := (wfB_elim b1 hwf1).2.1
      simp [Array.size_push]
      omega
  have hncm4 : isInt64ConstNe (b4.nodeAt left).op kMinInt64 = false := by
    have h1 : b4.nodeAt left = b.nodeAt left := by
      rw [h4lt left (by omega),
        z12 left (by omega) (by rw [h0lt left hleft] ; exact hjoin)]
      exact h0lt left hleft
    rw [h1]
    exact hncm
  have hwf47 : wfB ({ b4 with nodes := ns7 } : Builder) = true := by
    rw [hns7]
    exact wfB_push2 b4 _ _ hwf4
  have hsz47 : ({ b4 with nodes := ns7 } : Builder).nodes.size =
      b1.nodes.size + 7 := by
    show ns7.size = _
    rw [hns7]
    simp [Array.size_push, hsz4]
  obtain ⟨s7lt, s7a, s7b⟩ :=
    aget_spine2 b4.nodes ⟨.Int64Const (toInt64 kMinInt64), []⟩
      ⟨.Word64Equal, [left, b4.nodes.size]⟩
  rw [← hns7] at s7lt s7a s7b
  rw [hsz4] at s7lt s7a s7b
  have hb5a : b5 = ({ b4 with nodes := ns7 } : Builder).addTrapIf
      .DivUnrepresentable (b4.nodes.size + 1) true := hb5
  obtain ⟨w1, w2, w3, w4, w5, w6, w7, w8, w9, w10, w11, w12, w13, w14, w15,
    w16⟩ := addTrapIf_spec ({ b4 with nodes := ns7 } : Builder)
      .DivUnrepresentable (b4.nodes.size + 1) true hwf47
  rw [← hb5a] at w1 w2 w3 w8 w9 w10 w11 w12 w13 w14 w15
  rw [hsz47] at w2 w8 w9 w10 w11 w12 w13 w14
  rw [hsz4] at w9
  rw [show ({ b4 with nodes := ns7 } : Builder).control = b4.control from rfl,
    hc4] at w9
  have hc5 : b5.control = b1.nodes.size + 9 := by
    rw [w2]
    rfl
  have hu8 : b1.nodes.size + 10 ≤ b5.nodes.size := by omega
  have hcc : ¬ b5.control = b1.nodes.size + 3 := by
    rw [hc5]
    omega
  have hunf := binopI64DivS_unfold b left right b0 b1 b4 b5 ns0 ns5 ns7 hnc0
    hncm4 hns0 hb0 hb1 hns5 hb4 hns7 hb5 hcc
  obtain ⟨hrid, hr2⟩ := Prod.mk.injEq .. ▸ (hunf.symm.trans heq)
  have hr2n : ∀ i, r2.nodeAt i =
      aget ((b5.nodes.push ⟨.Merge 2, [b1.nodes.size + 4, b5.control]⟩).push
        ⟨.Int64Div, [left, right, b5.nodes.size]⟩) i := by
    intro i
    rw [← hr2]
    rfl
  have hr2t : r2.traps = b5.traps := by
    rw [← hr2]
  have hr2te : r2.trapEffects = b5.trapEffects := by
    rw [← hr2]
  obtain ⟨f2lt, f2a, f2b⟩ := aget_spine2 b5.nodes
    ⟨.Merge 2, [b1.nodes.size + 4, b5.control]⟩
    ⟨.Int64Div, [left, right, b5.nodes.size]⟩
  have N15 : aget ((b5.nodes.push
      ⟨.Merge 2, [b1.nodes.size + 4, b5.control]⟩).push
      ⟨.Int64Div, [left, right, b5.nodes.size]⟩) b5.nodes.size =
      ⟨.Merge 2, [b1.nodes.size + 4, b1.nodes.size + 9]⟩ := by
    rw [f2a, hc5]
  have P5 : ∀ i, i < b1.nodes.size + 7 →
      isJoinOp (aget ns7 i).op = false →
      b5.nodeAt i = aget ns7 i := by
    intro i hi hj
    exact w12 i (by omega) hj
  have P4 : ∀ i, i < b1.nodes.size + 5 → aget ns7 i = aget ns5 i := by
    intro i hi
    exact (s7lt i (by omega)).trans (hb4n i)
  have P1 : ∀ i, i < b1.nodes.size → aget ns5 i = b1.nodeAt i := by
    intro i hi
    exact s5lt i hi
  have N2 : b5.nodeAt b.nodes.size = ⟨.Int64Const (toInt64 0), []⟩ := by
    rw [P5 b.nodes.size (by omega)
      (by rw [P4 b.nodes.size (by omega), P1 b.nodes.size (by omega), B1s] ; rfl),
      P4 b.nodes.size (by omega), P1 b.nodes.size (by omega)]
    exact B1s
  have N3 : b5.nodeAt (b.nodes.size + 1) =
      ⟨.Word64Equal, [right, b.nodes.size]⟩ := by
    rw [P5 (b.nodes.size + 1) (by omega)
      (by rw [P4 (b.nodes.size + 1) (by omega), P1 (b.nodes.size + 1) (by omega), B1s1] ; rfl),
      P4 (b.nodes.size + 1) (by omega), P1 (b.nodes.size + 1) (by omega)]
    exact B1s1
  have N4 : b5.nodeAt (b.nodes.size + 2) =
      ⟨.Branch .hFalse, [b.nodes.size + 1, b.control]⟩ := by
    rw [P5 (b.nodes.size + 2) (by omega)
      (by rw [P4 (b.nodes.size + 2) (by omega), P1 (b.nodes.size + 2) (by omega), z9] ; rfl),
      P4 (b.nodes.size + 2) (by omega), P1 (b.nodes.size + 2) (by omega)]
    exact z9
  have N4a : b5.nodeAt (b.nodes.size + 3) = ⟨.IfTrue, [b.nodes.size + 2]⟩ := by
    rw [P5 (b.nodes.size + 3) (by omega)
      (by rw [P4 (b.nodes.size + 3) (by omega), P1 (b.nodes.size + 3) (by omega), z10] ; rfl),
      P4 (b.nodes.size + 3) (by omega), P1 (b.nodes.size + 3) (by omega)]
    exact z10
  have N4b : b5.nodeAt (b.nodes.size + 4) = ⟨.IfFalse, [b.nodes.size + 2]⟩ := by
    rw [P5 (b.nodes.size + 4) (by omega)
      (by rw [P4 (b.nodes.size + 4) (by omega), P1 (b.nodes.size + 4) (by omega), z11] ; rfl),
      P4 (b.nodes.size + 4) (by omega), P1 (b.nodes.size + 4) (by omega)]
    exact z11
  have N5 : b5.nodeAt b1.nodes.size = ⟨.Int64Const (toInt64 (-1)), []⟩ := by
    rw [P5 b1.nodes.size (by omega)
      (by rw [P4 b1.nodes.size (by omega), s5a] ; rfl),
      P4 b1.nodes.size (by omega), s5a]
  have N6 : b5.nodeAt (b1.nodes.size + 1) =
      ⟨.Word64Equal, [right, b1.nodes.size]⟩ := by
    rw [P5 (b1.nodes.size + 1) (by omega)
      (by rw [P4 (b1.nodes.size + 1) (by omega), s5b] ; rfl),
      P4 (b1.nodes.size + 1) (by omega), s5b]
  have N7 : b5.nodeAt (b1.nodes.size + 2) =
      ⟨.Branch .hNone, [b1.nodes.size + 1, b.nodes.size + 4]⟩ := by
    rw [P5 (b1.nodes.size + 2) (by omega)
      (by rw [P4 (b1.nodes.size + 2) (by omega), s5c] ; rfl),
      P4 (b1.nodes.size + 2) (by omega), s5c]
  have N8 : b5.nodeAt (b1.nodes.size + 3) =
      ⟨.IfTrue, [b1.nodes.size + 2]⟩ := by
    rw [P5 (b1.nodes.size + 3) (by omega)
      (by rw [P4 (b1.nodes.size + 3) (by omega), s5d] ; rfl),
      P4 (b1.nodes.size + 3) (by omega), s5d]
  have N9 : b5.nodeAt (b1.nodes.size + 4) =
      ⟨.IfFalse, [b1.nodes.size + 2]⟩ := by
    rw [P5 (b1.nodes.size + 4) (by omega)
      (by rw [P4 (b1.nodes.size + 4) (by omega), s5e] ; rfl),
      P4 (b1.nodes.size + 4) (by omega), s5e]
  have N10 : b5.nodeAt (b1.nodes.size + 5) =
      ⟨.Int64Const (toInt64 kMinInt64), []⟩ := by
    rw [P5 (b1.nodes.size + 5) (by omega) (by rw [s7a] ; rfl), s7a]
  have N11 : b5.nodeAt (b1.nodes.size + 6) =
      ⟨.Word64Equal, [left, b1.nodes.size + 5]⟩ := by
    rw [P5 (b1.nodes.size + 6) (by omega) (by rw [s7b] ; rfl), s7b]
  have N12 : b5.nodeAt (b1.nodes.size + 7) =
      ⟨.Branch .hFalse, [b1.nodes.size + 6, b1.nodes.size + 3]⟩ := by
    exact w9
  have N13 : b5.nodeAt (b1.nodes.size + 8) =
      ⟨.IfTrue, [b1.nodes.size + 7]⟩ := by
    exact w10
  have N14 : b5.nodeAt (b1.nodes.size + 9) =
      ⟨.IfFalse, [b1.nodes.size + 7]⟩ := by
    exact w11
  have R5 : ∀ i, i < b5.nodes.size →
      aget ((b5.nodes.push ⟨.Merge 2, [b1.nodes.size + 4, b5.control]⟩).push
        ⟨.Int64Div, [left, right, b5.nodes.size]⟩) i = b5.nodeAt i := by
    intro i hi
    exact f2lt i hi
  refine ⟨hrid.symm ▸ rfl, ?_, ?_, ?_, ?_, ?_, ?_, ?_, ?_, ?_, ?_, ?_, ?_,
    ?_, ?_, ?_, ?_, ?_, ?_, ?_, ?_⟩
  · rw [hr2n, R5 _ (by omega)]
    exact N2
  · rw [hr2n, R5 _ (by omega)]
    exact N3
  · rw [hr2n, R5 _ (by omega)]
    exact N4
  · rw [hr2n, R5 _ (by omega)]
    exact N4a
  · rw [hr2n, R5 _ (by omega)]
    exact N4b
  · rw [hr2n, R5 _ (by omega)]
    exact N5
  · rw [hr2n, R5 _ (by omega)]
    exact N6
  · rw [hr2n, R5 _ (by omega)]
    exact N7
  · rw [hr2n, R5 _ (by omega)]
    exact N8
  · rw [hr2n, R5 _ (by omega)]
    exact N9
  · rw [hr2n, R5 _ (by omega)]
    exact N10
  · rw [hr2n, R5 _ (by omega)]
    exact N11
  · rw [hr2n, R5 _ (by omega)]
    exact N12
  · rw [hr2n, R5 _ (by omega)]
    exact N13
  · rw [hr2n, R5 _ (by omega)]
    exact N14
  · rw [hr2n]
    exact N15
  · rw [hr2n]
    exact f2b
  · obtain ⟨m, p, d1, d2, d3, d4, d5, d6⟩ := z14
    have hmlt1 : m < b1.nodes.size := (mergeConsistent_elim b1 m d4).1
    have hmem5 : (b.nodes.size + 3) ∈ (b5.nodeAt m).inputs := by
      refine w13 m (by omega) _ ?_
      show _ ∈ (aget ns7 m).inputs
      rw [P4 m (by omega), P1 m (by omega)]
      exact d3
    have htb5 : b5.traps .DivByZero = b1.traps .DivByZero := by
      rw [(w15 .DivByZero (by decide)).1]
      show b4.traps .DivByZero = _
      rw [hb4]
    have hteb5 : b5.trapEffects .DivByZero = b1.trapEffects .DivByZero := by
      rw [(w15 .DivByZero (by decide)).2]
      show b4.trapEffects .DivByZero = _
      rw [hb4]
    refine ⟨m, p, ?_, ?_, ?_⟩
    · rw [hr2t, htb5]
      exact d1
    · rw [hr2te, hteb5]
      exact d2
    · rw [hr2n, R5 m (by omega)]
      exact hmem5
  · obtain ⟨m, p, e1, e2, e3, e4, e5, e6⟩ := w14
    have hmlt5 : m < b5.nodes.size := (mergeConsistent_elim b5 m e4).1
    refine ⟨m, p, ?_, ?_, ?_⟩
    · rw [hr2t]
      exact e1
    · rw [hr2te]
      exact e2
    · rw [hr2n, R5 m (by omega)]
      exact e3
  · intro tr hp
    have C_u : ctrlInputs r2 b5.nodes.size =
        [b1.nodes.size + 4, b1.nodes.size + 9] := by
      unfold ctrlInputs
      rw [hr2n, N15]
    have C_t9 : ctrlInputs r2 (b1.nodes.size + 9) = [b1.nodes.size + 7] := by
      unfold ctrlInputs
      rw [hr2n, R5 _ (by omega), N14]
    have C_t7 : ctrlInputs r2 (b1.nodes.size + 7) = [b1.nodes.size + 3] := by
      unfold ctrlInputs
      rw [hr2n, R5 _ (by omega), N12]
      rfl
    have C_t4 : ctrlInputs r2 (b1.nodes.size + 4) = [b1.nodes.size + 2] := by
      unfold ctrlInputs
      rw [hr2n, R5 _ (by omega), N9]
    have C_t3 : ctrlInputs r2 (b1.nodes.size + 3) = [b1.nodes.size + 2] := by
      unfold ctrlInputs
      rw [hr2n, R5 _ (by omega), N8]
    have C_t2 : ctrlInputs r2 (b1.nodes.size + 2) = [b.nodes.size + 4] := by
      unfold ctrlInputs
      rw [hr2n, R5 _ (by omega), N7]
      rfl
    have C_s4 : ctrlInputs r2 (b.nodes.size + 4) = [b.nodes.size + 2] := by
      unfold ctrlInputs
      rw [hr2n, R5 _ (by omega), N4b]
    obtain ⟨l1, rfl, hp1⟩ := cpath_cons_pair r2 b.control b5.nodes.size
      (b1.nodes.size + 4) (b1.nodes.size + 9) tr (by omega) C_u hp
    rcases hp1 with hp1 | hp1
    · obtain ⟨l2, rfl, hp2⟩ := cpath_cons_sing r2 b.control
        (b1.nodes.size + 4) (b1.nodes.size + 2) l1 (by omega) C_t4 hp1
      obtain ⟨l3, rfl, hp3⟩ := cpath_cons_sing r2 b.control
        (b1.nodes.size + 2) (b.nodes.size + 4) l2 (by omega) C_t2 hp2
      obtain ⟨l4, rfl, hp4⟩ := cpath_cons_sing r2 b.control
        (b.nodes.size + 4) (b.nodes.size + 2) l3 (by omega) C_s4 hp3
      have hsm := cpath_head_mem r2 b.control (b.nodes.size + 2) l4
        (by omega) hp4
      constructor
      · simp [hsm]
      · right
        simp
    · obtain ⟨l2, rfl, hp2⟩ := cpath_cons_sing r2 b.control
        (b1.nodes.size + 9) (b1.nodes.size + 7) l1 (by omega) C_t9 hp1
      obtain ⟨l3, rfl, hp3⟩ := cpath_cons_sing r2 b.control
        (b1.nodes.size + 7) (b1.nodes.size + 3) l2 (by omega) C_t7 hp2
      obtain ⟨l4, rfl, hp4⟩ := cpath_cons_sing r2 b.control
        (b1.nodes.size + 3) (b1.nodes.size + 2) l3 (by omega) C_t3 hp3
      obtain ⟨l5, rfl, hp5⟩ := cpath_cons_sing r2 b.control
        (b1.nodes.size + 2) (b.nodes.size + 4) l4 (by omega) C_t2 hp4
      obtain ⟨l6, rfl, hp6⟩ := cpath_cons_sing r2 b.control
        (b.nodes.size + 4) (b.nodes.size + 2) l5 (by omega) C_s4 hp5
      have hsm := cpath_head_mem r2 b.control (b.nodes.size + 2) l6
        (by omega) hp6
      constructor
      · simp [hsm]
      · left
        simp

theorem boundsCheckCond_inv (size offset memsize : Nat) :
    (boundsCheckCond size offset memsize = .constFalse ↔
      size ≤ offset ∨ size ≤ (offset + memsize) % 2 ^ 32) ∧
    (∀ l, boundsCheckCond size offset memsize = .cmp l →
      ¬(size ≤ offset ∨ size ≤ (offset + memsize) % 2 ^ 32) ∧
      l = (((size : Int) - offset - memsize) % 2 ^ 64).toNat ∧
      l ≤ kMaxUInt32) ∧
    (boundsCheckCond size offset memsize = .checkFail ↔
      ¬(size ≤ offset ∨ size ≤ (offset + memsize) % 2 ^ 32) ∧
      ¬((((size : Int) - offset - memsize) % 2 ^ 64).toNat ≤ kMaxUInt32)) := by
  have hBC : boundsCheckCond size offset memsize =
      (if size ≤ offset ∨ size ≤ (offset + memsize) % 2 ^ 32 then
        .constFalse
       else if (((size : Int) - offset - memsize) % 2 ^ 64).toNat ≤
          kMaxUInt32 then
        .cmp ((((size : Int) - offset - memsize) % 2 ^ 64).toNat)
       else .checkFail) := rfl
  rw [hBC]
  by_cases h1 : size ≤ offset ∨ size ≤ (offset + memsize) % 2 ^ 32
  · rw [if_pos h1]
    refine ⟨⟨fun _ => h1, fun _ => rfl⟩, ?_, ?_⟩
    · intro l h
      exact BCond.noConfusion h
    · constructor
      · intro h
        exact BCond.noConfusion h
      · intro h
        exact absurd h1 h.1
  · rw [if_neg h1]
    by_cases h2 : (((size : Int) - offset - memsize) % 2 ^ 64).toNat ≤
        kMaxUInt32
    · rw [if_pos h2]
      refine ⟨?_, ?_, ?_⟩
      · constructor
        · intro h
          exact BCond.noConfusion h
        · intro ha
          exact absurd ha h1
      · intro l h
        injection h with hl
        exact ⟨h1, hl.symm, hl ▸ h2⟩
      · constructor
        · intro h
          exact BCond.noConfusion h
        · intro h
          exact absurd h2 h.2
    · rw [if_neg h2]
      refine ⟨?_, ?_, ?_⟩
      · constructor
        · intro h
          exact BCond.noConfusion h
        · intro ha
          exact absurd ha h1
      · intro l h
        exact BCond.noConfusion h
      · exact ⟨fun _ => ⟨h1, h2⟩, fun _ => rfl⟩

theorem boundsCheckCond_classify (size offset memsize : Nat)
    (hsize : size < 2 ^ 64) (hms : memsize ≤ 2 ^ 32) :
    (boundsCheckCond size offset memsize = .constFalse ↔
      size ≤ offset ∨ size ≤ (offset + memsize) % 2 ^ 32) ∧
    (∀ l, boundsCheckCond size offset memsize = .cmp l →
      ¬(size ≤ offset ∨ size ≤ (offset + memsize) % 2 ^ 32) ∧
      offset + memsize ≤ size ∧
      l = size - offset - memsize ∧ l ≤ kMaxUInt32) ∧
    (boundsCheckCond size offset memsize = .checkFail ↔
      ¬(size ≤ offset ∨ size ≤ (offset + memsize) % 2 ^ 32) ∧
      (size < offset + memsize ∨ kMaxUInt32 < size - offset - memsize)) := by
  obtain ⟨hcf, hcmp, hck⟩ := boundsCheckCond_inv size offset memsize
  have hkm : kMaxUInt32 = 2 ^ 32 - 1 := rfl
  refine ⟨hcf, ?_, ?_⟩
  · intro l h
    obtain ⟨hg, hl, hle⟩ := hcmp l h
    subst hl
    have hpos : offset + memsize ≤ size := by omega
    exact ⟨hg, hpos, by omega, hle⟩
  · constructor
    · intro h
      obtain ⟨hg, hnle⟩ := hck.mp h
      exact ⟨hg, by omega⟩
    · rintro ⟨hg, hor⟩
      exact hck.mpr ⟨hg, by omega⟩

theorem boundsCheckMem_spec (b : Builder) (md : ModuleEnvM) (memtype : MemTy)
    (index offset : Nat) (hmod : b.module = some md)
    (hle : md.memStart ≤ md.memEnd) :
    (boundsCheckCond (md.memEnd - md.memStart) offset (memSize memtype) =
        .checkFail → b.boundsCheckMem memtype index offset = none) ∧
    (boundsCheckCond (md.memEnd - md.memStart) offset (memSize memtype) =
        .constFalse →
      b.boundsCheckMem memtype index offset =
        some (({ b with nodes := b.nodes.push ⟨.Int32Const 0, []⟩ } : Builder).addTrapIfFalse .MemOutOfBounds b.nodes.size)) ∧
    (∀ limit,
      boundsCheckCond (md.memEnd - md.memStart) offset (memSize memtype) =
        .cmp limit →
      b.boundsCheckMem memtype index offset =
        some (({ b with nodes := (b.nodes.push ⟨.Int32Const (toInt32 limit), []⟩).push ⟨.Uint32LessThanOrEqual, [index, b.nodes.size]⟩ } : Builder).addTrapIfFalse .MemOutOfBounds (b.nodes.size + 1))) := by
  obtain ⟨hcf, hcmp, hck⟩ :=
    boundsCheckCond_inv (md.memEnd - md.memStart) offset
      (memSize memtype)
  have hlt : ¬ md.memEnd < md.memStart := by omega
  refine ⟨?_, ?_, ?_⟩
  · intro h
    obtain ⟨h1, h2⟩ := hck.mp h
    simp only [Builder.boundsCheckMem, hmod, hlt, h1, h2, ite_false,
      if_false, Builder.newNode]
  · intro h
    have h1 := hcf.mp h
    simp only [Builder.boundsCheckMem, hmod, hlt, h1, ite_true, ite_false,
      if_false, Builder.newNode]
  · intro limit h
    obtain ⟨h1, hl, h2⟩ := hcmp limit h
    subst hl
    simp only [Builder.boundsCheckMem, hmod, hlt, h1, h2, ite_true,
      ite_false, if_false, Builder.newNode, Array.size_push]

theorem memBuffer_spec (b : Builder) (md : ModuleEnvM) (offset : Nat) :
    (offset ≠ 0 → b.memBuffer md offset =
      (b.nodes.size,
        { b with nodes := b.nodes.push ⟨.IntPtrConst (md.memStart + offset), []⟩ })) ∧
    (∀ u, offset = 0 → b.memBuf = some u →
      b.memBuffer md offset = (u, b)) ∧
    (offset = 0 → b.memBuf = none →
      b.memBuffer md offset =
        (b.nodes.size,
          { b with nodes := b.nodes.push ⟨.IntPtrConst md.memStart, []⟩, memBuf := some b.nodes.size })) := by
  refine ⟨?_, ?_, ?_⟩
  · intro hoff
    rw [Builder.memBuffer, if_neg hoff]
    rfl
  · intro u h0 hu
    rw [h0, Builder.memBuffer, if_pos rfl, hu]
  · intro h0 hnone
    rw [h0, Builder.memBuffer, if_pos rfl, hnone]
    rfl

theorem loadMem_spec (b b2 b3 : Builder) (md : ModuleEnvM) (ty : LocalTy)
    (memtype : MemTy) (index offset buf : Nat)
    (hmod : b.module = some md) (hasm : md.asmJs = false)
    (hnarrow : ¬(ty = .i64 ∧ memSize memtype < 8))
    (hbc : b.boundsCheckMem memtype index offset = some b2)
    (hbuf : b2.memBuffer md offset = (buf, b3)) :
    b.loadMem ty memtype index offset =
      some (b3.nodes.size,
        { b3 with nodes := b3.nodes.push ⟨.Load memtype, [buf, index, b3.effect, b3.control]⟩, effect := b3.nodes.size }) := by
  simp only [Builder.loadMem, hmod, hasm, Bool.false_eq_true, if_false,
    hbc, hbuf, Builder.newNode, Array.size_push, hnarrow]

theorem storeMem_spec (b b2 b3 : Builder) (md : ModuleEnvM) (memtype : MemTy)
    (index offset val buf : Nat)
    (hmod : b.module = some md) (hasm : md.asmJs = false)
    (hbc : b.boundsCheckMem memtype index offset = some b2)
    (hbuf : b2.memBuffer md offset = (buf, b3)) :
    b.storeMem memtype index offset val =
      some (b3.nodes.size,
        { b3 with nodes := b3.nodes.push ⟨.Store memtype, [buf, index, val, b3.effect, b3.control]⟩, effect := b3.nodes.size }) := by
  simp only [Builder.storeMem, hmod, hasm, Bool.false_eq_true, if_false,
    hbc, hbuf, Builder.newNode, Array.size_push]

theorem runTrapSites_grow (R : TrapReason) (sites : List (Nat × Bool)) :
    ∀ (b : Builder) (m p k kp : Nat) (insM insP : List Nat),
    wfB b = true → b.traps R = some m → b.trapEffects R = some p →
    b.nodeAt m = ⟨.Merge k, insM⟩ → insM.length = k →
    b.nodeAt p = ⟨.EffectPhi kp, insP⟩ → insP.length = kp + 1 →
    ∃ insM2 insP2,
      (runTrapSites b R sites).traps R = some m ∧
      (runTrapSites b R sites).trapEffects R = some p ∧
      (runTrapSites b R sites).nodeAt m =
        ⟨.Merge (k + sites.length), insM2⟩ ∧
      insM2.length = k + sites.length ∧
      (runTrapSites b R sites).nodeAt p =
        ⟨.EffectPhi (kp + sites.length), insP2⟩ ∧
      insP2.length = kp + sites.length + 1 ∧
      wfB (runTrapSites b R sites) = true := by
  induction sites with
  | nil =>
    intro b m p k kp insM insP hwf hm hp hmm hlen hpp hplen
    exact ⟨insM, insP, hm, hp, hmm, hlen, hpp, by simpa using hplen, hwf⟩
  | cons site rest ih =>
    intro b m p k kp insM insP hwf hm hp hmm hlen hpp hplen
    obtain ⟨hsz, hm2, hp2, hmm2, hpp2⟩ :=
      addTrapIf_grow b R site.1 site.2 m p k kp insM insP hwf hm hp hmm hlen
        hpp hplen
    obtain ⟨-, -, -, -, -, -, -, -, -, -, -, -, -, -, -, hwf2⟩ :=
      addTrapIf_spec b R site.1 site.2 hwf
    have hplen2 : (insP.insertIdx kp b.effect).length = (kp + 1) + 1 := by
      rw [List.length_insertIdx kp insP (by omega)]
      omega
    obtain ⟨insM2, insP2, g1, g2, g3, g4, g5, g6, g7⟩ :=
      ih (b.addTrapIf R site.1 site.2) m p (k + 1) (kp + 1) _ _ hwf2 hm2 hp2
        hmm2 (by simp [hlen]) hpp2 hplen2
    have hkeq : k + 1 + rest.length = k + (site :: rest).length := by
      simp only [List.length_cons]
      omega
    have hkpeq : kp + 1 + rest.length = kp + (site :: rest).length := by
      simp only [List.length_cons]
      omega
    rw [hkeq] at g3 g4
    rw [hkpeq] at g5 g6
    exact ⟨insM2, insP2, g1, g2, g3, g4, g5, g6, g7⟩

/-- C7: for one trap reason during one build, a single trap block is ever
created: starting from a builder with no block for R, every nonempty
prefix of a run of trap sites for R leaves the trap cache pointing at the
same Merge node m and the same EffectPhi p, with the Merge holding
exactly one control input per site of the prefix and the EffectPhi one
effect input per site plus its control input. -/
theorem c7_one_trap_block (b : Builder) (R : TrapReason)
    (sites : List (Nat × Bool)) (hwf : wfB b = true)
    (hnone : b.traps R = none) :
    ∃ m p, ∀ pre post : List (Nat × Bool), sites = pre ++ post → pre ≠ [] →
      ∃ insM insP,
        (runTrapSites b R pre).traps R = some m ∧
        (runTrapSites b R pre).trapEffects R = some p ∧
        (runTrapSites b R pre).nodeAt m = ⟨.Merge pre.length, insM⟩ ∧
        insM.length = pre.length ∧
        (runTrapSites b R pre).nodeAt p = ⟨.EffectPhi pre.length, insP⟩ ∧
        insP.length = pre.length + 1 := by
  refine ⟨b.nodes.size + 4, b.nodes.size + 5, ?_⟩
  intro pre post hsplit hne
  cases pre with
  | nil => exact absurd rfl hne
  | cons site pre2 =>
    obtain ⟨hm, hp, hmm, hpp⟩ := addTrapIf_fresh b R site.1 site.2 hwf hnone
    obtain ⟨-, -, -, -, -, -, -, -, -, -, -, -, -, -, -, hwf2⟩ :=
      addTrapIf_spec b R site.1 site.2 hwf
    obtain ⟨insM2, insP2, g1, g2, g3, g4, g5, g6, -⟩ :=
      runTrapSites_grow R pre2 (b.addTrapIf R site.1 site.2)
        (b.nodes.size + 4) (b.nodes.size + 5) 1 1 _ _ hwf2 hm hp hmm rfl
        hpp rfl
    have hkeq : 1 + pre2.length = (site :: pre2).length := by
      simp only [List.length_cons]
      omega
    rw [hkeq] at g3 g4 g5 g6
    exact ⟨insM2, insP2, g1, g2, g3, g4, g5, g6⟩

/-- Witness for C7 at a concrete run: two trap sites for Unreachable on
the fresh builder bW. -/
theorem c7_witness :
    ∃ m p, ∀ pre post : List (Nat × Bool),
      [(1, true), (2, false)] = pre ++ post → pre ≠ [] →
      ∃ insM insP,
        (runTrapSites bW .Unreachable pre).traps .Unreachable = some m ∧
        (runTrapSites bW .Unreachable pre).trapEffects .Unreachable =
          some p ∧
        (runTrapSites bW .Unreachable pre).nodeAt m =
          ⟨.Merge pre.length, insM⟩ ∧
        insM.length = pre.length ∧
        (runTrapSites bW .Unreachable pre).nodeAt p =
          ⟨.EffectPhi pre.length, insP⟩ ∧
        insP.length = pre.length + 1 :=
  c7_one_trap_block bW .Unreachable [(1, true), (2, false)] (by decide)
    (by decide)

/-- A set bit of a word below 2^32 sits below position 32. -/
theorem testBit_lt32 {x j : Nat} (hx : x < 2 ^ 32) (h : x.testBit j = true) :
    j < 32 := by
  by_contra hj
  rw [Nat.testBit_lt_two_pow
    (lt_of_lt_of_le hx (Nat.pow_le_pow_right (by omega) (by omega)))] at h
  exact Bool.noConfusion h

/-- One smear step widens the or-window over the source bits from w to
w + c when the shift amount c equals w + 1. -/
theorem orShl32_window (x y w c : Nat) (hc : c = w + 1) (hc32 : c < 32)
    (hch : ∀ j, y.testBit j = true ↔
      j < 32 ∧ ∃ i, i ≤ j ∧ j ≤ i + w ∧ x.testBit i = true) :
    ∀ j, (orShl32 y c).testBit j = true ↔
      j < 32 ∧ ∃ i, i ≤ j ∧ j ≤ i + w + c ∧ x.testBit i = true := by
  intro j
  have hcc : c % 32 = c := Nat.mod_eq_of_lt hc32
  rw [orShl32, w32shl, hcc, Nat.testBit_lor, Nat.testBit_mod_two_pow,
    Nat.testBit_shiftLeft]
  simp only [Bool.or_eq_true, Bool.and_eq_true, decide_eq_true_eq]
  constructor
  · rintro (hy | ⟨hj32, hcj, hyb⟩)
    · obtain ⟨hj32, i, hi1, hi2, hib⟩ := (hch j).mp hy
      exact ⟨hj32, i, hi1, by omega, hib⟩
    · obtain ⟨hj32c, i, hi1, hi2, hib⟩ := (hch (j - c)).mp hyb
      exact ⟨hj32, i, by omega, by omega, hib⟩
  · rintro ⟨hj32, i, hi1, hi2, hib⟩
    by_cases hw : j ≤ i + w
    · exact Or.inl ((hch j).mpr ⟨hj32, i, hi1, hw, hib⟩)
    · exact Or.inr ⟨hj32, by omega,
        (hch (j - c)).mpr ⟨by omega, i, by omega, by omega, hib⟩⟩

/-- Window of width zero: the word itself. -/
theorem smear_base (x : Nat) (hx : x < 2 ^ 32) :
    ∀ j, x.testBit j = true ↔
      j < 32 ∧ ∃ i, i ≤ j ∧ j ≤ i + 0 ∧ x.testBit i = true := by
  intro j
  constructor
  · intro h
    exact ⟨testBit_lt32 hx h, j, Nat.le_refl j, by omega, h⟩
  · rintro ⟨hj, i, h1, h2, hb⟩
    have hij : i = j := by omega
    rw [← hij]
    exact hb

/-- The fuel-bounded trailing-zero count finds the lowest set bit of a
nonzero word within its fuel. -/
theorem ctzAux_spec : ∀ f x : Nat, x ≠ 0 → x < 2 ^ f →
    ctzAux f x < f ∧ x.testBit (ctzAux f x) = true ∧
      ∀ i, i < ctzAux f x → x.testBit i = false := by
  intro f
  induction f with
  | zero => intro x hx hlt; omega
  | succ f ih =>
    intro x hx hlt
    by_cases hm : x % 2 = 1
    · have h0 : ctzAux (f + 1) x = 0 := by simp [ctzAux, hm]
      refine ⟨by omega, ?_, ?_⟩
      · rw [h0, Nat.testBit_zero]
        simp [hm]
      · intro i hi
        rw [h0] at hi
        exact absurd hi (Nat.not_lt_zero i)
    · have hm0 : x % 2 = 0 := by omega
      have h0 : ctzAux (f + 1) x = ctzAux f (x / 2) + 1 := by
        simp [ctzAux, hm]
      have hx2 : x / 2 ≠ 0 := by omega
      have hlt2 : x / 2 < 2 ^ f := by
        have hp : 2 ^ (f + 1) = 2 ^ f * 2 := pow_succ 2 f
        omega
      obtain ⟨ha, hb, hc⟩ := ih (x / 2) hx2 hlt2
      refine ⟨by omega, ?_, ?_⟩
      · rw [h0, Nat.testBit_succ]
        exact hb
      · intro i hi
        rw [h0] at hi
        match i with
        | 0 =>
          rw [Nat.testBit_zero]
          simp [hm0]
        | i + 1 =>
          rw [Nat.testBit_succ]
          exact hc i (by omega)

/-- Popcount of a low block of t ones is t, for every t up to 32. -/
theorem popcnt_ones : ∀ t, t < 33 → makeI32PopcntVal (2 ^ t - 1) = t := by
  decide

/-- C6: for every 32-bit input, the value computed by the graph that
MakeI32Ctz emits (bit-smear by left shifts 1, 2, 4, 8, 16 combined with
or, then the MakeI32Popcnt network applied to the xor with 0xffffffff)
is the number of trailing zero bits of the input, and the zero word
yields 32. -/
theorem c6_ctz_lowered (x : Nat) (hx : x < 2 ^ 32) :
    makeI32CtzVal x = ctz32 x ∧ makeI32CtzVal 0 = 32 := by
  refine ⟨?_, by decide⟩
  by_cases hx0 : x = 0
  · rw [hx0]
    decide
  · obtain ⟨ht32, htb, hlow⟩ := ctzAux_spec 32 x hx0 hx
    set t := ctzAux 32 x with ht
    have h0 := smear_base x hx
    have h1 := orShl32_window x x 0 1 rfl (by omega) h0
    have h2 := orShl32_window x (orShl32 x 1) 1 2 rfl (by omega) h1
    have h3 := orShl32_window x (orShl32 (orShl32 x 1) 2) 3 4 rfl (by omega) h2
    have h4 := orShl32_window x (orShl32 (orShl32 (orShl32 x 1) 2) 4) 7 8 rfl
      (by omega) h3
    have h5 := orShl32_window x
      (orShl32 (orShl32 (orShl32 (orShl32 x 1) 2) 4) 8) 15 16 rfl
      (by omega) h4
    have hs5c : ∀ j,
        (orShl32 (orShl32 (orShl32 (orShl32 (orShl32 x 1) 2) 4) 8) 16).testBit
          j = true ↔ t ≤ j ∧ j < 32 := by
      intro j
      rw [h5 j]
      constructor
      · rintro ⟨hj32, i, hi1, hi2, hib⟩
        have hti : t ≤ i := by
          by_contra hti
          rw [hlow i (by omega)] at hib
          exact Bool.noConfusion hib
        exact ⟨by omega, hj32⟩
      · rintro ⟨htj, hj32⟩
        exact ⟨hj32, t, htj, by omega, htb⟩
    have h32t : 32 - t + t = 32 := by omega
    have hsub : 2 ^ 32 - 2 ^ t = (2 ^ (32 - t) - 1) <<< t := by
      rw [Nat.shiftLeft_eq, Nat.sub_mul, one_mul, ← pow_add, h32t]
    have hs5 :
        orShl32 (orShl32 (orShl32 (orShl32 (orShl32 x 1) 2) 4) 8) 16 =
          2 ^ 32 - 2 ^ t := by
      apply Nat.eq_of_testBit_eq
      intro j
      rw [hsub, Nat.testBit_shiftLeft, Nat.testBit_two_pow_sub_one]
      by_cases hcase : t ≤ j ∧ j < 32
      · have hbt : (orShl32 (orShl32 (orShl32 (orShl32 (orShl32 x 1) 2) 4) 8)
            16).testBit j = true := (hs5c j).mpr hcase
        rw [hbt, decide_eq_true hcase.1, decide_eq_true
          (show j - t < 32 - t by omega)]
        rfl
      · have hbf : (orShl32 (orShl32 (orShl32 (orShl32 (orShl32 x 1) 2) 4) 8)
            16).testBit j = false := by
          cases hcb : (orShl32 (orShl32 (orShl32 (orShl32 (orShl32 x 1) 2) 4)
            8) 16).testBit j
          · rfl
          · exact absurd ((hs5c j).mp hcb) hcase
        rw [hbf]
        by_cases h1t : t ≤ j
        · rw [decide_eq_true h1t,
            decide_eq_false (show ¬ j - t < 32 - t by omega)]
          rfl
        · rw [decide_eq_false h1t]
          rfl
    have hff : (0xffffffff : Nat) = 2 ^ 32 - 1 := by decide
    have hxor : 0xffffffff ^^^
        orShl32 (orShl32 (orShl32 (orShl32 (orShl32 x 1) 2) 4) 8) 16 =
          2 ^ t - 1 := by
      apply Nat.eq_of_testBit_eq
      intro j
      rw [Nat.testBit_xor, hff, hs5, hsub, Nat.testBit_shiftLeft,
        Nat.testBit_two_pow_sub_one, Nat.testBit_two_pow_sub_one,
        Nat.testBit_two_pow_sub_one]
      by_cases hjt : j < t
      · rw [decide_eq_true (show j < 32 by omega),
          decide_eq_false (show ¬ t ≤ j by omega), decide_eq_true hjt]
        rfl
      · by_cases hj32 : j < 32
        · rw [decide_eq_true hj32, decide_eq_true (show t ≤ j by omega),
            decide_eq_true (show j - t < 32 - t by omega),
            decide_eq_false hjt]
          rfl
        · rw [decide_eq_false hj32, decide_eq_true (show t ≤ j by omega),
            decide_eq_false (show ¬ j - t < 32 - t by omega),
            decide_eq_false hjt]
          rfl
    have hdef : makeI32CtzVal x = makeI32PopcntVal (0xffffffff ^^^
        orShl32 (orShl32 (orShl32 (orShl32 (orShl32 x 1) 2) 4) 8) 16) := rfl
    rw [hdef, hxor, popcnt_ones t (by omega), ht]
    rfl

/-- Witness for C6 at input 40 (trailing-zero count 3). -/
theorem c6_witness : (40 : Nat) < 2 ^ 32 ∧ makeI32CtzVal 40 = ctz32 40 :=
  ⟨by decide, (c6_ctz_lowered 40 (by decide)).1⟩

/-- C1 counterexample: a 4-byte linear memory with a 4-byte access at
static offset 0 is in bounds for index 0 under the claim's boundary
(offset greater-or-equal size, or offset + width strictly greater than
size), yet BoundsCheckMem selects the constant-false condition: the
source compares offset + memsize to size with greater-or-equal, so the
access always traps. -/
theorem c1_counterexample :
    memSize .mI32 = 4 ∧
    boundsCheckCond 4 0 (memSize .mI32) = .constFalse ∧
    ¬((4 : Nat) ≤ 0 ∨ (4 : Nat) < 0 + memSize .mI32) := by
  decide

/-- C1 amended: the bounds check condition is the constant false exactly
when offset is at least size or offset + width is AT LEAST size
(greater-or-equal, not strictly greater, ignoring uint32 wrap of the
sum); when the comparison is emitted, its inclusive limit is
size - offset - width, which requires offset + width to be at most size
and the limit to fit uint32 — in the corner where the uint32-wrapped sum
passes the guard but the true sum exceeds size, the size_t limit wraps
negative and the source aborts on CHECK(limit <= kMaxUInt32), modelled
as the checkFail outcome and a none result of BoundsCheckMem.
Otherwise BoundsCheckMem emits Uint32LessThanOrEqual of the dynamic
index against the limit and traps-if-false with reason MemOutOfBounds;
the base pointer is the constant mem_start + offset (a fresh node for a
nonzero offset, the memoized mem_start buffer at offset zero), and
LoadMem and StoreMem in non-asm.js mode perform the access at that base
with the dynamic index, threading the new memory operation through the
effect cursor. -/
theorem c1_bounds_check :
    (∀ size offset memsize : Nat, offset + memsize < 2 ^ 32 →
      (boundsCheckCond size offset memsize = .constFalse ↔
        size ≤ offset ∨ size ≤ offset + memsize)) ∧
    (∀ size offset memsize l : Nat, size < 2 ^ 64 → memsize ≤ 2 ^ 32 →
      boundsCheckCond size offset memsize = .cmp l →
      ¬(size ≤ offset ∨ size ≤ (offset + memsize) % 2 ^ 32) ∧
      offset + memsize ≤ size ∧
      l = size - offset - memsize ∧ l ≤ kMaxUInt32) ∧
    (∀ size offset memsize : Nat, memsize ≤ 2 ^ 32 →
      ¬(size ≤ offset ∨ size ≤ (offset + memsize) % 2 ^ 32) →
      size < offset + memsize →
      boundsCheckCond size offset memsize = .checkFail) ∧
    (∀ (b : Builder) (md : ModuleEnvM) (memtype : MemTy)
      (index offset : Nat), b.module = some md →
      md.memStart ≤ md.memEnd →
      (boundsCheckCond (md.memEnd - md.memStart) offset (memSize memtype) =
          .checkFail → b.boundsCheckMem memtype index offset = none) ∧
      (boundsCheckCond (md.memEnd - md.memStart) offset (memSize memtype) =
          .constFalse →
        b.boundsCheckMem memtype index offset =
          some (({ b with nodes := b.nodes.push ⟨.Int32Const 0, []⟩ } : Builder).addTrapIfFalse .MemOutOfBounds b.nodes.size)) ∧
      (∀ limit,
        boundsCheckCond (md.memEnd - md.memStart) offset (memSize memtype) =
          .cmp limit →
        b.boundsCheckMem memtype index offset =
          some (({ b with nodes := (b.nodes.push ⟨.Int32Const (toInt32 limit), []⟩).push ⟨.Uint32LessThanOrEqual, [index, b.nodes.size]⟩ } : Builder).addTrapIfFalse .MemOutOfBounds (b.nodes.size + 1)))) ∧
    (∀ (b : Builder) (md : ModuleEnvM) (offset : Nat),
      (offset ≠ 0 → b.memBuffer md offset =
        (b.nodes.size,
          { b with nodes := b.nodes.push ⟨.IntPtrConst (md.memStart + offset), []⟩ })) ∧
      (∀ u, offset = 0 → b.memBuf = some u →
        b.memBuffer md offset = (u, b)) ∧
      (offset = 0 → b.memBuf = none →
        b.memBuffer md offset =
          (b.nodes.size,
            { b with nodes := b.nodes.push ⟨.IntPtrConst md.memStart, []⟩, memBuf := some b.nodes.size }))) ∧
    (∀ (b b2 b3 : Builder) (md : ModuleEnvM) (ty : LocalTy)
      (memtype : MemTy) (index offset buf : Nat),
      b.module = some md → md.asmJs = false →
      ¬(ty = .i64 ∧ memSize memtype < 8) →
      b.boundsCheckMem memtype index offset = some b2 →
      b2.memBuffer md offset = (buf, b3) →
      b.loadMem ty memtype index offset =
        some (b3.nodes.size,
          { b3 with nodes := b3.nodes.push ⟨.Load memtype, [buf, index, b3.effect, b3.control]⟩, effect := b3.nodes.size })) ∧
    (∀ (b b2 b3 : Builder) (md : ModuleEnvM) (memtype : MemTy)
      (index offset val buf : Nat),
      b.module = some md → md.asmJs = false →
      b.boundsCheckMem memtype index offset = some b2 →
      b2.memBuffer md offset = (buf, b3) →
      b.storeMem memtype index offset val =
        some (b3.nodes.size,
          { b3 with nodes := b3.nodes.push ⟨.Store memtype, [buf, index, val, b3.effect, b3.control]⟩, effect := b3.nodes.size })) := by
  refine ⟨?_, ?_, ?_, ?_, ?_, ?_, ?_⟩
  · intro size offset memsize hwrap
    have hmod : (offset + memsize) % 2 ^ 32 = offset + memsize :=
      Nat.mod_eq_of_lt hwrap
    have h := (boundsCheckCond_inv size offset memsize).1
    rw [hmod] at h
    exact h
  · intro size offset memsize l hsize hms h
    exact (boundsCheckCond_classify size offset memsize hsize hms).2.1 l h
  · intro size offset memsize hms hg hneg
    have hkm : kMaxUInt32 = 2 ^ 32 - 1 := rfl
    exact (boundsCheckCond_inv size offset memsize).2.2.mpr ⟨hg, by omega⟩
  · intro b md memtype index offset hmod hle
    exact boundsCheckMem_spec b md memtype index offset hmod hle
  · intro b md offset
    exact memBuffer_spec b md offset
  · intro b b2 b3 md ty memtype index offset buf hmod hasm hnarrow hbc hbuf
    exact loadMem_spec b b2 b3 md ty memtype index offset buf hmod hasm
      hnarrow hbc hbuf
  · intro b b2 b3 md memtype index offset val buf hmod hasm hbc hbuf
    exact storeMem_spec b b2 b3 md memtype index offset val buf hmod hasm
      hbc hbuf

/-- Witness for C1 amended on the builder bL (32-byte memory at 1024):
a 4-byte access at offset 4 gets the comparison condition with inclusive
limit 24, the load and store at offset 4 land at node 15 after the base
pointer constant at node 14, and the corner where the uint32-wrapped sum
passes the guard while the true sum exceeds the size is classified as
the CHECK failure. -/
theorem c1_witness :
    (boundsCheckCond 32 4 4 = .constFalse ↔
      (32 : Nat) ≤ 4 ∨ (32 : Nat) ≤ 4 + 4) ∧
    boundsCheckCond (2 ^ 32) (2 ^ 32 - 4) 8 = .checkFail ∧
    (bL.loadMem .i32 .mI32 1 4).map Prod.fst = some 15 ∧
    (bL.storeMem .mI32 1 4 2).map Prod.fst = some 15 := by
  have hC := (c1_bounds_check.2.2.2.1 bL ⟨1024, 1056, false⟩ .mI32 1 4 rfl
    (by decide)).2.2 24 (by decide)
  have hL := c1_bounds_check.2.2.2.2.2.1 bL _ _ ⟨1024, 1056, false⟩ .i32
    .mI32 1 4 _ rfl rfl (by decide) hC rfl
  have hS := c1_bounds_check.2.2.2.2.2.2 bL _ _ ⟨1024, 1056, false⟩
    .mI32 1 4 2 _ rfl rfl hC rfl
  refine ⟨c1_bounds_check.1 32 4 4 (by decide),
    c1_bounds_check.2.2.1 (2 ^ 32) (2 ^ 32 - 4) 8 (by decide) (by decide)
      (by decide), ?_, ?_⟩
  · rw [hL]
    rfl
  · rw [hS]
    rfl

/-- C2: the signed division binops emit, before and dominating the
division node, a DivByZero trap check firing when the divisor is zero
and, on the path where the divisor equals minus one, a DivUnrepresentable
check of the dividend against INT_MIN; every backward control path from
the division node's control input (the two-way Merge) to the pre-call
control passes through the zero-check branch and through either the
INT_MIN-check branch or the IfFalse projection of the divisor-equals
minus-one test.  Stated for kExprI32DivS and for kExprI64DivS (the
64-bit-target case) on operands that are not compile-time constants
folding the checks away. -/
theorem c2_divs_checked :
    (∀ (b : Builder) (left right rid : Nat) (r2 : Builder)
    (s t u : Nat) (ns5 ns7 : Array Node) (b1 b4 b5 : Builder)
    (hwf : wfB b = true)
    (hnc0 : isInt32ConstNe (b.nodeAt right).op 0 = false)
    (hncm : isInt32ConstNe (b.nodeAt left).op kMinInt32 = false)
    (hleft : left < b.nodes.size)
    (hjoin : isJoinOp (b.nodeAt left).op = false)
    (heq : b.binopI32DivS left right = (rid, r2))
    (hb1 : b1 = b.addTrapIfFalse .DivByZero right)
    (hns5 : ns5 = ((((b1.nodes.push ⟨.Int32Const (toInt32 (-1)), []⟩).push ⟨.Word32Equal, [right, b1.nodes.size]⟩).push ⟨.Branch .hNone, [b1.nodes.size + 1, b1.control]⟩).push ⟨.IfTrue, [b1.nodes.size + 2]⟩).push ⟨.IfFalse, [b1.nodes.size + 2]⟩)
    (hb4 : b4 = { b1 with nodes := ns5, control := b1.nodes.size + 3 })
    (hns7 : ns7 = (b4.nodes.push ⟨.Int32Const (toInt32 kMinInt32), []⟩).push ⟨.Word32Equal, [left, b4.nodes.size]⟩)
    (hb5 : b5 = { b4 with nodes := ns7 }.addTrapIfTrue .DivUnrepresentable (b4.nodes.size + 1))
    (hs : s = b.nodes.size) (ht : t = b1.nodes.size)
    (hu : u = b5.nodes.size),
    rid = u + 1 ∧
    r2.nodeAt s = ⟨.Branch .hTrue, [right, b.control]⟩ ∧
    r2.nodeAt (s + 1) = ⟨.IfTrue, [s]⟩ ∧
    r2.nodeAt (s + 2) = ⟨.IfFalse, [s]⟩ ∧
    r2.nodeAt t = ⟨.Int32Const (toInt32 (-1)), []⟩ ∧
    r2.nodeAt (t + 1) = ⟨.Word32Equal, [right, t]⟩ ∧
    r2.nodeAt (t + 2) = ⟨.Branch .hNone, [t + 1, s + 1]⟩ ∧
    r2.nodeAt (t + 3) = ⟨.IfTrue, [t + 2]⟩ ∧
    r2.nodeAt (t + 4) = ⟨.IfFalse, [t + 2]⟩ ∧
    r2.nodeAt (t + 5) = ⟨.Int32Const (toInt32 kMinInt32), []⟩ ∧
    r2.nodeAt (t + 6) = ⟨.Word32Equal, [left, t + 5]⟩ ∧
    r2.nodeAt (t + 7) = ⟨.Branch .hFalse, [t + 6, t + 3]⟩ ∧
    r2.nodeAt (t + 8) = ⟨.IfTrue, [t + 7]⟩ ∧
    r2.nodeAt (t + 9) = ⟨.IfFalse, [t + 7]⟩ ∧
    r2.nodeAt u = ⟨.Merge 2, [t + 4, t + 9]⟩ ∧
    r2.nodeAt (u + 1) = ⟨.Int32Div, [left, right, u]⟩ ∧
    (∃ m p, r2.traps .DivByZero = some m ∧
      r2.trapEffects .DivByZero = some p ∧
      (s + 2) ∈ (r2.nodeAt m).inputs) ∧
    (∃ m p, r2.traps .DivUnrepresentable = some m ∧
      r2.trapEffects .DivUnrepresentable = some p ∧
      (t + 8) ∈ (r2.nodeAt m).inputs) ∧
    (∀ tr, CPathTo r2 b.control u tr →
      s ∈ tr ∧ (t + 7 ∈ tr ∨ t + 4 ∈ tr))) ∧
    (∀ (b : Builder) (left right rid : Nat) (r2 : Builder)
    (s t u : Nat) (ns0 ns5 ns7 : Array Node) (b0 b1 b4 b5 : Builder)
    (hwf : wfB b = true)
    (hnc0 : isInt64ConstNe (b.nodeAt right).op 0 = false)
    (hncm : isInt64ConstNe (b.nodeAt left).op kMinInt64 = false)
    (hleft : left < b.nodes.size)
    (hjoin : isJoinOp (b.nodeAt left).op = false)
    (heq : b.binopI64DivS left right = (rid, r2))
    (hns0 : ns0 = (b.nodes.push ⟨.Int64Const (toInt64 0), []⟩).push ⟨.Word64Equal, [right, b.nodes.size]⟩)
    (hb0 : b0 = { b with nodes := ns0 })
    (hb1 : b1 = b0.addTrapIfTrue .DivByZero (b.nodes.size + 1))
    (hns5 : ns5 = ((((b1.nodes.push ⟨.Int64Const (toInt64 (-1)), []⟩).push ⟨.Word64Equal, [right, b1.nodes.size]⟩).push ⟨.Branch .hNone, [b1.nodes.size + 1, b1.control]⟩).push ⟨.IfTrue, [b1.nodes.size + 2]⟩).push ⟨.IfFalse, [b1.nodes.size + 2]⟩)
    (hb4 : b4 = { b1 with nodes := ns5, control := b1.nodes.size + 3 })
    (hns7 : ns7 = (b4.nodes.push ⟨.Int64Const (toInt64 kMinInt64), []⟩).push ⟨.Word64Equal, [left, b4.nodes.size]⟩)
    (hb5 : b5 = { b4 with nodes := ns7 }.addTrapIfTrue .DivUnrepresentable (b4.nodes.size + 1))
    (hs : s = b.nodes.size) (ht : t = b1.nodes.size)
    (hu : u = b5.nodes.size),
    rid = u + 1 ∧
    r2.nodeAt s = ⟨.Int64Const (toInt64 0), []⟩ ∧
    r2.nodeAt (s + 1) = ⟨.Word64Equal, [right, s]⟩ ∧
    r2.nodeAt (s + 2) = ⟨.Branch .hFalse, [s + 1, b.control]⟩ ∧
    r2.nodeAt (s + 3) = ⟨.IfTrue, [s + 2]⟩ ∧
    r2.nodeAt (s + 4) = ⟨.IfFalse, [s + 2]⟩ ∧
    r2.nodeAt t = ⟨.Int64Const (toInt64 (-1)), []⟩ ∧
    r2.nodeAt (t + 1) = ⟨.Word64Equal, [right, t]⟩ ∧
    r2.nodeAt (t + 2) = ⟨.Branch .hNone, [t + 1, s + 4]⟩ ∧
    r2.nodeAt (t + 3) = ⟨.IfTrue, [t + 2]⟩ ∧
    r2.nodeAt (t + 4) = ⟨.IfFalse, [t + 2]⟩ ∧
    r2.nodeAt (t + 5) = ⟨.Int64Const (toInt64 kMinInt64), []⟩ ∧
    r2.nodeAt (t + 6) = ⟨.Word64Equal, [left, t + 5]⟩ ∧
    r2.nodeAt (t + 7) = ⟨.Branch .hFalse, [t + 6, t + 3]⟩ ∧
    r2.nodeAt (t + 8) = ⟨.IfTrue, [t + 7]⟩ ∧
    r2.nodeAt (t + 9) = ⟨.IfFalse, [t + 7]⟩ ∧
    r2.nodeAt u = ⟨.Merge 2, [t + 4, t + 9]⟩ ∧
    r2.nodeAt (u + 1) = ⟨.Int64Div, [left, right, u]⟩ ∧
    (∃ m p, r2.traps .DivByZero = some m ∧
      r2.trapEffects .DivByZero = some p ∧
      (s + 3) ∈ (r2.nodeAt m).inputs) ∧
    (∃ m p, r2.traps .DivUnrepresentable = some m ∧
      r2.trapEffects .DivUnrepresentable = some p ∧
      (t + 8) ∈ (r2.nodeAt m).inputs) ∧
    (∀ tr, CPathTo r2 b.control u tr →
      s + 2 ∈ tr ∧ (t + 7 ∈ tr ∨ t + 4 ∈ tr))) := by
  constructor
  · intro b left right rid r2 s t u ns5 ns7 b1 b4 b5 hwf hnc0 hncm hleft
      hjoin heq hb1 hns5 hb4 hns7 hb5 hs ht hu
    exact divS32_shape b left right rid r2 s t u ns5 ns7 b1 b4 b5 hwf hnc0
      hncm hleft hjoin heq hb1 hns5 hb4 hns7 hb5 hs ht hu
  · intro b left right rid r2 s t u ns0 ns5 ns7 b0 b1 b4 b5 hwf hnc0 hncm
      hleft hjoin heq hns0 hb0 hb1 hns5 hb4 hns7 hb5 hs ht hu
    exact divS64_shape b left right rid r2 s t u ns0 ns5 ns7 b0 b1 b4 b5
      hwf hnc0 hncm hleft hjoin heq hns0 hb0 hb1 hns5 hb4 hns7 hb5 hs ht hu

/-- Witness for C2 on the fresh builder bW with parameter operands: the
32-bit divide emits its zero-check branch at node 3 and the minus-one
constant at node 12, and the 64-bit divide emits the zero constant at
node 3 and its trap branch at node 5. -/
theorem c2_witness :
    (bW.binopI32DivS 1 2).2.nodeAt 3 = ⟨.Branch .hTrue, [2, 0]⟩ ∧
    (bW.binopI32DivS 1 2).2.nodeAt 12 = ⟨.Int32Const (toInt32 (-1)), []⟩ ∧
    (bW.binopI64DivS 1 2).2.nodeAt 3 = ⟨.Int64Const (toInt64 0), []⟩ ∧
    (bW.binopI64DivS 1 2).2.nodeAt 5 = ⟨.Branch .hFalse, [4, 0]⟩ := by
  have h32 := c2_divs_checked.1 bW 1 2 _ _ 3 _ _ _ _ _ _ _ (by decide)
    (by decide) (by decide) (by decide) (by decide) rfl rfl rfl rfl rfl rfl
    rfl rfl rfl
  have h64 := c2_divs_checked.2 bW 1 2 _ _ 3 14 29 _ _ _ _ _ _ _ (by decide)
    (by decide) (by decide) (by decide) (by decide) rfl rfl rfl rfl rfl rfl
    rfl rfl rfl rfl rfl
  exact ⟨h32.2.1, h32.2.2.2.2.1, h64.2.1, h64.2.2.2.1⟩

/-- C5 counterexample: the zero check of kExprI32RemS populates the trap
cache for RemByZero, not DivByZero: running the signed remainder binop on
a fresh two-parameter builder leaves the DivByZero entry empty and
creates the RemByZero trap block (its Merge is node 7), and the two
reasons carry different diagnostic messages. -/
theorem c5_counterexample :
    (bW.binopI32RemS 1 2).2.traps .DivByZero = none ∧
    (bW.binopI32RemS 1 2).2.traps .RemByZero = some 7 ∧
    trapMessage .DivByZero ≠ trapMessage .RemByZero := by
  decide

/-- C5 amended: every integer remainder binop traps with reason
RemByZero (not DivByZero) when the divisor is zero, before the
arithmetic; the signed forms build a Diamond on divisor equal minus one
anchored at the graph Start, with the mod node control-dependent on the
IfFalse projection and the result a two-way Phi of the constant zero and
the mod over the diamond Merge; the unsigned forms anchor the mod at the
control returned by the zero check.  Stated for I32RemS, I32RemU,
I64RemS and I64RemU on any builder whose divisor operand is not a
constant that folds the check away. -/
theorem c5_remainder_ops :
    (∀ (b : Builder) (left right rid : Nat) (r2 : Builder) (s t : Nat)
      (b1 : Builder), wfB b = true →
      isInt32ConstNe (b.nodeAt right).op 0 = false →
      b.binopI32RemS left right = (rid, r2) →
      b1 = b.addTrapIfFalse .RemByZero right →
      s = b.nodes.size → t = b1.nodes.size →
      rid = t + 8 ∧
      r2.nodeAt s = ⟨.Branch .hTrue, [right, b.control]⟩ ∧
      r2.nodeAt (s + 1) = ⟨.IfTrue, [s]⟩ ∧
      r2.nodeAt (s + 2) = ⟨.IfFalse, [s]⟩ ∧
      r2.nodeAt t = ⟨.Int32Const (toInt32 (-1)), []⟩ ∧
      r2.nodeAt (t + 1) = ⟨.Word32Equal, [right, t]⟩ ∧
      r2.nodeAt (t + 2) = ⟨.Branch .hNone, [t + 1, b.startN]⟩ ∧
      r2.nodeAt (t + 3) = ⟨.IfTrue, [t + 2]⟩ ∧
      r2.nodeAt (t + 4) = ⟨.IfFalse, [t + 2]⟩ ∧
      r2.nodeAt (t + 5) = ⟨.Merge 2, [t + 3, t + 4]⟩ ∧
      r2.nodeAt (t + 6) = ⟨.Int32Mod, [left, right, t + 4]⟩ ∧
      r2.nodeAt (t + 7) = ⟨.Int32Const (toInt32 0), []⟩ ∧
      r2.nodeAt (t + 8) = ⟨.Phi .machInt32 2, [t + 7, t + 6, t + 5]⟩ ∧
      (∃ m p, r2.traps .RemByZero = some m ∧
        r2.trapEffects .RemByZero = some p ∧
        (s + 2) ∈ (r2.nodeAt m).inputs) ∧
      (∀ R2, R2 ≠ .RemByZero → r2.traps R2 = b.traps R2)) ∧
    (∀ (b : Builder) (left right rid : Nat) (r2 : Builder) (s t : Nat)
      (b1 : Builder), wfB b = true →
      isInt32ConstNe (b.nodeAt right).op 0 = false →
      b.binopI32RemU left right = (rid, r2) →
      b1 = b.addTrapIfFalse .RemByZero right →
      s = b.nodes.size → t = b1.nodes.size →
      rid = t ∧
      r2.nodeAt s = ⟨.Branch .hTrue, [right, b.control]⟩ ∧
      r2.nodeAt (s + 1) = ⟨.IfTrue, [s]⟩ ∧
      r2.nodeAt (s + 2) = ⟨.IfFalse, [s]⟩ ∧
      b1.control = s + 1 ∧
      r2.nodeAt t = ⟨.Uint32Mod, [left, right, s + 1]⟩ ∧
      (∃ m p, r2.traps .RemByZero = some m ∧
        r2.trapEffects .RemByZero = some p ∧
        (s + 2) ∈ (r2.nodeAt m).inputs) ∧
      (∀ R2, R2 ≠ .RemByZero → r2.traps R2 = b.traps R2)) ∧
    (∀ (b : Builder) (left right rid : Nat) (r2 : Builder) (s t : Nat)
      (ns0 : Array Node) (b0 b1 : Builder), wfB b = true →
      isInt64ConstNe (b.nodeAt right).op 0 = false →
      b.binopI64RemS left right = (rid, r2) →
      ns0 = (b.nodes.push ⟨.Int64Const (toInt64 0), []⟩).push ⟨.Word64Equal, [right, b.nodes.size]⟩ →
      b0 = { b with nodes := ns0 } →
      b1 = b0.addTrapIfTrue .RemByZero (b.nodes.size + 1) →
      s = b.nodes.size → t = b1.nodes.size →
      rid = t + 8 ∧
      r2.nodeAt s = ⟨.Int64Const (toInt64 0), []⟩ ∧
      r2.nodeAt (s + 1) = ⟨.Word64Equal, [right, s]⟩ ∧
      r2.nodeAt (s + 2) = ⟨.Branch .hFalse, [s + 1, b.control]⟩ ∧
      r2.nodeAt (s + 3) = ⟨.IfTrue, [s + 2]⟩ ∧
      r2.nodeAt (s + 4) = ⟨.IfFalse, [s + 2]⟩ ∧
      r2.nodeAt t = ⟨.Int64Const (toInt64 (-1)), []⟩ ∧
      r2.nodeAt (t + 1) = ⟨.Word64Equal, [right, t]⟩ ∧
      r2.nodeAt (t + 2) = ⟨.Branch .hNone, [t + 1, b.startN]⟩ ∧
      r2.nodeAt (t + 3) = ⟨.IfTrue, [t + 2]⟩ ∧
      r2.nodeAt (t + 4) = ⟨.IfFalse, [t + 2]⟩ ∧
      r2.nodeAt (t + 5) = ⟨.Merge 2, [t + 3, t + 4]⟩ ∧
      r2.nodeAt (t + 6) = ⟨.Int64Mod, [left, right, t + 4]⟩ ∧
      r2.nodeAt (t + 7) = ⟨.Int64Const (toInt64 0), []⟩ ∧
      r2.nodeAt (t + 8) = ⟨.Phi .machInt64 2, [t + 7, t + 6, t + 5]⟩ ∧
      (∃ m p, r2.traps .RemByZero = some m ∧
        r2.trapEffects .RemByZero = some p ∧
        (s + 3) ∈ (r2.nodeAt m).inputs) ∧
      (∀ R2, R2 ≠ .RemByZero → r2.traps R2 = b.traps R2)) ∧
    (∀ (b : Builder) (left right rid : Nat) (r2 : Builder) (s t : Nat)
      (ns0 : Array Node) (b0 b1 : Builder), wfB b = true →
      isInt64ConstNe (b.nodeAt right).op 0 = false →
      b.binopI64RemU left right = (rid, r2) →
      ns0 = (b.nodes.push ⟨.Int64Const (toInt64 0), []⟩).push ⟨.Word64Equal, [right, b.nodes.size]⟩ →
      b0 = { b with nodes := ns0 } →
      b1 = b0.addTrapIfTrue .RemByZero (b.nodes.size + 1) →
      s = b.nodes.size → t = b1.nodes.size →
      rid = t ∧
      r2.nodeAt s = ⟨.Int64Const (toInt64 0), []⟩ ∧
      r2.nodeAt (s + 1) = ⟨.Word64Equal, [right, s]⟩ ∧
      r2.nodeAt (s + 2) = ⟨.Branch .hFalse, [s + 1, b.control]⟩ ∧
      r2.nodeAt (s + 3) = ⟨.IfTrue, [s + 2]⟩ ∧
      r2.nodeAt (s + 4) = ⟨.IfFalse, [s + 2]⟩ ∧
      b1.control = s + 4 ∧
      r2.nodeAt t = ⟨.Uint64Mod, [left, right, s + 4]⟩ ∧
      (∃ m p, r2.traps .RemByZero = some m ∧
        r2.trapEffects .RemByZero = some p ∧
        (s + 3) ∈ (r2.nodeAt m).inputs) ∧
      (∀ R2, R2 ≠ .RemByZero → r2.traps R2 = b.traps R2)) := by
  refine ⟨?_, ?_, ?_, ?_⟩
  · intro b left right rid r2 s t b1 hwf hnc heq hb1 hs ht
    exact remS32_shape b left right rid r2 s t b1 hwf hnc heq hb1 hs ht
  · intro b left right rid r2 s t b1 hwf hnc heq hb1 hs ht
    exact remU32_shape b left right rid r2 s t b1 hwf hnc heq hb1 hs ht
  · intro b left right rid r2 s t ns0 b0 b1 hwf hnc heq hns0 hb0 hb1 hs ht
    exact remS64_shape b left right rid r2 s t ns0 b0 b1 hwf hnc heq hns0
      hb0 hb1 hs ht
  · intro b left right rid r2 s t ns0 b0 b1 hwf hnc heq hns0 hb0 hb1 hs ht
    exact remU64_shape b left right rid r2 s t ns0 b0 b1 hwf hnc heq hns0
      hb0 hb1 hs ht

/-- Witness for C5 amended at the fresh builder bW with operands the two
parameter nodes: one structural fact per remainder opcode. -/
theorem c5_amended_witness :
    (bW.binopI32RemS 1 2).2.nodeAt 3 = ⟨.Branch .hTrue, [2, 0]⟩ ∧
    (bW.binopI32RemU 1 2).2.nodeAt
      ((bW.addTrapIfFalse .RemByZero 2).nodes.size) =
      ⟨.Uint32Mod, [1, 2, 4]⟩ ∧
    (bW.binopI64RemS 1 2).2.nodeAt 3 = ⟨.Int64Const (toInt64 0), []⟩ ∧
    (bW.binopI64RemU 1 2).2.nodeAt 5 = ⟨.Branch .hFalse, [4, 0]⟩ :=
  ⟨(c5_remainder_ops.1 bW 1 2 _ _ 3 _ _ (by decide) (by decide) rfl rfl
      rfl rfl).2.1,
   (c5_remainder_ops.2.1 bW 1 2 _ _ 3 _ _ (by decide) (by decide) rfl rfl
      rfl rfl).2.2.2.2.2.1,
   (c5_remainder_ops.2.2.1 bW 1 2 _ _ 3 _ _ _ _ (by decide) (by decide)
      rfl rfl rfl rfl rfl rfl).2.1,
   (c5_remainder_ops.2.2.2 bW 1 2 _ _ 3 _ _ _ _ (by decide) (by decide)
      rfl rfl rfl rfl rfl rfl).2.2.2.1⟩

/-- C4 counterexample: the opcode table reports I32Clz unsupported on
both 32-bit and 64-bit targets, yet Unop unconditionally emits exactly
the opcode's own primitive machine operator Word32Clz - neither a
lowered sequence avoiding it nor a hard error. -/
theorem c4_counterexample :
    isSupported false .I32Clz = false ∧ isSupported true .I32Clz = false ∧
    unopMachOps false flagsNone .I32Clz = .emits [.Word32Clz] ∧
    unopMachOps true flagsNone .I32Clz = .emits [.Word32Clz] ∧
    machPrimitiveFor .I32Clz = some .Word32Clz ∧
    emitsAvoiding .I32Clz (unopMachOps false flagsNone .I32Clz) = false := by
  decide

/-- C4 amended: off the enumerated divergences (c4Exception: Clz, the
64-bit integer-to-float conversions, and the flag-dependent Ctz, Popcnt,
Min, Max and float-rounding cases), every opcode the table reports
unsupported leads Binop and Unop either to the hard UnsupportedOpcode
error or to a lowered emission avoiding the opcode's primitive operator
and using only unconditionally available machine operators. -/
theorem c4_amended (wasm64 : Bool) (fl : MachineFlags) (op : WasmOpcode)
    (hunsup : isSupported wasm64 op = false)
    (hexc : c4Exception wasm64 fl op = false) :
    emitsAvoiding op (binopMachOps wasm64 fl op) = true ∧
    emitsAvoiding op (unopMachOps wasm64 fl op) = true := by
  cases op <;> cases wasm64 <;>
    first
      | exact absurd hunsup (by decide)
      | exact ⟨rfl, rfl⟩
      | (simp only [c4Exception, Bool.true_and, Bool.false_and] at hexc
         first
           | exact Bool.noConfusion hexc
           | (simp only [binopMachOps, unopMachOps, hexc]
              exact ⟨rfl, rfl⟩))

/-- Witness for C4 amended: I32Ctz on a machine without a native ctz is
table-unsupported and outside the divergence list, and indeed both
emission projections respect the unsupported status (Binop errors, Unop
lowers to smear-and-popcount without Word32Ctz). -/
theorem c4_amended_witness :
    (isSupported false .I32Ctz = false ∧
     c4Exception false flagsNone .I32Ctz = false) ∧
    (emitsAvoiding .I32Ctz (binopMachOps false flagsNone .I32Ctz) = true ∧
     emitsAvoiding .I32Ctz (unopMachOps false flagsNone .I32Ctz) = true) :=
  ⟨⟨by decide, by decide⟩,
   c4_amended false flagsNone .I32Ctz (by decide) (by decide)⟩

end WasmTF
